import Mathlib

/-! EventProcessor: a verification development.

Shallow embedding of parts of `FWCore/Framework/src/EventProcessor.cc`, and of
`EVTColContainer` (`HLTriggerOffline/Higgs/src/EVTColContainer.cc`) and
`l1t::tableRow::getRowValue` (`L1Trigger/L1TCommon/interface/setting.h`).

Conventions of the embedding.

* `unsigned int` / `int` configuration values are natural numbers / integers; a
  fixed width is made explicit (`% 2 ^ 64`, `% 2 ^ 32`) wherever the code does
  arithmetic that can leave the range.
* A C++ function that can throw returns `Except Exception _`, or an `Outcome`
  where it can also leave through `exit`, abort, or wait for ever.
* Calls into external collaborators (source, Schedule, state machine, services,
  operating system) are resolved by an explicit environment argument that says
  what each call returned.  A loop that waits on the outside world runs over
  the list of events the environment supplies and counts as still waiting when
  the list runs out.
* A member call whose body is outside this file is taken to return unless the
  environment has an answer that says it throws.
-/

namespace EventProcessor

/-! ## Errors -/

/-- A `cms::Exception`: its category and the text streamed into it. -/
structure Exception where
  category : String
  message : String
  deriving DecidableEq, Repr

/-! ## `EventProcessor::init`: threading options (lines 435-452, 523-535) -/

/-- The part of the `options` parameter set read by the threading code of `init`.
`none` means `existsAs<unsigned int>(name, false)` is false. -/
structure OptionsPset where
  numberOfThreads : Option Nat
  numberOfStreams : Option Nat
  deriving DecidableEq, Repr

/-- `PreallocationConfiguration{nThreads, nStreams, nConcurrentLumis, nConcurrentRuns}`. -/
structure PreallocationConfiguration where
  nThreads : Nat
  nStreams : Nat
  nConcurrentLumis : Nat
  nConcurrentRuns : Nat
  deriving DecidableEq, Repr

/-- Lines 436-442 of `init`: `nThreads` starts at 1, takes the option when it
exists and is reset to 1 when the option is 0. -/
def initThreads (optionsPset : OptionsPset) : Nat :=
  match optionsPset.numberOfThreads with
  | none => 1
  | some requested => if requested = 0 then 1 else requested

/-- Lines 446-452 of `init`: `nStreams` starts at 1, takes the option when it
exists and becomes `nThreads` when the option is 0. -/
def initStreams (optionsPset : OptionsPset) (nThreads : Nat) : Nat :=
  match optionsPset.numberOfStreams with
  | none => 1
  | some requested => if requested = 0 then nThreads else requested

/-- The value `init` stores in `preallocations_` (line 535).  `looper` is
whether `fillLooper` returned a looper (line 525). -/
def init (optionsPset : OptionsPset) (looper : Bool) : PreallocationConfiguration :=
  let nThreads := initThreads optionsPset
  let nStreams := initStreams optionsPset nThreads
  let nConcurrentRuns := 1
  let nConcurrentLumis := 1
  if looper then
    { nThreads := nThreads, nStreams := 1, nConcurrentLumis := 1, nConcurrentRuns := 1 }
  else
    { nThreads := nThreads, nStreams := nStreams,
      nConcurrentLumis := nConcurrentLumis, nConcurrentRuns := nConcurrentRuns }

/-! ## `EventProcessor::createStateMachine` (lines 1262-1292) -/

namespace statemachine

/-- `statemachine::FileMode`. -/
inductive FileMode where
  | NOMERGE
  | FULLMERGE
  deriving DecidableEq, Repr

/-- `statemachine::EmptyRunLumiMode`. -/
inductive EmptyRunLumiMode where
  | handleEmptyRunsAndLumis
  | handleEmptyRuns
  | doNotHandleEmptyRunsAndLumis
  deriving DecidableEq, Repr

/-- What `createStateMachine` builds: the two constructor arguments of
`statemachine::Machine` and whether `initiate()` has been called on it. -/
structure Machine where
  fileMode : FileMode
  emptyRunLumiMode : EmptyRunLumiMode
  initiated : Bool
  deriving DecidableEq, Repr

end statemachine

/-- Lines 1264-1272: the `fileMode_` string decoded, or the Configuration error. -/
def decodeFileMode (fileMode_ : String) : Except Exception statemachine.FileMode :=
  if fileMode_ = "" then .ok .FULLMERGE
  else if fileMode_ = "NOMERGE" then .ok .NOMERGE
  else if fileMode_ = "FULLMERGE" then .ok .FULLMERGE
  else .error
    { category := "Configuration"
      message := "Illegal fileMode parameter value: " ++ fileMode_ ++ ".\n"
        ++ "Legal values are 'NOMERGE' and 'FULLMERGE'.\n" }

/-- Lines 1274-1283: the `emptyRunLumiMode_` string decoded, or the Configuration error. -/
def decodeEmptyRunLumiMode (emptyRunLumiMode_ : String) :
    Except Exception statemachine.EmptyRunLumiMode :=
  if emptyRunLumiMode_ = "" then .ok .handleEmptyRunsAndLumis
  else if emptyRunLumiMode_ = "handleEmptyRunsAndLumis" then .ok .handleEmptyRunsAndLumis
  else if emptyRunLumiMode_ = "handleEmptyRuns" then .ok .handleEmptyRuns
  else if emptyRunLumiMode_ = "doNotHandleEmptyRunsAndLumis" then
    .ok .doNotHandleEmptyRunsAndLumis
  else .error
    { category := "Configuration"
      message := "Illegal emptyMode parameter value: " ++ emptyRunLumiMode_ ++ ".\n"
        ++ "Legal values are 'handleEmptyRunsAndLumis', 'handleEmptyRuns', "
        ++ "and 'doNotHandleEmptyRunsAndLumis'.\n" }

/-- `EventProcessor::createStateMachine`: decode `fileMode_`, then
`emptyRunLumiMode_`, then construct the machine and `initiate()` it. -/
def createStateMachine (fileMode_ emptyRunLumiMode_ : String) :
    Except Exception statemachine.Machine :=
  match decodeFileMode fileMode_ with
  | .error e => .error e
  | .ok fileMode =>
    match decodeEmptyRunLumiMode emptyRunLumiMode_ with
    | .error e => .error e
    | .ok emptyRunLumiMode =>
      .ok { fileMode := fileMode, emptyRunLumiMode := emptyRunLumiMode, initiated := true }

/-- The legal `fileMode` strings of the options table. -/
def legalFileModes : List String := ["", "NOMERGE", "FULLMERGE"]

/-- The legal `emptyRunLumiMode` strings of the options table. -/
def legalEmptyRunLumiModes : List String :=
  ["", "handleEmptyRunsAndLumis", "handleEmptyRuns", "doNotHandleEmptyRunsAndLumis"]

/-! ## The parent dispatcher `MessageSenderToSource` (lines 759-900)

File descriptors are natural numbers (the descriptors handed out by
`socketpair` and `pipe` are non-negative).  An `fd_set` is the list of the
descriptors whose bit is set. -/

/-- Modelled from the spec: `multicore::MessageForSource` is declared outside
this file; the wire format section gives both of its fields as `uint64`, so
arithmetic on them is modulo `2 ^ 64`. -/
def uint64Modulus : Nat := 18446744073709551616

/-- Modulus of `unsigned int` arithmetic. -/
def uintModulus : Nat := 4294967296

/-- `multicore::MessageForSource{startIndex, nIndices}`. -/
structure MessageForSource where
  startIndex : Nat
  nIndices : Nat
  deriving DecidableEq, Repr

/-- A reply that `send` accepted (`rc >= 0`) together with the socket it went to. -/
structure Reply where
  fd : Nat
  msg : MessageForSource
  deriving DecidableEq, Repr

/-- `FD_SET(fd, &set)`. -/
def fdSet (fd : Nat) (set : List Nat) : List Nat :=
  if fd ∈ set then set else set ++ [fd]

/-- `FD_CLR(fd, &set)`. -/
def fdClr (fd : Nat) (set : List Nat) : List Nat :=
  set.filter (fun x => x ≠ fd)

/-- `FD_ISSET(fd, &set)`. -/
def fdIsSet (fd : Nat) (set : List Nat) : Bool :=
  decide (fd ∈ set)

/-- The data members of `MessageSenderToSource` after its constructor ran. -/
structure MessageSenderToSource where
  m_childrenPipes : List Nat
  m_nEventsToProcess : Nat
  m_socketSet : List Nat
  m_aliveChildren : Nat
  m_maxFd : Nat
  deriving DecidableEq, Repr

/-- The constructor (lines 772-794): every socket and every pipe is put in
`m_socketSet`, `m_maxFd` is one more than the largest descriptor, and the
alive count is the number of sockets (stored in an `unsigned int`). -/
def MessageSenderToSource.construct (childrenSockets childrenPipes : List Nat)
    (iNEventsToProcess : Nat) : MessageSenderToSource :=
  { m_childrenPipes := childrenPipes
    m_nEventsToProcess := iNEventsToProcess
    m_socketSet := (childrenSockets ++ childrenPipes).foldl (fun set fd => fdSet fd set) []
    m_aliveChildren := childrenSockets.length % uintModulus
    m_maxFd := (childrenSockets ++ childrenPipes).foldl (fun m fd => if fd > m then fd else m) 0 + 1 }

/-- The mutable state of one run of `operator()`: the monitored set, the alive
count, the message being sent, and two records of what the run did: the
descriptors passed to `close` and the replies accepted by `send`, in order. -/
structure SenderRun where
  socketSet : List Nat
  aliveChildren : Nat
  sndmsg : MessageForSource
  closed : List Nat
  sent : List Reply
  deriving DecidableEq, Repr

/-- What the operating system answers during one pass of the `do` loop: the
final result of `select` (after the `EINTR` retries), which descriptors it
reports readable and in error, and for each descriptor the final result of
`read`, `recv` and `send` on it (after the `EINTR` retries). -/
structure SelectRound where
  selectRc : Int
  readable : List Nat
  inError : List Nat
  readRc : Nat → Int
  recvRc : Nat → Int
  sendRc : Nat → Int

/-- `m_aliveChildren--` on an `unsigned int`. -/
def decrementAlive (s : SenderRun) : SenderRun :=
  { s with aliveChildren := (s.aliveChildren + uintModulus - 1) % uintModulus }

/-- `FD_CLR(idx, &m_socketSet); close(idx);`. -/
def clearAndClose (idx : Nat) (s : SenderRun) : SenderRun :=
  { s with socketSet := fdClr idx s.socketSet, closed := s.closed ++ [idx] }

/-- Lines 845-849: the alive count drops once for every entry of
`m_childrenPipes` equal to `idx`. -/
def errorPipeScan (pipes : List Nat) (idx : Nat) (s : SenderRun) : SenderRun :=
  pipes.foldl (fun acc pipe => if pipe = idx then decrementAlive acc else acc) s

/-- Lines 859-871: for every entry of `m_childrenPipes` equal to `idx` the
descriptor is read, and on `rc <= 0` the alive count drops and the descriptor
is cleared and closed.  The first component is `is_pipe`. -/
def watchdogPipeScan (pipes : List Nat) (rc : Int) (idx : Nat) (s : SenderRun) :
    Bool × SenderRun :=
  pipes.foldl
    (fun acc pipe =>
      if pipe = idx then
        (true, if rc ≤ 0 then clearAndClose idx (decrementAlive acc.2) else acc.2)
      else acc)
    (false, s)

/-- Lines 874-894: the request is received and answered; a negative `recv` or
`send` result clears and closes the socket, otherwise the reply counts as sent
and `startIndex` is advanced by `nIndices`. -/
def serveSocket (r : SelectRound) (idx : Nat) (s : SenderRun) : SenderRun :=
  if r.recvRc idx < 0 then clearAndClose idx s
  else if r.sendRc idx < 0 then clearAndClose idx s
  else
    { s with
      sent := s.sent ++ [{ fd := idx, msg := s.sndmsg }]
      sndmsg := { s.sndmsg with
        startIndex := (s.sndmsg.startIndex + s.sndmsg.nIndices) % uint64Modulus } }

/-- The body of `for (int idx = 0; idx < m_maxFd; idx++)` (lines 837-895).
`readSockets` and `errorSockets` are the sets `select` left behind. -/
def handleFd (pipes : List Nat) (r : SelectRound) (readSockets errorSockets : List Nat)
    (s : SenderRun) (idx : Nat) : SenderRun :=
  if fdIsSet idx errorSockets then
    errorPipeScan pipes idx (clearAndClose idx s)
  else if !fdIsSet idx readSockets then s
  else
    let scanned := watchdogPipeScan pipes (r.readRc idx) idx s
    if !scanned.1 then serveSocket r idx scanned.2 else scanned.2

/-- One pass of the `do` body (lines 823-895): `none` when `select` fails and
the process aborts.  `select` can only report descriptors that were in the set
it was given, a copy of `m_socketSet`. -/
def senderRound (pipes : List Nat) (maxFd : Nat) (r : SelectRound) (s : SenderRun) :
    Option SenderRun :=
  if r.selectRc < 0 then none
  else
    let readSockets := s.socketSet.filter (fun fd => decide (fd ∈ r.readable))
    let errorSockets := s.socketSet.filter (fun fd => decide (fd ∈ r.inError))
    some ((List.range maxFd).foldl (handleFd pipes r readSockets errorSockets) s)

/-- How a run of `operator()` ends: it returns, it aborts, or it stays in
`select` because nothing further happens on any descriptor. -/
inductive SenderOutcome where
  | returned (s : SenderRun)
  | aborted (s : SenderRun)
  | blocked (s : SenderRun)

/-- The state a run ended in. -/
def SenderOutcome.state : SenderOutcome → SenderRun
  | .returned s => s
  | .aborted s => s
  | .blocked s => s

/-- The `do { ... } while (m_aliveChildren > 0)` loop over the rounds the
operating system supplies. -/
def senderLoop (pipes : List Nat) (maxFd : Nat) : List SelectRound → SenderRun → SenderOutcome
  | [], s => .blocked s
  | r :: rounds, s =>
    match senderRound pipes maxFd r s with
    | none => .aborted s
    | some s' => if s'.aliveChildren > 0 then senderLoop pipes maxFd rounds s' else .returned s'

/-- `MessageSenderToSource::operator()` (lines 812-900). -/
def MessageSenderToSource.run (sender : MessageSenderToSource) (rounds : List SelectRound) :
    SenderOutcome :=
  senderLoop sender.m_childrenPipes sender.m_maxFd rounds
    { socketSet := sender.m_socketSet
      aliveChildren := sender.m_aliveChildren
      sndmsg := { startIndex := 0, nIndices := sender.m_nEventsToProcess }
      closed := []
      sent := [] }

/-- The dispatcher thread as `forkProcess` starts it (lines 1169-1170): the
chunk size is `numberOfSequentialEventsPerChild_`.  The result is the list of
replies the children received, in the order they were sent. -/
def dispatcherReplies (childrenSockets childrenPipes : List Nat)
    (numberOfSequentialEventsPerChild_ : Nat) (rounds : List SelectRound) :
    List MessageForSource :=
  (((MessageSenderToSource.construct childrenSockets childrenPipes
      numberOfSequentialEventsPerChild_).run rounds).state.sent).map (fun reply => reply.msg)

/-- A round in which `select` succeeds, exactly the descriptors in `ready` are
readable, none is in error and every `read`, `recv` and `send` transfers a
full message. -/
def requestRound (ready : List Nat) : SelectRound :=
  { selectRc := 1, readable := ready, inError := [],
    readRc := fun _ => 1, recvRc := fun _ => 0, sendRc := fun _ => 16 }

/-- The property of P6 on a list of replies: each `startIndex` is strictly
larger than the one before and exceeds it by the previous `nIndices`. -/
@[irreducible] def StrictlyAdvancing (replies : List MessageForSource) : Prop :=
  List.Chain' (fun a b => a.startIndex < b.startIndex ∧
    b.startIndex = a.startIndex + a.nIndices) replies

/-- The replies as the spec describes them: reply number `k` offers the chunk
starting at `k * n` (held in a `uint64`) of `n` indices. -/
def chunkReplies (n count : Nat) : List MessageForSource :=
  (List.range count).map (fun k => { startIndex := (k * n) % uint64Modulus, nIndices := n })

/-- The loop invariant of `operator()`: the message to send next and the
replies sent so far follow the closed form for chunk size `n`. -/
def SenderInv (n : Nat) (s : SenderRun) : Prop :=
  s.sndmsg = { startIndex := (s.sent.length * n) % uint64Modulus, nIndices := n } ∧
  s.sent.map (fun reply => reply.msg) = chunkReplies n s.sent.length

/-! ## Outcomes of a call -/

/-- How a call ends for the calling process: it returns a value, throws, leaves
through `exit`, aborts (a failed `assert` or `abort()`), or never comes back
(it waits for something that does not happen). -/
inductive Outcome (α : Type) where
  | returned (a : α)
  | raised (e : Exception)
  | exited (status : Int)
  | aborted
  | blocked
  deriving DecidableEq, Repr

/-! ## The `SIGCHLD` handler `ep_sigchld` (lines 699-733) -/

/-- The status `waitpid` hands back for a reaped child.  POSIX makes `WIFEXITED`
and `WIFSIGNALED` exclusive; `other` is a status for which both are false. -/
inductive WaitStatus where
  | exited (status : Nat)
  | signaled (signal : Nat)
  | other
  deriving DecidableEq, Repr

/-- `WIFEXITED(stat_loc)`. -/
def WIFEXITED : WaitStatus → Bool
  | .exited _ => true
  | _ => false

/-- `WEXITSTATUS(stat_loc)`. -/
def WEXITSTATUS : WaitStatus → Nat
  | .exited status => status
  | _ => 0

/-- `WIFSIGNALED(stat_loc)`. -/
def WIFSIGNALED : WaitStatus → Bool
  | .signaled _ => true
  | _ => false

/-- `WTERMSIG(stat_loc)`. -/
def WTERMSIG : WaitStatus → Nat
  | .signaled signal => signal
  | _ => 0

/-- The file-scope variables written by the handler, and `shutdown_flag`.
`num_children_done` is an `unsigned int`: its value is below `uintModulus`
and `++` wraps there. -/
structure SignalState where
  child_failed : Bool
  num_children_done : Nat
  child_fail_exit_status : Nat
  child_fail_signal : Nat
  shutdown_flag : Bool
  deriving DecidableEq, Repr

/-- The values the variables are initialised with (lines 702-705). -/
def SignalState.initial : SignalState :=
  { child_failed := false, num_children_done := 0, child_fail_exit_status := 0,
    child_fail_signal := 0, shutdown_flag := false }

/-- The body of the `while (0 < p)` loop of `ep_sigchld` for one reaped child
(lines 718-729). -/
def ep_sigchld_child (st : SignalState) (stat_loc : WaitStatus) : SignalState :=
  let st1 :=
    if WIFEXITED stat_loc then
      let counted :=
        { st with num_children_done := (st.num_children_done + 1) % uintModulus }
      if 0 ≠ WEXITSTATUS stat_loc then
        { counted with child_fail_exit_status := WEXITSTATUS stat_loc, child_failed := true }
      else counted
    else st
  if WIFSIGNALED stat_loc then
    { st1 with num_children_done := (st1.num_children_done + 1) % uintModulus,
               child_fail_signal := WTERMSIG stat_loc, child_failed := true }
  else st1

/-- One run of `ep_sigchld`: `reaped` lists the statuses the successive
`waitpid(-1, &stat_loc, WNOHANG)` calls return before one returns no child. -/
def ep_sigchld (st : SignalState) (reaped : List WaitStatus) : SignalState :=
  reaped.foldl ep_sigchld_child st

/-- A reaped child counts as done when it exited or was killed by a signal. -/
def countsAsDone (stat_loc : WaitStatus) : Bool :=
  WIFEXITED stat_loc || WIFSIGNALED stat_loc

/-- A reaped child counts as failed when it exited with a non-zero status or
was killed by a signal. -/
def countsAsFailed (stat_loc : WaitStatus) : Bool :=
  (WIFEXITED stat_loc && WEXITSTATUS stat_loc != 0) || WIFSIGNALED stat_loc

/-! ## `numberOfDigitsInChildIndex` (lines 745-755) -/

/-- The `while (numberOfChildren != 0)` loop.  Every pass divides
`numberOfChildren` by ten, so `fuel` passes are enough whenever
`numberOfChildren <= fuel`. -/
def digitLoop : Nat → Nat → Nat → Nat
  | 0, _, n => n
  | fuel + 1, numberOfChildren, n =>
    if numberOfChildren ≠ 0 then digitLoop fuel (numberOfChildren / 10) (n + 1) else n

/-- `numberOfDigitsInChildIndex(numberOfChildren)`. -/
def numberOfDigitsInChildIndex (numberOfChildren : Nat) : Nat :=
  let n := digitLoop numberOfChildren numberOfChildren 0
  if n = 0 then 3 else n

/-- `std::setw(width) << std::setfill('0') << childIndex`: the decimal digits of
`childIndex`, filled with zeros on the left up to `width` characters. -/
def zeroPadded (width childIndex : Nat) : String :=
  String.mk (List.replicate (width - (Nat.toDigits 10 childIndex).length) '0'
    ++ Nat.toDigits 10 childIndex)

/-- The log file name of a child (line 1080), for `kMaxChildren` children. -/
def redirectName (pgid kMaxChildren childIndex : Nat) : String :=
  "redirectout_" ++ toString pgid ++ "_"
    ++ zeroPadded (numberOfDigitsInChildIndex kMaxChildren) childIndex ++ ".log"

/-- The number of decimal digits of `n` (one digit for zero). -/
def decimalWidth (n : Nat) : Nat :=
  if n = 0 then 1 else (Nat.digits 10 n).length

/-! ## The prefetch exclusion list (lines 492-496 and 951-983)

`ExcludedData` is a `std::set` of `(type, label)` pairs and `ExcludedDataMap` a
`std::map` from record names to such sets.  A `std::set` keeps its elements in
increasing order of `std::pair`'s `operator<`, which compares the first
strings and then the second ones, character by character.  The set is the list
of its elements in that order, so `begin()` is the head of the list. -/

/-- `std::string`'s `operator<` on the characters of two strings. -/
def charsLess : List Char → List Char → Bool
  | [], [] => false
  | [], _ :: _ => true
  | _ :: _, [] => false
  | a :: as, b :: bs =>
    if a.toNat < b.toNat then true
    else if b.toNat < a.toNat then false
    else charsLess as bs

/-- `std::pair<std::string, std::string>`'s `operator<`. -/
def pairLess (p q : String × String) : Bool :=
  charsLess p.1.data q.1.data
    || (!charsLess q.1.data p.1.data && charsLess p.2.data q.2.data)

/-- The elements of a `std::set<std::pair<std::string, std::string>>`, in order. -/
abbrev ExcludedData := List (String × String)

/-- `std::set::emplace`: the pair goes to its place in the order unless an
equivalent element is there already. -/
def ExcludedData.emplace : ExcludedData → String × String → ExcludedData
  | [], p => [p]
  | q :: rest, p =>
    if pairLess p q then p :: q :: rest
    else if pairLess q p then q :: ExcludedData.emplace rest p
    else q :: rest

/-- The entries of a `std::map<std::string, ExcludedData>`. -/
abbrev ExcludedDataMap := List (String × ExcludedData)

/-- `map.find(record)`: the set stored for the record, if there is one. -/
def ExcludedDataMap.find (map : ExcludedDataMap) (record : String) : Option ExcludedData :=
  match map with
  | [] => none
  | (key, excludedData) :: rest =>
    if key = record then some excludedData else ExcludedDataMap.find rest record

/-- `map[record].emplace(type, label)`: `operator[]` creates an empty set for a
record that has none. -/
def ExcludedDataMap.emplaceAt (map : ExcludedDataMap) (record : String)
    (p : String × String) : ExcludedDataMap :=
  match map with
  | [] => [(record, ExcludedData.emplace [] p)]
  | (key, excludedData) :: rest =>
    if key = record then (key, ExcludedData.emplace excludedData p) :: rest
    else (key, excludedData) :: ExcludedDataMap.emplaceAt rest record p

/-- One parameter set of `eventSetupDataToExcludeFromPrefetching`; `type` and
`label` may be left out. -/
structure ExclusionEntry where
  record : String
  type : Option String
  label : Option String
  deriving DecidableEq, Repr

/-- The loop of `init` (lines 493-496): `type` defaults to `"*"` and `label` to
the empty string. -/
def excludedFromEntries (excluded : List ExclusionEntry) : ExcludedDataMap :=
  excluded.foldl
    (fun map ps => ExcludedDataMap.emplaceAt map ps.record
      (ps.type.getD "*", ps.label.getD ""))
    []

/-- An `eventsetup::DataKey`: `type().name()` and `name().value()`. -/
structure DataKey where
  type : String
  name : String
  deriving DecidableEq, Repr

/-- What the EventSetup answers for one available record key: the record's
type name, whether `es.find` gave a record, and the record's registered data
keys. -/
structure AvailableRecord where
  name : String
  found : Bool
  dataKeys : List DataKey
  deriving DecidableEq, Repr

/-- A call `recordPtr->doGet(dataKey)` on the record with the given name. -/
structure DoGet where
  record : String
  dataKey : DataKey
  deriving DecidableEq, Repr

/-- The body of the loop over the record keys (lines 954-982): the `doGet`
calls made for one record.  A `cms::Exception` from `doGet` is caught and
logged, so the loop goes on to the next data key either way. -/
def prefetchRecord (excluded : ExcludedDataMap) (rec : AvailableRecord) : List DoGet :=
  let excludedData := excluded.find rec.name
  let skipAll :=
    match excludedData with
    | some set =>
      set.length == 0
        || (match set.head? with
            | some first => first.1 == "*"
            | none => false)
    | none => false
  if skipAll then []
  else if rec.found then
    (rec.dataKeys.filter (fun dataKey =>
      match excludedData with
      | some set => !(set.contains (dataKey.type, dataKey.name))
      | none => true)).map (fun dataKey => { record := rec.name, dataKey := dataKey })
  else []

/-- The prefetch loop of `forkProcess` (lines 951-983): all `doGet` calls it
makes, in order. -/
def prefetch (excluded : ExcludedDataMap) (recordKeys : List AvailableRecord) : List DoGet :=
  recordKeys.flatMap (prefetchRecord excluded)

/-! ## `EventProcessor::forkProcess` (lines 905-1219)

The operating system, the source and the other collaborators are an
environment that says what each call returned in the process under
consideration.  `fork` returns 0 in the child and the child's id in the
parent, so the same function describes both: a process is the parent when
every `fork` it saw returned a non-zero value, and child number `i` when the
`fork` of pass `i` returned 0.  Member calls whose bodies are outside this file
are taken to return; the paths modelled are the ones the code of
`forkProcess` itself takes (`return`, `throw`, `exit`, `assert`, waiting). -/

/-- `InputSource::ItemType`: the enumerators this file names, and `other` for
any further one. -/
inductive ItemType where
  | IsStop
  | IsFile
  | IsRun
  | IsLumi
  | IsEvent
  | IsSynchronize
  | other
  deriving DecidableEq, Repr

/-- The data members `forkProcess` reads, as `init` set them (lines 487-496). -/
structure ForkConfig where
  numberOfForkedChildren_ : Int
  numberOfSequentialEventsPerChild_ : Nat
  setCpuAffinity_ : Bool
  continueAfterChildFailure_ : Bool
  eventSetupDataToExcludeFromPrefetching_ : ExcludedDataMap

/-- What this process sees in one pass of the fork loop (lines 1020-1122): the
results of `socketpair`, `pipe` and the six `fcntl` calls, the descriptors
handed out, the value of `fork`, and the result of `sched_setaffinity` should
it be called. -/
structure ForkAttempt where
  socketpairRc : Int
  pipeRc : Int
  fcntlRc : List Int
  sockets : Nat × Nat
  pipes : Nat × Nat
  forkValue : Int
  affinityRc : Int

/-- The signal handlers that ran during a stretch in which signals could be
delivered (or during one `sigsuspend`): the statuses `ep_sigchld` reaped, and
whether a handler set `shutdown_flag`. -/
structure Wake where
  reaped : List WaitStatus
  shutdown : Bool
  deriving DecidableEq, Repr

/-- The signal state after the handlers of a `Wake` ran. -/
def Wake.apply (w : Wake) (st : SignalState) : SignalState :=
  let st1 := ep_sigchld st w.reaped
  { st1 with shutdown_flag := st1.shutdown_flag || w.shutdown }

/-- The environment of one call of `forkProcess`. -/
structure ForkEnv where
  /-- The exception `beginJob()` lets escape, if any. -/
  beginJob : Option Exception
  /-- The two answers of `input_->nextItemType()` (lines 932 and 938). -/
  firstItemType : ItemType
  secondItemType : ItemType
  /-- The record keys `fillAvailableRecordKeys` reports. -/
  recordKeys : List AvailableRecord
  /-- Whether the build defines `__APPLE__`. -/
  appleBuild : Bool
  FD_SETSIZE : Nat
  /-- Pass `childIndex` of the fork loop. -/
  attempts : Nat → ForkAttempt
  /-- Handlers run between installing `ep_sigchld` (line 997) and blocking the
  signals (line 1156). -/
  duringForking : Wake
  /-- The successive returns of `sigsuspend` in the first wait loop (line 1177). -/
  wakes : List Wake
  /-- Handlers run when the signals are unblocked again (line 1182). -/
  afterWait : Wake
  /-- The successive returns of `sigsuspend` in the second wait loop (line 1200). -/
  drainWakes : List Wake
  /-- Handlers run from then on until `join` returns (line 1205). -/
  beforeJoin : Wake
  /-- What the dispatcher thread sees. -/
  senderRounds : List SelectRound

/-- The calls of `forkProcess` on its collaborators, for the record. -/
inductive ForkAction where
  | beginJob
  | nextItemType
  | readFile
  | doGet (call : DoGet)
  | preForkReleaseResources
  | installHandler
  | socketpair
  | pipe
  | fork
  | childAfterFork (childIndex kMaxChildren : Nat)
  | postForkReacquireResources (childIndex kMaxChildren : Nat)
  | parentAfterFork
  | startSender
  | kill (pid : Int)
  | join
  deriving DecidableEq, Repr

/-- `possiblyContinueAfterForkChildFailure` (lines 905-918). -/
def possiblyContinueAfterForkChildFailure (continueAfterChildFailure_ : Bool)
    (st : SignalState) : SignalState :=
  if st.child_failed && continueAfterChildFailure_ then
    let st1 :=
      if st.child_fail_signal ≠ 0 then { st with child_fail_signal := 0 }
      else if st.child_fail_exit_status ≠ 0 then { st with child_fail_exit_status := 0 }
      else st
    { st1 with child_failed := false }
  else st

/-- The variables of the fork loop. -/
structure ForkLoopState where
  childrenIds : List Int
  childrenSockets : List Nat
  childrenPipes : List Nat
  sockets : Nat × Nat
  pipes : Nat × Nat
  trace : List ForkAction
  deriving DecidableEq, Repr

/-- How the fork loop is left: in a child by `break`, in the parent when
`childIndex` reached `kMaxChildren`, or by `exit`. -/
inductive ForkLoopEnd where
  | child (childIndex : Nat) (s : ForkLoopState)
  | parent (s : ForkLoopState)
  | exited (status : Int) (s : ForkLoopState)
  deriving DecidableEq, Repr

/-- Whether `socketpair`, `pipe` and all six `fcntl` calls of a pass succeeded
(lines 1022-1058); if not the process leaves through `exit(EXIT_FAILURE)`. -/
def ForkAttempt.created (a : ForkAttempt) : Bool :=
  a.socketpairRc == 0 && a.pipeRc == 0 && !((a.fcntlRc.take 6).any (fun rc => rc == -1))

/-- Whether the child of pass `childIndex` leaves through `exit(-1)` at line
1105: `setCpuAffinity_` is on, the build is not for Apple, and
`sched_setaffinity` does not return 0. -/
def affinityFails (cfg : ForkConfig) (env : ForkEnv) (childIndex : Nat) : Bool :=
  cfg.setCpuAffinity_ && !env.appleBuild && (env.attempts childIndex).affinityRc != 0

/-- The loop `for(; childIndex < kMaxChildren; ++childIndex)` (lines 1020-1122);
the first argument is `kMaxChildren - childIndex`. -/
def forkLoop (cfg : ForkConfig) (env : ForkEnv) : Nat → Nat → ForkLoopState → ForkLoopEnd
  | 0, _, s => .parent s
  | remaining + 1, childIndex, s =>
    let a := env.attempts childIndex
    if a.socketpairRc ≠ 0 then .exited 1 { s with trace := s.trace ++ [.socketpair] }
    else if a.pipeRc ≠ 0 then
      .exited 1 { s with sockets := a.sockets, trace := s.trace ++ [.socketpair, .pipe] }
    else if (a.fcntlRc.take 6).any (fun rc => rc == -1) then
      .exited 1 { s with sockets := a.sockets, pipes := a.pipes,
                         trace := s.trace ++ [.socketpair, .pipe] }
    else
      let s1 := { s with sockets := a.sockets, pipes := a.pipes,
                         trace := s.trace ++ [.socketpair, .pipe, .fork] }
      if a.forkValue = 0 then
        if affinityFails cfg env childIndex then .exited (-1) s1 else .child childIndex s1
      else if a.forkValue < 0 then .exited (-1) s1
      else
        forkLoop cfg env remaining (childIndex + 1)
          { s1 with childrenIds := s1.childrenIds ++ [a.forkValue]
                    childrenSockets := s1.childrenSockets ++ [a.sockets.1]
                    childrenPipes := s1.childrenPipes ++ [a.pipes.1] }

/-- The condition of the first wait loop (line 1176). -/
def keepWaiting (continueAfterChildFailure_ : Bool) (nChildren : Nat) (st : SignalState) :
    Bool :=
  !st.shutdown_flag && (!st.child_failed || continueAfterChildFailure_)
    && decide (nChildren ≠ st.num_children_done)

/-- The first wait loop (lines 1176-1180): `none` when the loop is still
waiting and no further signal arrives. -/
def waitLoop (continueAfterChildFailure_ : Bool) (nChildren : Nat) :
    List Wake → SignalState → Option SignalState
  | [], st => if keepWaiting continueAfterChildFailure_ nChildren st then none else some st
  | w :: rest, st =>
    if keepWaiting continueAfterChildFailure_ nChildren st then
      waitLoop continueAfterChildFailure_ nChildren rest
        (possiblyContinueAfterForkChildFailure continueAfterChildFailure_ (w.apply st))
    else some st

/-- The second wait loop (lines 1199-1201): `none` when it is still waiting and
no further signal arrives. -/
def drainLoop (kMaxChildren : Nat) : List Wake → SignalState → Option SignalState
  | [], st => if st.num_children_done ≠ kMaxChildren then none else some st
  | w :: rest, st =>
    if st.num_children_done ≠ kMaxChildren then drainLoop kMaxChildren rest (w.apply st)
    else some st

/-- Where `forkProcess` stands once `senderThread.join()` has returned, unless
it ended before. -/
inductive ForkStage where
  | done (outcome : Outcome Bool)
  | joined (too_many_fds : Bool) (st : SignalState)
  deriving DecidableEq, Repr

/-- Lines 1206-1218: what `forkProcess` does after the join, given
`too_many_fds` and the signal state then. -/
def forkTail (continueAfterChildFailure_ too_many_fds : Bool) (st : SignalState) :
    Outcome Bool :=
  if st.child_failed && !continueAfterChildFailure_ then
    if st.child_fail_signal ≠ 0 then
      .raised { category := "ForkedChildFailed"
                message := "child process ended abnormally with signal "
                  ++ toString st.child_fail_signal }
    else if st.child_fail_exit_status ≠ 0 then
      .raised { category := "ForkedChildFailed"
                message := "child process ended abnormally with exit code "
                  ++ toString st.child_fail_exit_status }
    else
      .raised { category := "ForkedChildFailed"
                message := "child process ended abnormally for unknown reason" }
  else if too_many_fds then
    .raised { category := "ForkedParentFailed", message := "hit select limit for number of fds" }
  else .returned false

/-- `senderThread.join()` (line 1205): it returns when the dispatcher thread
returned, and never when that thread stays in `select`. -/
def joinSender (sender : SenderOutcome) (too_many_fds : Bool) (st : SignalState)
    (trace : List ForkAction) : ForkStage × List ForkAction :=
  match sender with
  | .blocked _ => (.done .blocked, trace ++ [.join])
  | _ => (.joined too_many_fds st, trace ++ [.join])

/-- The parent after the fork loop, up to the join (lines 1135-1205).  The
dispatcher thread calls `abort()` when `select` fails, which ends the process
whatever the main thread is doing. -/
def parentStage (cfg : ForkConfig) (env : ForkEnv) (kMaxChildren : Nat) (s : ForkLoopState) :
    ForkStage × List ForkAction :=
  let st0 := env.duringForking.apply SignalState.initial
  let too_many_fds := decide (s.pipes.2 + 1 > env.FD_SETSIZE)
  let trace1 := s.trace ++ [.parentAfterFork, .startSender]
  let sender :=
    (MessageSenderToSource.construct s.childrenSockets s.childrenPipes
      cfg.numberOfSequentialEventsPerChild_).run env.senderRounds
  match sender with
  | .aborted _ => (.done .aborted, trace1)
  | _ =>
    let waited :=
      if !too_many_fds then
        waitLoop cfg.continueAfterChildFailure_ s.childrenIds.length env.wakes
          (possiblyContinueAfterForkChildFailure cfg.continueAfterChildFailure_ st0)
      else some st0
    match waited with
    | none => (.done .blocked, trace1)
    | some st1 =>
      let st2 := env.afterWait.apply st1
      if too_many_fds || st2.shutdown_flag
          || (st2.child_failed && decide (st2.num_children_done ≠ s.childrenIds.length)) then
        let trace2 := trace1 ++ s.childrenIds.map ForkAction.kill
        match drainLoop kMaxChildren env.drainWakes st2 with
        | none => (.done .blocked, trace2)
        | some st3 => joinSender sender too_many_fds (env.beforeJoin.apply st3) trace2
      else joinSender sender too_many_fds (env.beforeJoin.apply st2) trace1

/-- The variables as the fork loop finds them (lines 1000-1013), after the
common part (lines 927-997). -/
def forkLoopStart (cfg : ForkConfig) (env : ForkEnv) : ForkLoopState :=
  { childrenIds := [], childrenSockets := [], childrenPipes := []
    sockets := (0, 0), pipes := (0, 0)
    trace := [.beginJob, .nextItemType, .readFile, .nextItemType]
      ++ (prefetch cfg.eventSetupDataToExcludeFromPrefetching_ env.recordKeys).map
          ForkAction.doGet
      ++ [.preForkReleaseResources, .installHandler] }

/-- `forkProcess` up to the join (lines 920-1205). -/
def forkProcessStage (cfg : ForkConfig) (env : ForkEnv) : ForkStage × List ForkAction :=
  if cfg.numberOfForkedChildren_ = 0 then (.done (.returned true), [])
  else if ¬ (0 < cfg.numberOfForkedChildren_) then (.done .aborted, [])
  else
    match env.beginJob with
    | some e => (.done (.raised e), [.beginJob])
    | none =>
      if env.firstItemType ≠ .IsFile then (.done .aborted, [.beginJob, .nextItemType])
      else if env.secondItemType ≠ .IsRun then
        (.done .aborted, [.beginJob, .nextItemType, .readFile, .nextItemType])
      else
        let kMaxChildren := cfg.numberOfForkedChildren_.toNat
        match forkLoop cfg env kMaxChildren 0 (forkLoopStart cfg env) with
        | .exited status s => (.done (.exited status), s.trace)
        | .child childIndex s =>
          (.done (.returned true),
            s.trace ++ [.childAfterFork childIndex kMaxChildren,
                        .postForkReacquireResources childIndex kMaxChildren])
        | .parent s => parentStage cfg env kMaxChildren s

/-- The rest of `forkProcess` from where the stage stands. -/
def ForkStage.finish (continueAfterChildFailure_ : Bool) : ForkStage → Outcome Bool
  | .done outcome => outcome
  | .joined too_many_fds st => forkTail continueAfterChildFailure_ too_many_fds st

/-- `EventProcessor::forkProcess`: how the call ends in this process, and the
calls it made. -/
def forkProcess (cfg : ForkConfig) (env : ForkEnv) : Outcome Bool × List ForkAction :=
  ((forkProcessStage cfg env).1.finish cfg.continueAfterChildFailure_,
    (forkProcessStage cfg env).2)

/-- Process `childIndex` of the fork loop is a forked child: `forkProcess` got
as far as the fork loop, the passes before `childIndex` created their children
in this process, and in pass `childIndex` the descriptors were created and
`fork` returned 0. -/
def ForkedChildAt (cfg : ForkConfig) (env : ForkEnv) (childIndex : Nat) : Prop :=
  0 < cfg.numberOfForkedChildren_ ∧ env.beginJob = none
    ∧ env.firstItemType = .IsFile ∧ env.secondItemType = .IsRun
    ∧ childIndex < cfg.numberOfForkedChildren_.toNat
    ∧ (∀ j, j < childIndex →
        (env.attempts j).created = true ∧ 0 < (env.attempts j).forkValue)
    ∧ (env.attempts childIndex).created = true
    ∧ (env.attempts childIndex).forkValue = 0

/-! ### Sample environments of `forkProcess` -/

/-- A pass of the fork loop in which every call succeeds: the parent's ends
are `fd` and `fd + 2`, the child's ends `fd + 1` and `pipeEnd`, and `fork`
returns `value`. -/
def ForkAttempt.succeeding (fd pipeEnd : Nat) (value : Int) (affinityRc : Int) : ForkAttempt :=
  { socketpairRc := 0, pipeRc := 0, fcntlRc := [0, 0, 0, 0, 0, 0]
    sockets := (fd, fd + 1), pipes := (fd + 2, pipeEnd)
    forkValue := value, affinityRc := affinityRc }

/-- A round of the dispatcher in which `select` reports every descriptor in
`gone` in error. -/
def hangupRound (gone : List Nat) : SelectRound :=
  { selectRc := 1, readable := [], inError := gone,
    readRc := fun _ => 0, recvRc := fun _ => 0, sendRc := fun _ => 0 }

/-- Two children, no affinity setting, no continuing after a failure. -/
def sampleForkConfig (setCpuAffinity_ continueAfterChildFailure_ : Bool) : ForkConfig :=
  { numberOfForkedChildren_ := 2, numberOfSequentialEventsPerChild_ := 1
    setCpuAffinity_ := setCpuAffinity_
    continueAfterChildFailure_ := continueAfterChildFailure_
    eventSetupDataToExcludeFromPrefetching_ := [] }

/-- The first `fork` returns 0 in this process (it is child 0) and
`sched_setaffinity` returns `affinityRc`. -/
def sampleChildEnv (affinityRc : Int) : ForkEnv :=
  { beginJob := none, firstItemType := .IsFile, secondItemType := .IsRun
    recordKeys := [], appleBuild := false, FD_SETSIZE := 1024
    attempts := fun _ => ForkAttempt.succeeding 3 6 0 affinityRc
    duringForking := { reaped := [], shutdown := false }
    wakes := [], afterWait := { reaped := [], shutdown := false }
    drainWakes := [], beforeJoin := { reaped := [], shutdown := false }
    senderRounds := [] }

/-- The parent of two children (ids 101 and 102).  The child's pipe end of the
last pass is `lastPipeEnd`.  The signals that wake the first wait loop are
`wakes`, those that wake the second one `drainWakes`; the dispatcher sees both
pipes hang up. -/
def sampleParentEnv (lastPipeEnd : Nat) (wakes drainWakes : List Wake) : ForkEnv :=
  { beginJob := none, firstItemType := .IsFile, secondItemType := .IsRun
    recordKeys := [], appleBuild := false, FD_SETSIZE := 1024
    attempts := fun childIndex =>
      if childIndex = 0 then ForkAttempt.succeeding 3 6 101 0
      else ForkAttempt.succeeding 4 lastPipeEnd 102 0
    duringForking := { reaped := [], shutdown := false }
    wakes := wakes, afterWait := { reaped := [], shutdown := false }
    drainWakes := drainWakes, beforeJoin := { reaped := [], shutdown := false }
    senderRounds := [hangupRound [5, 6]] }

/-! ## The event loop (lines 1294-1494 and 1955-2206)

The data members the event loop reads and writes are gathered in
`ProcessorState`.  Two further fields keep a record of what happened and are
never read by the code: `calls`, the calls made on the source, the state
machine and the activity registry, in order; and `attempts`, the exceptions
offered to the deferred-exception slot, in order. -/

/-- `EventProcessor::StatusCode`: the two enumerators this file names, and
`epOther` for any further one. -/
inductive StatusCode where
  | epSuccess
  | epSignal
  | epOther
  deriving DecidableEq, Repr

/-- The events `runToCompletion` posts to the state machine. -/
inductive MachineEvent where
  | Event
  | Stop
  | File
  | Run
  | Lumi
  deriving DecidableEq, Repr

/-- A call recorded in `ProcessorState.calls`. -/
inductive Call where
  | skipForForking
  | nextItemType
  | readEvent (iStreamIndex : Nat)
  | preSourceEarlyTerminationSignal
  | process_event (event : MachineEvent)
  | doErrorStuff
  deriving DecidableEq, Repr

/-- The data members of `EventProcessor` used by the event loop, and
`shutdown_flag`. -/
structure ProcessorState where
  shutdown_flag : Bool
  shouldWeStop_ : Bool
  deferredExceptionPtrIsSet_ : Bool
  deferredExceptionPtr_ : Option Exception
  firstEventInBlock_ : Bool
  nextItemTypeFromProcessingEvents_ : ItemType
  asyncStopRequestedWhileProcessingEvents_ : Bool
  asyncStopStatusCodeFromProcessingEvents_ : StatusCode
  stateMachineWasInErrorState_ : Bool
  calls : List Call
  attempts : List Exception
  deriving DecidableEq, Repr

/-- The members as the constructors leave them (lines 246-262 and 308-309),
with no signal received. -/
def ProcessorState.initial : ProcessorState :=
  { shutdown_flag := false, shouldWeStop_ := false
    deferredExceptionPtrIsSet_ := false, deferredExceptionPtr_ := none
    firstEventInBlock_ := false
    nextItemTypeFromProcessingEvents_ := .IsEvent
    asyncStopRequestedWhileProcessingEvents_ := false
    asyncStopStatusCodeFromProcessingEvents_ := .epSuccess
    stateMachineWasInErrorState_ := false
    calls := [], attempts := [] }

/-- `checkForAsyncStopRequest(returnCode)` (lines 1294-1304): the returned
value and the new value of `returnCode`. -/
def checkForAsyncStopRequest (shutdown_flag : Bool) (returnCode : StatusCode) :
    Bool × StatusCode :=
  if shutdown_flag then (true, .epSignal) else (false, returnCode)

/-- `shouldWeStop()` (lines 2194-2206); `terminate` is what the sub-processes,
or without them the schedule, answer. -/
def shouldWeStop (shouldWeStop_ terminate : Bool) : Bool :=
  if shouldWeStop_ then true else terminate

/-- An attempt to store an exception in the deferred slot (lines 1996-1999 and
2012-2014): `compare_exchange_strong(expected = false, true)` on the flag, and
the pointer is written only when the exchange succeeded. -/
def storeDeferred (e : Exception) (st : ProcessorState) : ProcessorState :=
  if st.deferredExceptionPtrIsSet_ = false then
    { st with deferredExceptionPtrIsSet_ := true, deferredExceptionPtr_ := some e
              attempts := st.attempts ++ [e] }
  else { st with attempts := st.attempts ++ [e] }

/-- What the collaborators answer during one call of `readNextEventForStream`,
for the calls that are made: `terminate` for `shouldWeStop()`, the exception
`nextItemType()` throws or else the item type it returns, and the exception
`readEvent` throws if any. -/
structure ReadAnswers where
  terminate : Bool
  nextItemTypeThrows : Option Exception
  itemType : ItemType
  readEventThrows : Option Exception
  deriving DecidableEq, Repr

/-- Line 1994, `readEvent(iStreamIndex)` inside the `try`: an exception is
offered to the deferred slot and the result is false, otherwise it is true. -/
def readEventInTry (a : ReadAnswers) (iStreamIndex : Nat) (st : ProcessorState) :
    Bool × ProcessorState :=
  let st1 := { st with calls := st.calls ++ [.readEvent iStreamIndex] }
  match a.readEventThrows with
  | some e => (false, storeDeferred e st1)
  | none => (true, st1)

/-- `readNextEventForStream(iStreamIndex, finishedProcessingEvents)` (lines
1955-2004): the returned value, the new value of `*finishedProcessingEvents`
and the new state. -/
def readNextEventForStream (a : ReadAnswers) (iStreamIndex : Nat)
    (finishedProcessingEvents : Bool) (st : ProcessorState) :
    Bool × Bool × ProcessorState :=
  if shouldWeStop st.shouldWeStop_ a.terminate then (false, finishedProcessingEvents, st)
  else if st.deferredExceptionPtrIsSet_ then (false, finishedProcessingEvents, st)
  else if finishedProcessingEvents then (false, finishedProcessingEvents, st)
  else if !st.firstEventInBlock_ then
    let st1 := { st with calls := st.calls ++ [.nextItemType] }
    match a.nextItemTypeThrows with
    | some e => (false, finishedProcessingEvents, storeDeferred e st1)
    | none =>
      if a.itemType ≠ .IsEvent then
        (false, true, { st1 with nextItemTypeFromProcessingEvents_ := a.itemType })
      else
        let check :=
          checkForAsyncStopRequest st1.shutdown_flag st1.asyncStopStatusCodeFromProcessingEvents_
        let st2 :=
          { st1 with asyncStopRequestedWhileProcessingEvents_ := check.1
                     asyncStopStatusCodeFromProcessingEvents_ := check.2 }
        if check.1 then
          (false, finishedProcessingEvents,
            { st2 with calls := st2.calls ++ [.preSourceEarlyTerminationSignal] })
        else
          let r := readEventInTry a iStreamIndex st2
          (r.1, finishedProcessingEvents, r.2)
  else
    let r := readEventInTry a iStreamIndex { st with firstEventInBlock_ := false }
    (r.1, finishedProcessingEvents, r.2)

/-- Where a stream of `readAndProcessEvent` stands: its next read is queued on
the source's serial queue, it is processing an event, or it has stopped. -/
inductive StreamStatus where
  | waiting
  | processing
  | stopped
  deriving DecidableEq, Repr

/-- What happens next in a block of `readAndProcessEvent`: a shutdown signal
is handled; the queued read of a stream runs; or the processing of a stream's
event completes, with the exception it delivers to the recursion task if it
failed, and with whether a looper asked to stop
(`processEventWithLooper`, line 2191). -/
inductive LoopStep where
  | signal
  | read (iStreamIndex : Nat) (answers : ReadAnswers)
  | processed (iStreamIndex : Nat) (failure : Option Exception) (looperStops : Bool)
  deriving DecidableEq, Repr

/-- The state of a block: the members, the local `finishedProcessingEvents`,
the status of every stream, and the number of streams that have not stopped
(the reference count `eventLoopWaitTask` waits on, less one). -/
structure BlockState where
  proc : ProcessorState
  finishedProcessingEvents : Bool
  nStreams : Nat
  status : Nat → StreamStatus
  running : Nat

/-- The status function with stream `i` set to `s`. -/
def setStatus (status : Nat → StreamStatus) (i : Nat) (s : StreamStatus) :
    Nat → StreamStatus :=
  fun j => if j = i then s else status j

/-- One step of a block.  A step for a stream that is not in the matching
status (or was never started) does not happen.  `read` is the body of the
lambda pushed on the serial queue (lines 2028-2043); `processed` is the
finalize task (lines 2118-2134) followed by the recursion task (lines
2010-2026). -/
def blockStep (b : BlockState) : LoopStep → BlockState
  | .signal => { b with proc := { b.proc with shutdown_flag := true } }
  | .read i a =>
    if i < b.nStreams ∧ b.status i = .waiting then
      let r := readNextEventForStream a i b.finishedProcessingEvents b.proc
      if r.1 then
        { b with proc := r.2.2, finishedProcessingEvents := r.2.1
                 status := setStatus b.status i .processing }
      else
        { b with proc := r.2.2, finishedProcessingEvents := r.2.1
                 status := setStatus b.status i .stopped, running := b.running - 1 }
    else b
  | .processed i failure looperStops =>
    if i < b.nStreams ∧ b.status i = .processing then
      let st1 := if looperStops then { b.proc with shouldWeStop_ := true } else b.proc
      match failure with
      | some e =>
        { b with proc := storeDeferred e st1
                 status := setStatus b.status i .stopped, running := b.running - 1 }
      | none => { b with proc := st1, status := setStatus b.status i .waiting }
    else b

/-- The block runs until every stream has stopped; `none` when the steps run
out before that, so that `spawn_and_wait_for_all` does not return. -/
def runBlock : List LoopStep → BlockState → Option BlockState
  | [], b => if b.running = 0 then some b else none
  | step :: rest, b => if b.running = 0 then some b else runBlock rest (blockStep b step)

/-- The number of streams `readAndProcessEvent` starts (lines 2073-2084):
`kNumStreams - 1` of them in the loop, in `unsigned int` arithmetic, and one
more after it. -/
def startedStreams (kNumStreams : Nat) : Nat :=
  (kNumStreams + uintModulus - 1) % uintModulus + 1

/-- The block as the streams find it (lines 2058-2084): the members reset, the
local flag false, every started stream about to read. -/
def blockStart (kNumStreams : Nat) (st : ProcessorState) : BlockState :=
  { proc :=
      { st with nextItemTypeFromProcessingEvents_ := .IsEvent
                asyncStopRequestedWhileProcessingEvents_ := false
                firstEventInBlock_ := true }
    finishedProcessingEvents := false
    nStreams := startedStreams kNumStreams
    status := fun _ => .waiting
    running := startedStreams kNumStreams }

/-- What happens in one call of `readAndProcessEvent`: the steps of the
streams, and for the forked branch the exception `readEvent(0)` throws if any,
the exception the processing of the event hands to its waiting task if it
failed, and whether a looper asked to stop. -/
structure BlockEnv where
  steps : List LoopStep
  forkedReadEventThrows : Option Exception
  forkedFailure : Option Exception
  forkedLooperStops : Bool
  deriving DecidableEq, Repr

/-- `readAndProcessEvent` (lines 2046-2090).  In the forked branch the
exception handed to `eventLoopWaitTask` is not looked at after
`wait_for_all()`.  The last case, the flag set without a stored exception,
does not arise from `ProcessorState.initial`. -/
def readAndProcessEvent (numberOfForkedChildren_ : Int) (kNumStreams : Nat) (env : BlockEnv)
    (st : ProcessorState) : Outcome Unit × ProcessorState :=
  if numberOfForkedChildren_ > 0 then
    let st1 := { st with calls := st.calls ++ [.readEvent 0] }
    match env.forkedReadEventThrows with
    | some e => (.raised e, st1)
    | none =>
      (.returned (),
        if env.forkedLooperStops then { st1 with shouldWeStop_ := true } else st1)
  else
    match runBlock env.steps (blockStart kNumStreams st) with
    | none => (.blocked, (blockStart kNumStreams st).proc)
    | some b =>
      if b.proc.deferredExceptionPtrIsSet_ then
        match b.proc.deferredExceptionPtr_ with
        | some e => (.raised e, b.proc)
        | none => (.aborted, b.proc)
      else (.returned (), b.proc)

/-- `doErrorStuff` (lines 1603-1612). -/
def doErrorStuff (st : ProcessorState) : ProcessorState :=
  { st with stateMachineWasInErrorState_ := true, calls := st.calls ++ [.doErrorStuff] }

/-- `startingNewLoop` (lines 1556-1564), as far as the members go. -/
def startingNewLoop (st : ProcessorState) : ProcessorState :=
  { st with shouldWeStop_ := false }

/-- What the state machine (defined outside this file) does in one
`process_event`: whether it enters its Error state and calls `doErrorStuff`,
whether it calls `startingNewLoop`, whether (for an `Event`) it calls
`readAndProcessEvent` and what happens in that block, the exception that
leaves `process_event` otherwise, and what `terminated()` answers afterwards. -/
structure MachineReaction where
  errorState : Bool
  startsNewLoop : Bool
  block : Option BlockEnv
  throws : Option Exception
  terminated : Bool
  deriving DecidableEq, Repr

/-- The options `runToCompletion` reads. -/
structure RunConfig where
  numberOfForkedChildren_ : Int
  kNumStreams : Nat
  fileMode_ : String
  emptyRunLumiMode_ : String
  deriving DecidableEq, Repr

/-- The members after the callbacks a `process_event` makes before any block:
`doErrorStuff` and `startingNewLoop`. -/
def beforeBlock (event : MachineEvent) (r : MachineReaction) (st : ProcessorState) :
    ProcessorState :=
  let st1 := { st with calls := st.calls ++ [.process_event event] }
  let st2 := if r.errorState then doErrorStuff st1 else st1
  if r.startsNewLoop then startingNewLoop st2 else st2

/-- The call of `readAndProcessEvent` a `process_event(Event)` makes, if any. -/
def blockOfReaction (cfg : RunConfig) (event : MachineEvent) (r : MachineReaction)
    (st : ProcessorState) : Outcome Unit × ProcessorState :=
  match event, r.block with
  | .Event, some env => readAndProcessEvent cfg.numberOfForkedChildren_ cfg.kNumStreams env st
  | _, _ => (.returned (), st)

/-- `machine->process_event(event)`: the outcome carries `terminated()`. -/
def processMachineEvent (cfg : RunConfig) (event : MachineEvent) (r : MachineReaction)
    (st : ProcessorState) : Outcome Bool × ProcessorState :=
  ((match (blockOfReaction cfg event r (beforeBlock event r st)).1 with
    | .returned _ =>
      (match r.throws with
        | some e => .raised e
        | none => .returned r.terminated)
    | .raised e => .raised e
    | .exited status => .exited status
    | .aborted => .aborted
    | .blocked => .blocked),
   (blockOfReaction cfg event r (beforeBlock event r st)).2)

/-- What the collaborators answer in one pass of the `while(true)` loop of
`runToCompletion`: whether a shutdown signal was handled since the last pass,
what `skipForForking()` and `nextItemType()` return, and how the machine
reacts to an `Event` and to the one other event a pass can post. -/
structure LoopIteration where
  signal : Bool
  more : Bool
  itemType : ItemType
  onEvent : MachineReaction
  onTransition : MachineReaction
  deriving DecidableEq, Repr

/-- How the main loop is left: by `break` with the value of `returnCode` and
of `machine->terminated()`, by an exception, or not at all. -/
inductive LoopExit where
  | finished (returnCode : StatusCode) (terminated : Bool) (st : ProcessorState)
  | raised (e : Exception) (st : ProcessorState)
  | stuck (outcome : Outcome Unit) (st : ProcessorState)
  deriving DecidableEq, Repr

/-- The exit of the loop when a `process_event` did not return. -/
def LoopExit.ofOutcome (outcome : Outcome Bool) (st : ProcessorState) : LoopExit :=
  match outcome with
  | .raised e => .raised e st
  | .returned _ => .stuck .blocked st
  | .exited status => .stuck (.exited status) st
  | .aborted => .stuck .aborted st
  | .blocked => .stuck .blocked st

/-- The machine event posted for an item type in lines 1375-1391, if any. -/
def transitionFor : ItemType → Option MachineEvent
  | .IsStop => some .Stop
  | .IsFile => some .File
  | .IsRun => some .Run
  | .IsLumi => some .Lumi
  | _ => none

/-- The `LogicError` of lines 1394-1396. -/
def unknownItemTypeError : Exception :=
  { category := "LogicError"
    message := "Unknown next item type passed to EventProcessor\n"
      ++ "Please report this error to the Framework group\n" }

/-- Lines 1375-1400 of a pass: the event posted for `itemType`, and whether the
loop is left because the machine terminated (`some` exit) or goes on (`none`)
with the new state. -/
def dispatchItem (cfg : RunConfig) (p : LoopIteration) (itemType : ItemType)
    (returnCode : StatusCode) (terminated : Bool) (st : ProcessorState) :
    Option LoopExit × ProcessorState :=
  if itemType = .IsEvent ∨ itemType = .IsSynchronize then
    if terminated then (some (.finished returnCode true st), st) else (none, st)
  else
    match transitionFor itemType with
    | none => (some (.raised unknownItemTypeError st), st)
    | some event =>
      match processMachineEvent cfg event p.onTransition st with
      | (.returned t, st1) =>
        if t then (some (.finished returnCode true st1), st1) else (none, st1)
      | (outcome, st1) => (some (LoopExit.ofOutcome outcome st1), st1)

/-- Lines 1332-1351 of a pass: the members once the source has been asked
(`skipForForking()` when forked, then `nextItemType()` if there is more), with
a shutdown signal handled before if one came. -/
def passStart (cfg : RunConfig) (p : LoopIteration) (st : ProcessorState) : ProcessorState :=
  let st0 := if p.signal then { st with shutdown_flag := true } else st
  let forked := decide (cfg.numberOfForkedChildren_ > 0)
  let more := if forked then p.more else true
  { st0 with calls := st0.calls ++ (if forked then [.skipForForking] else [])
               ++ (if more then [.nextItemType] else []) }

/-- Line 1349: `itemType = (more ? input_->nextItemType() : InputSource::IsStop)`. -/
def passItemType (cfg : RunConfig) (p : LoopIteration) : ItemType :=
  let forked := decide (cfg.numberOfForkedChildren_ > 0)
  let more := if forked then p.more else true
  if more then p.itemType else .IsStop

/-- Lines 1355-1400 of a pass, from the check for a shutdown request on. -/
def passBody (cfg : RunConfig) (p : LoopIteration) (itemType : ItemType)
    (returnCode : StatusCode) (st1 : ProcessorState) :
    Option LoopExit × StatusCode × ProcessorState :=
  let check := checkForAsyncStopRequest st1.shutdown_flag returnCode
  if check.1 then
    let st2 := { st1 with calls := st1.calls ++ [.preSourceEarlyTerminationSignal] }
    match processMachineEvent cfg .Stop p.onTransition st2 with
    | (.returned t, st3) => (some (.finished check.2 t st3), check.2, st3)
    | (outcome, st3) => (some (LoopExit.ofOutcome outcome st3), check.2, st3)
  else if itemType = .IsEvent then
    match processMachineEvent cfg .Event p.onEvent st1 with
    | (.returned t, st2) =>
      if st2.asyncStopRequestedWhileProcessingEvents_ then
        match processMachineEvent cfg .Stop p.onTransition st2 with
        | (.returned t', st3) =>
          (some (.finished st3.asyncStopStatusCodeFromProcessingEvents_ t' st3),
            st3.asyncStopStatusCodeFromProcessingEvents_, st3)
        | (outcome, st3) => (some (LoopExit.ofOutcome outcome st3), check.2, st3)
      else
        let d := dispatchItem cfg p st2.nextItemTypeFromProcessingEvents_ check.2 t st2
        (d.1, check.2, d.2)
    | (outcome, st2) => (some (LoopExit.ofOutcome outcome st2), check.2, st2)
  else
    let d := dispatchItem cfg p itemType check.2 false st1
    (d.1, check.2, d.2)

/-- One pass of the `while(true)` loop (lines 1330-1401). -/
def loopPass (cfg : RunConfig) (p : LoopIteration) (returnCode : StatusCode)
    (st : ProcessorState) : Option LoopExit × StatusCode × ProcessorState :=
  passBody cfg p (passItemType cfg p) returnCode (passStart cfg p st)

/-- The `while(true)` loop over the passes the collaborators supply; when they
run out the loop is still running. -/
def mainLoop (cfg : RunConfig) : List LoopIteration → StatusCode → ProcessorState → LoopExit
  | [], _, st => .stuck .blocked st
  | p :: rest, returnCode, st =>
    match loopPass cfg p returnCode st with
    | (some exit, _, _) => exit
    | (none, returnCode1, st1) => mainLoop cfg rest returnCode1 st1

/-- The `BadState` error of lines 1480-1482. -/
def badStateError : Exception :=
  { category := "BadState"
    message := "The boost state machine in the EventProcessor exited after\n"
      ++ "entering the Error state.\n" }

/-- The `LogicError` of lines 1488-1490. -/
def machineNotDestroyedError : Exception :=
  { category := "LogicError"
    message := "State machine not destroyed on exit from EventProcessor::runToCompletion\n"
      ++ "Please report this error to the Framework group\n" }

/-- The members as the loop of `runToCompletion` finds them (lines 1311, 1317,
1323 and 1324). -/
def startRun (st : ProcessorState) : ProcessorState :=
  { st with asyncStopStatusCodeFromProcessingEvents_ := .epSuccess
            stateMachineWasInErrorState_ := false
            nextItemTypeFromProcessingEvents_ := .IsEvent
            asyncStopRequestedWhileProcessingEvents_ := false }

/-- Lines 1449-1493: what `runToCompletion` does once the loop is left. -/
def afterLoop : LoopExit → Outcome StatusCode × ProcessorState
  | .raised e st => (.raised e, st)
  | .stuck outcome st =>
    (match outcome with
      | .exited status => .exited status
      | .aborted => .aborted
      | _ => .blocked, st)
  | .finished returnCode terminated st =>
    if st.stateMachineWasInErrorState_ then (.raised badStateError, st)
    else if !terminated then (.raised machineNotDestroyedError, st)
    else (.returned returnCode, st)

/-- What the collaborators answer during one `runToCompletion`: the exception
`beginJob()` lets escape if any, and the passes of the main loop. -/
structure RunEnv where
  beginJob : Option Exception
  passes : List LoopIteration
  deriving DecidableEq, Repr

/-- `EventProcessor::runToCompletion` (lines 1307-1494). -/
def runToCompletion (cfg : RunConfig) (env : RunEnv) (st : ProcessorState) :
    Outcome StatusCode × ProcessorState :=
  let st0 := { st with asyncStopStatusCodeFromProcessingEvents_ := .epSuccess }
  match env.beginJob with
  | some e => (.raised e, st0)
  | none =>
    match createStateMachine cfg.fileMode_ cfg.emptyRunLumiMode_ with
    | .error e => (.raised e, { st0 with stateMachineWasInErrorState_ := false })
    | .ok _ => afterLoop (mainLoop cfg env.passes .epSuccess (startRun st))

/-- A non-forked block of `readAndProcessEvent` after the given steps. -/
def blockAfter (kNumStreams : Nat) (st : ProcessorState) (steps : List LoopStep) : BlockState :=
  steps.foldl blockStep (blockStart kNumStreams st)

/-- In a block, `firstEventInBlock_` is set exactly as long as no call has
reached the source; the first call recorded is a `readEvent`. -/
def FirstCallInv (st : ProcessorState) : Prop :=
  (st.firstEventInBlock_ = true ∧ st.calls = [])
    ∨ (st.firstEventInBlock_ = false ∧ ∃ j rest, st.calls = .readEvent j :: rest)

/-- The deferred-exception slot and the record of attempts agree: the slot is
empty and nothing was offered, or the flag is set and the slot holds the first
exception offered. -/
def SlotInv (st : ProcessorState) : Prop :=
  (st.deferredExceptionPtrIsSet_ = false ∧ st.attempts = [])
    ∨ (st.deferredExceptionPtrIsSet_ = true
        ∧ ∃ e rest, st.attempts = e :: rest ∧ st.deferredExceptionPtr_ = some e)

/-- The members when the loop was left. -/
def LoopExit.state : LoopExit → ProcessorState
  | .finished _ _ st => st
  | .raised _ st => st
  | .stuck _ st => st

/-- The error-state flag is set exactly when `doErrorStuff` is on record. -/
def ErrInv (st : ProcessorState) : Prop :=
  st.stateMachineWasInErrorState_ = true ↔ Call.doErrorStuff ∈ st.calls

/-- Answers of a read in which nothing stops the stream and the source has an
event of the given item type next. -/
def ReadAnswers.next (itemType : ItemType) : ReadAnswers :=
  { terminate := false, nextItemTypeThrows := none, itemType := itemType
    readEventThrows := none }

/-- The exception used in the sample runs. -/
def sampleFailure : Exception :=
  { category := "StdException", message := "module failed" }

/-- A second exception used in the sample runs. -/
def otherFailure : Exception :=
  { category := "ProductNotFound", message := "no such product" }

/-- A reaction of the machine that does nothing but report `terminated`. -/
def MachineReaction.quiet (terminated : Bool) : MachineReaction :=
  { errorState := false, startsNewLoop := false, block := none, throws := none
    terminated := terminated }

/-- A reaction to an `Event` that runs the block `steps`. -/
def MachineReaction.events (steps : List LoopStep) : MachineReaction :=
  { errorState := false, startsNewLoop := false
    block := some { steps := steps, forkedReadEventThrows := none
                    forkedFailure := none, forkedLooperStops := false }
    throws := none, terminated := false }

/-- One stream, no children, default modes. -/
def sampleRunConfig (numberOfForkedChildren_ : Int) (kNumStreams : Nat) : RunConfig :=
  { numberOfForkedChildren_ := numberOfForkedChildren_, kNumStreams := kNumStreams
    fileMode_ := "", emptyRunLumiMode_ := "" }

/-- A pass in which the source reports `itemType`, with the two reactions. -/
def samplePass (signal : Bool) (itemType : ItemType) (onEvent onTransition : MachineReaction) :
    LoopIteration :=
  { signal := signal, more := true, itemType := itemType
    onEvent := onEvent, onTransition := onTransition }

/-- A block of one stream that reads the classified event, processes it, and
finds the source at the next luminosity block. -/
def oneEventBlock : List LoopStep :=
  [.read 0 (ReadAnswers.next .IsEvent), .processed 0 none false,
   .read 0 (ReadAnswers.next .IsLumi)]

/-- A block of two streams whose events both fail, stream 1 first. -/
def twoFailuresBlock : List LoopStep :=
  [.read 0 (ReadAnswers.next .IsEvent), .read 1 (ReadAnswers.next .IsEvent),
   .processed 1 (some sampleFailure) false, .processed 0 (some otherFailure) false]

/-- A run over a file with one event: file, run, lumi, event (then the source
is at Stop), stop. -/
def quietRun : RunEnv :=
  { beginJob := none
    passes :=
      [samplePass false .IsFile (MachineReaction.quiet false) (MachineReaction.quiet false),
       samplePass false .IsRun (MachineReaction.quiet false) (MachineReaction.quiet false),
       samplePass false .IsLumi (MachineReaction.quiet false) (MachineReaction.quiet false),
       samplePass false .IsEvent
         (MachineReaction.events [.read 0 (ReadAnswers.next .IsEvent),
           .processed 0 none false, .read 0 (ReadAnswers.next .IsStop)])
         (MachineReaction.quiet true)] }

/-- A run in which the machine enters its Error state on the first item and
terminates on the Stop that follows. -/
def errorStateRun : RunEnv :=
  { beginJob := none
    passes :=
      [samplePass false .IsLumi (MachineReaction.quiet false)
         { errorState := true, startsNewLoop := false, block := none, throws := none
           terminated := false },
       samplePass false .IsStop (MachineReaction.quiet false) (MachineReaction.quiet true)] }

/-! ## `EventProcessor::beginJob` (lines 606-660) -/

/-- The calls `beginJob` makes, for the record. -/
inductive BeginJobCall where
  | bkBeginJob
  | preallocateSignal
  | convertCurrentProcessAlias
  | initializePathsAndConsumes
  | checkForModuleDependencyCorrectness
  | preBeginJobSignal
  | sourceDoBeginJob
  | scheduleBeginJob
  | subProcessDoBeginJob (subProcess : Nat)
  | postBeginJobSignal
  | scheduleBeginStream (i : Nat)
  | subProcessDoBeginStream (subProcess i : Nat)
  deriving DecidableEq, Repr

/-- The member `beginJobCalled_` and the record of the calls made so far. -/
structure BeginJobState where
  beginJobCalled_ : Bool
  calls : List BeginJobCall
  deriving DecidableEq, Repr

/-- What `beginJob` meets: the number of streams and of sub-processes, and the
exception `checkForModuleDependencyCorrectness` or the source's `doBeginJob`
throws, if any. -/
structure BeginJobEnv where
  numberOfStreams : Nat
  subProcesses : Nat
  dependencyCheckThrows : Option Exception
  sourceBeginJobThrows : Option Exception
  deriving DecidableEq, Repr

/-- The loop of lines 656-659: `beginStream(i)` on the schedule and then on
each sub-process, for every stream. -/
def beginStreamCalls (numberOfStreams subProcesses : Nat) : List BeginJobCall :=
  (List.range numberOfStreams).flatMap (fun i =>
    .scheduleBeginStream i
      :: (List.range subProcesses).map (fun subProcess => .subProcessDoBeginStream subProcess i))

/-- `EventProcessor::beginJob`.  The exception of the source gets the context
"Calling beginJob for the source" added before it is thrown on. -/
def beginJob (env : BeginJobEnv) (st : BeginJobState) : Outcome Unit × BeginJobState :=
  if st.beginJobCalled_ then (.returned (), st)
  else
    let st1 : BeginJobState :=
      { beginJobCalled_ := true
        calls := st.calls ++ [.bkBeginJob, .preallocateSignal, .convertCurrentProcessAlias,
          .initializePathsAndConsumes, .checkForModuleDependencyCorrectness] }
    match env.dependencyCheckThrows with
    | some e => (.raised e, st1)
    | none =>
      let st2 := { st1 with calls := st1.calls ++ [.preBeginJobSignal, .sourceDoBeginJob] }
      match env.sourceBeginJobThrows with
      | some e => (.raised e, st2)
      | none =>
        (.returned (),
          { st2 with calls := st2.calls ++ [.scheduleBeginJob]
              ++ (List.range env.subProcesses).map BeginJobCall.subProcessDoBeginJob
              ++ [.postBeginJobSignal]
              ++ beginStreamCalls env.numberOfStreams env.subProcesses })

/-! ## `EventProcessor::endJob` (lines 662-691) -/

/-- The teardown steps of `endJob`. -/
inductive EndJobStep where
  | scheduleEndStream (i : Nat)
  | subProcessDoEndStream (subProcess i : Nat)
  | preEndJobSignal
  | scheduleEndJob
  | subProcessDoEndJob (subProcess : Nat)
  | sourceDoEndJob
  | looperEndOfJob
  | postEndJobSignal
  deriving DecidableEq, Repr

/-- Modelled from the spec: the `ExceptionCollector` (declared outside this
file) accumulates every failure handed to it; `call` runs a step and catches
what it throws.  Next to the exceptions collected, the steps attempted are kept
for the record. -/
structure ExceptionCollector where
  collected : List Exception
  attempted : List EndJobStep
  deriving DecidableEq, Repr

/-- `c.hasThrown()`. -/
def ExceptionCollector.hasThrown (c : ExceptionCollector) : Bool :=
  !c.collected.isEmpty

/-- What `endJob` meets: the number of streams and of sub-processes, whether a
looper exists, the exception each step run through `c.call` throws if any, the
exceptions `Schedule::endJob(c)` hands to the collector, and the exception
`c.rethrow()` makes of the collected ones. -/
structure EndJobEnv where
  numberOfStreams : Nat
  subProcesses : Nat
  looper_ : Bool
  throws : EndJobStep → Option Exception
  scheduleEndJobCollects : List Exception
  rethrown : List Exception → Exception

/-- `c.call(step)`: the step is run and what it throws is collected. -/
def ExceptionCollector.call (env : EndJobEnv) (c : ExceptionCollector) (step : EndJobStep) :
    ExceptionCollector :=
  { collected := c.collected ++ (env.throws step).toList
    attempted := c.attempted ++ [step] }

/-- The body of the loop over the streams (lines 671-674). -/
def endStream (env : EndJobEnv) (c : ExceptionCollector) (i : Nat) : ExceptionCollector :=
  (List.range env.subProcesses).foldl
    (fun c subProcess => c.call env (.subProcessDoEndStream subProcess i))
    (c.call env (.scheduleEndStream i))

/-- The collector when `endJob` asks it `hasThrown()` (lines 669-687). -/
def endJobCollector (env : EndJobEnv) : ExceptionCollector :=
  let c1 := (List.range env.numberOfStreams).foldl (endStream env)
    { collected := [], attempted := [] }
  let c2 := c1.call env .preEndJobSignal
  let c3 : ExceptionCollector :=
    { collected := c2.collected ++ env.scheduleEndJobCollects
      attempted := c2.attempted ++ [.scheduleEndJob] }
  let c4 := (List.range env.subProcesses).foldl
    (fun c subProcess => c.call env (.subProcessDoEndJob subProcess)) c3
  let c5 := c4.call env .sourceDoEndJob
  let c6 := if env.looper_ then c5.call env .looperEndOfJob else c5
  c6.call env .postEndJobSignal

/-- `EventProcessor::endJob`: the outcome and the steps attempted, in order. -/
def endJob (env : EndJobEnv) : Outcome Unit × List EndJobStep :=
  let c := endJobCollector env
  if c.hasThrown then (.raised (env.rethrown c.collected), c.attempted)
  else (.returned (), c.attempted)

/-- The order of the teardown steps as the spec lists them. -/
def teardownOrder (numberOfStreams subProcesses : Nat) (looper_ : Bool) : List EndJobStep :=
  (List.range numberOfStreams).flatMap (fun i =>
      .scheduleEndStream i
        :: (List.range subProcesses).map (fun subProcess => .subProcessDoEndStream subProcess i))
    ++ [.preEndJobSignal, .scheduleEndJob]
    ++ (List.range subProcesses).map EndJobStep.subProcessDoEndJob
    ++ [.sourceDoEndJob]
    ++ (if looper_ then [.looperEndOfJob] else [])
    ++ [.postEndJobSignal]

/-- A sample teardown: two streams, one sub-process, a looper; the steps in
`failing` throw `sampleFailure`. -/
def sampleEndJobEnv (failing : List EndJobStep) (scheduleEndJobCollects : List Exception) :
    EndJobEnv :=
  { numberOfStreams := 2, subProcesses := 1, looper_ := true
    throws := fun step => if step ∈ failing then some sampleFailure else none
    scheduleEndJobCollects := scheduleEndJobCollects
    rethrown := fun collected =>
      { category := "MultipleExceptions"
        message := String.intercalate "\n" (collected.map (fun e => e.message)) } }

/-! ## `readRun` and `readLuminosityBlock` (lines 1866-1919) -/

/-- A run principal, as far as these functions look at it. -/
structure RunPrincipal where
  reducedProcessHistoryID : Nat
  run : Nat
  deriving DecidableEq, Repr

/-- A luminosity block principal, with the run principal set on it. -/
structure LuminosityBlockPrincipal where
  luminosityBlock : Nat
  runPrincipal : Option RunPrincipal
  deriving DecidableEq, Repr

/-- Modelled from the spec: the `PrincipalCache` (declared outside this file)
keeps the current run and lumi principals; `insert` adds one and
`hasRunPrincipal` / `hasLumiPrincipal` say whether one is held.  The cache is
the lists of the principals held. -/
structure PrincipalCache where
  runs : List RunPrincipal
  lumis : List LuminosityBlockPrincipal
  deriving DecidableEq, Repr

/-- `principalCache_.hasRunPrincipal()`. -/
def PrincipalCache.hasRunPrincipal (cache : PrincipalCache) : Bool :=
  !cache.runs.isEmpty

/-- `principalCache_.hasLumiPrincipal()`. -/
def PrincipalCache.hasLumiPrincipal (cache : PrincipalCache) : Bool :=
  !cache.lumis.isEmpty

/-- A read made on the source. -/
inductive SourceRead where
  | readRun
  | readLuminosityBlock
  deriving DecidableEq, Repr

/-- The cache and the record of the reads made on the source. -/
structure CacheState where
  cache : PrincipalCache
  reads : List SourceRead
  deriving DecidableEq, Repr

/-- What the source answers: the run of `runAuxiliary()`, the exception
`readRun` or `readLuminosityBlock` throws if any, the reduced process history
id the run principal has after the read, the one the source reports, and the
source's `run()` and `luminosityBlock()`. -/
structure ReadEnv where
  auxiliaryRun : Nat
  readThrows : Option Exception
  principalHistoryID : Nat
  reducedProcessHistoryID : Nat
  run : Nat
  luminosityBlock : Nat
  deriving DecidableEq, Repr

/-- The `LogicError` of `readRun` (lines 1868-1871). -/
def insertRunError : Exception :=
  { category := "LogicError"
    message := "EventProcessor::readRun\n" ++ "Illegal attempt to insert run into cache\n"
      ++ "Contact a Framework Developer\n" }

/-- The first `LogicError` of `readLuminosityBlock` (lines 1898-1901). -/
def insertLumiError : Exception :=
  { category := "LogicError"
    message := "EventProcessor::readRun\n" ++ "Illegal attempt to insert lumi into cache\n"
      ++ "Contact a Framework Developer\n" }

/-- The second `LogicError` of `readLuminosityBlock` (lines 1904-1908). -/
def insertLumiNoRunError : Exception :=
  { category := "LogicError"
    message := "EventProcessor::readRun\n" ++ "Illegal attempt to insert lumi into cache\n"
      ++ "Run is invalid\n" ++ "Contact a Framework Developer\n" }

/-- `EventProcessor::readRun` (lines 1866-1882): the result is the pair handed
to `statemachine::Run`. -/
def readRun (env : ReadEnv) (st : CacheState) : Outcome (Nat × Nat) × CacheState :=
  if st.cache.hasRunPrincipal then (.raised insertRunError, st)
  else
    let st1 := { st with reads := st.reads ++ [.readRun] }
    match env.readThrows with
    | some e => (.raised e, st1)
    | none =>
      let rp : RunPrincipal :=
        { reducedProcessHistoryID := env.principalHistoryID, run := env.auxiliaryRun }
      if env.reducedProcessHistoryID ≠ rp.reducedProcessHistoryID then (.aborted, st1)
      else
        (.returned (rp.reducedProcessHistoryID, env.run),
          { st1 with cache := { st1.cache with runs := st1.cache.runs ++ [rp] } })

/-- `EventProcessor::readLuminosityBlock` (lines 1896-1919). -/
def readLuminosityBlock (env : ReadEnv) (st : CacheState) : Outcome Nat × CacheState :=
  if st.cache.hasLumiPrincipal then (.raised insertLumiError, st)
  else if !st.cache.hasRunPrincipal then (.raised insertLumiNoRunError, st)
  else
    let st1 := { st with reads := st.reads ++ [.readLuminosityBlock] }
    match env.readThrows with
    | some e => (.raised e, st1)
    | none =>
      let lbp : LuminosityBlockPrincipal :=
        { luminosityBlock := env.luminosityBlock, runPrincipal := st1.cache.runs.head? }
      (.returned env.luminosityBlock,
        { st1 with cache := { st1.cache with lumis := st1.cache.lumis ++ [lbp] } })

/-- P4 on a cache: at most one run principal, at most one lumi principal, and
no lumi principal without a run principal. -/
def PrincipalCache.Unique (cache : PrincipalCache) : Prop :=
  cache.runs.length ≤ 1 ∧ cache.lumis.length ≤ 1 ∧ (cache.lumis ≠ [] → cache.runs ≠ [])

/-! ## `EventProcessor::init`: the event principals (lines 562-568) -/

/-- The loop `for(index = 0; index < preallocations_.numberOfStreams(); ++index)`
of `init`: the stream indices for which an `EventPrincipal` is made and put in
the cache. -/
def preallocatedEventPrincipals (preallocations_ : PreallocationConfiguration) : List Nat :=
  List.range preallocations_.nStreams

/-! ## The parent dispatcher: message sizes and the alive count -/

/-- Modelled from the spec: the reply `MessageForSource` is two `uint64`
fields, so `MessageForSource::sizeForBuffer()` is 16 bytes (the class is
declared outside this file). -/
def replySize : Nat := 16

/-- The alive count agrees with the monitored set: it is the number of
watchdog pipes still in the set. -/
def PipeInv (pipes : List Nat) (s : SenderRun) : Prop :=
  s.aliveChildren = (pipes.filter (fun pipe => decide (pipe ∈ s.socketSet))).length

/-- A round in which `select` reports exactly `ready` readable and nothing in
error, every `read` gives one byte, every `recv` gives `recvRc` and every
`send` gives `sendRc`. -/
def transferRound (ready : List Nat) (recvRc sendRc : Int) : SelectRound :=
  { selectRc := 1, readable := ready, inError := [],
    readRc := fun _ => 1, recvRc := fun _ => recvRc, sendRc := fun _ => sendRc }

/-! ## Run and lumi transitions (lines 1614-1864)

`beginGlobalTransitionAsync`, `beginStreamsTransitionAsync` and
`endStreamsTransitionAsync` are templates defined outside this file: the
first starts the global-begin transition and hands its outcome to the waiting
task, the other two start the transition on each of the streams and hand the
outcome to the waiting task.  After `wait_for_all()` the waiting task holds an
exception pointer if the transition failed. -/

/-- The calls of the four transition functions, for the record. -/
inductive TransitionCall where
  | sourceDoBegin
  | sourceDoEnd
  | forceCacheClear
  | eventSetupForInstance
  | looperBeginOfJob
  | rngPreBeginLumi
  | globalBeginDispatched
  | globalBeginAwaited
  | looperDoBegin
  | streamBeginDispatched (stream : Nat)
  | streamBeginAwaited
  | streamEndDispatched (stream : Nat)
  | streamEndAwaited
  | globalEnd
  | subProcessDoEnd (subProcess : Nat)
  | looperDoEnd
  deriving DecidableEq, Repr

/-- What a transition function meets: the members it reads, whether the
random number service is available, and the exception pointer each waiting
task holds after `wait_for_all()`. -/
structure TransitionEnv where
  numberOfStreams : Nat
  subProcesses : Nat
  looper_ : Bool
  looperBeginJobRun_ : Bool
  forceESCacheClearOnNewRun_ : Bool
  rngAvailable : Bool
  globalWaitTaskException : Option Exception
  streamLoopWaitTaskException : Option Exception
  deriving DecidableEq, Repr

/-- The stream-begin transitions started by `beginStreamsTransitionAsync`. -/
def streamBegins (numberOfStreams : Nat) : List TransitionCall :=
  (List.range numberOfStreams).map TransitionCall.streamBeginDispatched

/-- The stream-end transitions started by `endStreamsTransitionAsync`. -/
def streamEnds (numberOfStreams : Nat) : List TransitionCall :=
  (List.range numberOfStreams).map TransitionCall.streamEndDispatched

/-- Lines 1640-1678 and 1765-1802, common to `beginRun` and `beginLumi`: the
global-begin is started and awaited and its exception rethrown; then the
looper is told, the stream-begins are started and awaited and their exception
rethrown. -/
def beginTransitions (env : TransitionEnv) (calls : List TransitionCall) :
    Outcome Unit × List TransitionCall :=
  let calls1 := calls ++ [.globalBeginDispatched, .globalBeginAwaited]
  match env.globalWaitTaskException with
  | some e => (.raised e, calls1)
  | none =>
    let calls2 := calls1 ++ (if env.looper_ then [.looperDoBegin] else [])
      ++ streamBegins env.numberOfStreams ++ [.streamBeginAwaited]
    match env.streamLoopWaitTaskException with
    | some e => (.raised e, calls2)
    | none => (.returned (), calls2)

/-- `EventProcessor::beginRun` (lines 1614-1683).  The looper's `copyInfo`,
`beginOfJob` and `doStartingNewLoop` of lines 1635-1638 are recorded as the
one call `looperBeginOfJob`; the record is what the function is observed by,
so the assignment `looperBeginJobRun_ = true` is not carried further. -/
def beginRun (env : TransitionEnv) : Outcome Unit × List TransitionCall :=
  beginTransitions env
    ([.sourceDoBegin] ++ (if env.forceESCacheClearOnNewRun_ then [.forceCacheClear] else [])
      ++ [.eventSetupForInstance]
      ++ (if env.looper_ && env.looperBeginJobRun_ == false then [.looperBeginOfJob] else []))

/-- `EventProcessor::beginLumi` (lines 1741-1808). -/
def beginLumi (env : TransitionEnv) : Outcome Unit × List TransitionCall :=
  beginTransitions env
    ([.sourceDoBegin] ++ (if env.rngAvailable then [.rngPreBeginLumi] else [])
      ++ [.eventSetupForInstance])

/-- Lines 1704-1738 and 1830-1863, common to `endRun` and `endLumi`: the
stream-ends are started and awaited and their exception rethrown; then the
global-end runs on the schedule and on each sub-process, and the looper is
told. -/
def endTransitions (env : TransitionEnv) (calls : List TransitionCall) :
    Outcome Unit × List TransitionCall :=
  let calls1 := calls ++ streamEnds env.numberOfStreams ++ [.streamEndAwaited]
  match env.streamLoopWaitTaskException with
  | some e => (.raised e, calls1)
  | none =>
    (.returned (),
      calls1 ++ [.globalEnd]
        ++ (List.range env.subProcesses).map TransitionCall.subProcessDoEnd
        ++ (if env.looper_ then [.looperDoEnd] else []))

/-- `EventProcessor::endRun` (lines 1685-1739). -/
def endRun (env : TransitionEnv) : Outcome Unit × List TransitionCall :=
  endTransitions env [.sourceDoEnd, .eventSetupForInstance]

/-- `EventProcessor::endLumi` (lines 1810-1864). -/
def endLumi (env : TransitionEnv) : Outcome Unit × List TransitionCall :=
  endTransitions env [.sourceDoEnd, .eventSetupForInstance]

/-- Whether a call starts a stream-begin transition. -/
def TransitionCall.isStreamBegin : TransitionCall → Bool
  | .streamBeginDispatched _ => true
  | _ => false

/-! ## `processEventAsync` (lines 2103-2166) -/

/-- The calls made while one event is processed, for the record. -/
inductive EventCall where
  | rngPostEventRead
  | scheduleProcessOneEventAsync (iStreamIndex : Nat)
  | subProcessDoEventAsync (subProcess : Nat)
  | processEventWithLooper
  | clearEventPrincipal
  | doneWaiting (exception : Option Exception)
  deriving DecidableEq, Repr

/-- What `processEventAsync` meets: the number of sub-processes (numbered in
the order of their declaration), whether a looper exists, whether the random
number service is available, whether the three assertions of lines 2112-2114
hold, the exception the schedule hands to `afterProcessTask` if its stage
failed, and the exception the sub-processes hand to `finalizeEventTask` if one
of them failed. -/
structure EventEnv where
  subProcesses : Nat
  looper_ : Bool
  rngAvailable : Bool
  assertionsHold : Bool
  scheduleException : Option Exception
  subProcessException : Option Exception
  deriving DecidableEq, Repr

/-- The finalize task (lines 2118-2134) run with the exception pointer
`iPtr`: the looper sees the event, the principal is cleared and `iPtr` is
handed to the holder. -/
def finalizeEventTask (env : EventEnv) (iPtr : Option Exception) : List EventCall :=
  (if env.looper_ then [.processEventWithLooper] else [])
    ++ [.clearEventPrincipal, .doneWaiting iPtr]

/-- The task run after the schedule's stage (lines 2137-2161), with the
exception pointer `iPtr` the schedule hands over. -/
def afterProcessTask (env : EventEnv) (iPtr : Option Exception) : List EventCall :=
  if env.subProcesses = 0 then finalizeEventTask env iPtr
  else
    match iPtr with
    | none =>
      (List.range env.subProcesses).reverse.map EventCall.subProcessDoEventAsync
        ++ finalizeEventTask env env.subProcessException
    | some e => finalizeEventTask env (some e)

/-- `EventProcessor::processEventAsync`: the calls made until the holder is
told, or the abort of a failed assertion. -/
def processEventAsync (env : EventEnv) (iStreamIndex : Nat) : Outcome Unit × List EventCall :=
  let calls := if env.rngAvailable then [EventCall.rngPostEventRead] else []
  if !env.assertionsHold then (.aborted, calls)
  else
    (.returned (),
      calls ++ [.scheduleProcessOneEventAsync iStreamIndex]
        ++ afterProcessTask env env.scheduleException)

/-- The sub-processes the event was submitted to, in the order of
submission. -/
def submittedTo (calls : List EventCall) : List Nat :=
  calls.filterMap (fun call =>
    match call with
    | .subProcessDoEventAsync subProcess => some subProcess
    | _ => none)

/-- The exception pointers handed to the holder by the finalise step. -/
def handedOn (calls : List EventCall) : List (Option Exception) :=
  calls.filterMap (fun call =>
    match call with
    | .doneWaiting exception => some exception
    | _ => none)

/-- The order of a begin transition, read off the record of its calls: the
global-begin is started and awaited at one place of the record, no
stream-begin is started before that place; if the global-begin left an
exception the function raises it and no stream-begin is started after that
place either; otherwise the stream-begin of every stream is started after
it. -/
def GlobalBeginFirst (env : TransitionEnv) (result : Outcome Unit × List TransitionCall) : Prop :=
  ∃ pre post,
    result.2 = pre ++ TransitionCall.globalBeginDispatched
      :: TransitionCall.globalBeginAwaited :: post
    ∧ (∀ i, TransitionCall.streamBeginDispatched i ∉ pre)
    ∧ (∀ e, env.globalWaitTaskException = some e →
        result.1 = .raised e ∧ ∀ i, TransitionCall.streamBeginDispatched i ∉ post)
    ∧ (env.globalWaitTaskException = none →
        ∀ i, i < env.numberOfStreams → TransitionCall.streamBeginDispatched i ∈ post)

/-- The order of an end transition, read off the record of its calls: the
stream-end of every stream is started before the place where the stream-ends
are awaited, and the global-end does not run before that place; if the
stream-ends left an exception the function raises it and the global-end does
not run at all; otherwise the global-end runs after that place and the
function returns. -/
def StreamEndsFirst (env : TransitionEnv) (result : Outcome Unit × List TransitionCall) : Prop :=
  ∃ pre post,
    result.2 = pre ++ TransitionCall.streamEndAwaited :: post
    ∧ (∀ i, i < env.numberOfStreams → TransitionCall.streamEndDispatched i ∈ pre)
    ∧ TransitionCall.globalEnd ∉ pre
    ∧ (∀ i, TransitionCall.streamEndDispatched i ∉ post)
    ∧ (∀ e, env.streamLoopWaitTaskException = some e →
        result.1 = .raised e ∧ TransitionCall.globalEnd ∉ post)
    ∧ (env.streamLoopWaitTaskException = none →
        result.1 = .returned () ∧ TransitionCall.globalEnd ∈ post)

/-- A configuration with two streams and one sub-process in which no
transition fails. -/
def sampleTransitionEnv : TransitionEnv :=
  { numberOfStreams := 2, subProcesses := 1, looper_ := false, looperBeginJobRun_ := false,
    forceESCacheClearOnNewRun_ := false, rngAvailable := false,
    globalWaitTaskException := none, streamLoopWaitTaskException := none }

/-- An event with two sub-processes, no looper, and a schedule that
succeeds. -/
def sampleEventEnv : EventEnv :=
  { subProcesses := 2, looper_ := false, rngAvailable := false, assertionsHold := true,
    scheduleException := none, subProcessException := none }

/-- The deferred-exception slot holds `e`: the flag is set and the pointer is
`e`. -/
def DeferredHeld (e : Exception) (st : ProcessorState) : Prop :=
  st.deferredExceptionPtrIsSet_ = true ∧ st.deferredExceptionPtr_ = some e

/-- A run of two streams whose events both fail, stream 1 first, after which
the machine terminates on the Stop. -/
def failedRun : RunEnv :=
  { beginJob := none
    passes :=
      [samplePass false .IsEvent (MachineReaction.events twoFailuresBlock)
        (MachineReaction.quiet true)] }

/-! ## `EVTColContainer` (HLTriggerOffline/Higgs/src/EVTColContainer.cc) -/

/-- A pointer to a collection: `none` is the null pointer. -/
abbrev CollectionPtr := Option Nat

/-- The argument of the overloaded setter `set` (lines 110-148): its static
type selects the overload. -/
inductive SetArgument where
  | MuonCollection (v : CollectionPtr)
  | GsfElectronCollection (v : CollectionPtr)
  | PhotonCollection (v : CollectionPtr)
  | CaloMETCollection (v : CollectionPtr)
  | PFMETCollection (v : CollectionPtr)
  | PFTauCollection (v : CollectionPtr)
  | PFJetCollection (v : CollectionPtr)
  | JetTagCollection (v : CollectionPtr)
  deriving DecidableEq, Repr

/-- The data members of `EVTColContainer` (lines 55-69). -/
structure EVTColContainer where
  nOfCollections : Int
  nInitialized : Int
  genParticles : CollectionPtr
  genJets : CollectionPtr
  muons : CollectionPtr
  electrons : CollectionPtr
  photons : CollectionPtr
  caloMETs : CollectionPtr
  pfMETs : CollectionPtr
  pfTaus : CollectionPtr
  pfJets : CollectionPtr
  jetTags : CollectionPtr
  rawTriggerEvent : CollectionPtr
  triggerResults : CollectionPtr
  deriving DecidableEq, Repr

/-- The largest value of an `int`. -/
def intMax : Int := 2147483647

/-- The statement `++n` on an `int`: at the largest value the increment
overflows, which C++ leaves undefined (`none`). -/
def preIncrement (n : Int) : Option Int :=
  if n < intMax then some (n + 1) else none

/-- The constructor (lines 70-87). -/
def EVTColContainer.construct : EVTColContainer :=
  { nOfCollections := 7, nInitialized := 0
    genParticles := none, genJets := none, muons := none, electrons := none
    photons := none, caloMETs := none, pfMETs := none, pfTaus := none, pfJets := none
    jetTags := none, rawTriggerEvent := none, triggerResults := none }

/-- `isAllInit()` (lines 89-92). -/
def EVTColContainer.isAllInit (c : EVTColContainer) : Bool :=
  decide (c.nInitialized = c.nOfCollections)

/-- `reset()` (lines 99-108). -/
def EVTColContainer.reset (c : EVTColContainer) : EVTColContainer :=
  { c with nInitialized := 0, genParticles := none, genJets := none
           muons := none, electrons := none, photons := none, pfTaus := none
           caloMETs := none, pfMETs := none, pfJets := none
           jetTags := none, rawTriggerEvent := none, triggerResults := none }

/-- The eight overloads of `set` (lines 110-148); `none` when the increment is
undefined. -/
def EVTColContainer.set (c : EVTColContainer) : SetArgument → Option EVTColContainer
  | .MuonCollection v =>
    (preIncrement c.nInitialized).map (fun n => { c with muons := v, nInitialized := n })
  | .GsfElectronCollection v =>
    (preIncrement c.nInitialized).map (fun n => { c with electrons := v, nInitialized := n })
  | .PhotonCollection v =>
    (preIncrement c.nInitialized).map (fun n => { c with photons := v, nInitialized := n })
  | .CaloMETCollection v =>
    (preIncrement c.nInitialized).map (fun n => { c with caloMETs := v, nInitialized := n })
  | .PFMETCollection v =>
    (preIncrement c.nInitialized).map (fun n => { c with pfMETs := v, nInitialized := n })
  | .PFTauCollection v =>
    (preIncrement c.nInitialized).map (fun n => { c with pfTaus := v, nInitialized := n })
  | .PFJetCollection v =>
    (preIncrement c.nInitialized).map (fun n => { c with pfJets := v, nInitialized := n })
  | .JetTagCollection v => some { c with jetTags := v }

/-- A call that changes a container: one of the setters, or `reset()`. -/
inductive ContainerOperation where
  | set (argument : SetArgument)
  | reset
  deriving DecidableEq, Repr

/-- One call on a container. -/
def EVTColContainer.apply (c : EVTColContainer) : ContainerOperation → Option EVTColContainer
  | .set argument => c.set argument
  | .reset => some c.reset

/-- A sequence of calls on a container, in order; `none` once a call is
undefined. -/
def EVTColContainer.run : List ContainerOperation → EVTColContainer → Option EVTColContainer
  | [], c => some c
  | operation :: rest, c => (c.apply operation).bind (EVTColContainer.run rest)

/-- The object type (the enumeration of lines 42-53: `MUON` = 0, ..., `PFJET`
= 6) of the collection a setter takes; the setter of the jet tags has none. -/
def SetArgument.objtype : SetArgument → Option Nat
  | .MuonCollection _ => some 0
  | .GsfElectronCollection _ => some 1
  | .PhotonCollection _ => some 2
  | .CaloMETCollection _ => some 3
  | .PFMETCollection _ => some 4
  | .PFTauCollection _ => some 5
  | .PFJetCollection _ => some 6
  | .JetTagCollection _ => none

/-- The object type set by a call, if it is a call of one of the seven setters
of muons, electrons, photons, calo METs, PF METs, PF taus and PF jets. -/
def ContainerOperation.objtype : ContainerOperation → Option Nat
  | .set argument => argument.objtype
  | .reset => none

/-- The calls after the last `reset()` of a sequence (all of them when there
is no `reset()`). -/
def sinceLastReset (operations : List ContainerOperation) : List ContainerOperation :=
  (operations.reverse.takeWhile (fun operation => decide (operation ≠ .reset))).reverse

/-- The number of calls of the seven counted setters in a sequence. -/
def countedCalls (operations : List ContainerOperation) : Nat :=
  (operations.filter (fun operation => operation.objtype.isSome)).length

/-- The number of calls of the setter for the given object type. -/
def callsOf (objtype : Nat) (operations : List ContainerOperation) : Nat :=
  (operations.filter (fun operation => decide (operation.objtype = some objtype))).length

/-! ## `l1t::tableRow::getRowValue` (L1Trigger/L1TCommon/interface/setting.h) -/

/-- Whether the characters `s` begin with the characters `col`. -/
def startsWith : List Char → List Char → Bool
  | _, [] => true
  | [], _ :: _ => false
  | a :: s, b :: col => a == b && startsWith s col

/-- The search of `std::string::find`: the lowest position at or after `pos`
(the position of the first character of `s`) at which `col` occurs, `none` for
`npos`. -/
def findAt (col : List Char) : List Char → Nat → Option Nat
  | [], pos => if startsWith [] col then some pos else none
  | a :: s, pos => if startsWith (a :: s) col then some pos else findAt col s (pos + 1)

/-- `s.find(col)` of `std::string`. -/
def find (s col : String) : Option Nat :=
  findAt col.data s.data 0

/-- The data members of `l1t::tableRow` (lines 31-33). -/
structure tableRow where
  _row : List String
  _types : List String
  _columns : List String
  deriving DecidableEq, Repr

/-- How a call of `getRowValue` ends: with a value, with one of the three
exceptions (`std::runtime_error` of line 117, `std::out_of_range` of
`vector::at`, `boost::bad_lexical_cast`), or not at all. -/
inductive RowValue (α : Type) where
  | returned (value : α)
  | runtime_error (what : String)
  | out_of_range
  | bad_lexical_cast
  | loops
  deriving DecidableEq, Repr

/-- The outcome of `boost::lexical_cast`: the value, or `bad_lexical_cast`
where it throws (`none`). -/
def RowValue.ofCast {α : Type} : Option α → RowValue α
  | none => .bad_lexical_cast
  | some value => .returned value

/-- The conversion of an `unsigned int` to `int` in `ct = i` (line 113): the
value reduced modulo 2^32 into the range of `int`. -/
def toInt (i : Nat) : Int :=
  if i % uintModulus < 2147483648 then ((i % uintModulus : Nat) : Int)
  else ((i % uintModulus : Nat) : Int) - (uintModulus : Int)

/-- The conversion of an `int` to the `size_type` of `vector::at` (a 64-bit
unsigned integer). -/
def toSizeType (ct : Int) : Nat :=
  (ct % (uint64Modulus : Int)).toNat

/-- The loop of lines 108-115 from index `i` on, over the columns that are
left.  The state stands for the pair of `found` and `ct`: `none` while `found`
is false (`ct` has no value then and is not read), `some ct` once `found` is
true. -/
def columnLoop (col : String) : List String → Nat → Option Int → Option Int
  | [], _, state => state
  | column :: rest, i, state =>
    columnLoop col rest (i + 1) (if (find column col).isSome then some (toInt i) else state)

/-- `tableRow::getRowValue<varType>(col)` (lines 104-121); `lexical_cast` is
`boost::lexical_cast<varType>`, `none` where it throws.  The counter `i` is an
`unsigned int`: it reaches `_columns.size()` only if that is below 2^32. -/
def tableRow.getRowValue {α : Type} (lexical_cast : String → Option α) (self : tableRow)
    (col : String) : RowValue α :=
  if uintModulus ≤ self._columns.length then .loops
  else
    match columnLoop col self._columns 0 none with
    | none => .runtime_error ("Column " ++ col ++ "not found.")
    | some ct =>
      match self._row[toSizeType ct]? with
      | none => .out_of_range
      | some entry => RowValue.ofCast (lexical_cast entry)

/-- The column name contains `col` as a substring. -/
def ContainsSubstring (column col : String) : Prop :=
  ∃ before after : List Char, column.data = before ++ col.data ++ after

/-- A row of two columns, the second of which has a name that contains the
name of the first. -/
def sampleTableRow : tableRow :=
  { _row := ["1", "2"], _types := ["uint", "uint"], _columns := ["id", "idx"] }

/-- A row of 2147483649 columns of which only the last has a name that
contains "x", with as many entries. -/
def wideTableRow : tableRow :=
  { _row := List.replicate (2147483648 + 1) "0", _types := []
    _columns := List.replicate 2147483648 "" ++ ["x"] }

/-! # Theorems -/

/-! ## Theorems: `init` -/

/-- C1: whatever the options say about threads and streams, with a looper
configured `init` builds a preallocation with one stream, one concurrent lumi
and one concurrent run. -/
theorem init_looper_collapses (optionsPset : OptionsPset) :
    (init optionsPset true).nStreams = 1 ∧
    (init optionsPset true).nConcurrentLumis = 1 ∧
    (init optionsPset true).nConcurrentRuns = 1 := by
  simp [init]

/-- C2: without a looper, `nStreams` is 1 when `numberOfStreams` is absent, the
resolved thread count when it is 0, and the requested value otherwise, also
when that value exceeds the thread count. -/
theorem init_streams_resolution (optionsPset : OptionsPset) :
    (init optionsPset false).nStreams =
      (match optionsPset.numberOfStreams with
        | none => 1
        | some 0 => (init optionsPset false).nThreads
        | some (requested + 1) => requested + 1) ∧
    (init optionsPset false).nThreads = initThreads optionsPset := by
  rcases optionsPset with ⟨t, s⟩
  rcases s with _ | _ | r <;> simp [init, initStreams]

/-! ## Theorems: `createStateMachine` -/

/-- C3: `createStateMachine` fails exactly when one of the two strings is not
in its list of legal values, the failure is a Configuration error, and for
every legal pair the result is an initiated machine. -/
theorem createStateMachine_error_iff (fileMode_ emptyRunLumiMode_ : String) :
    ((∃ e, createStateMachine fileMode_ emptyRunLumiMode_ = .error e) ↔
      (fileMode_ ∉ legalFileModes ∨ emptyRunLumiMode_ ∉ legalEmptyRunLumiModes)) ∧
    (∀ e, createStateMachine fileMode_ emptyRunLumiMode_ = .error e →
      e.category = "Configuration") ∧
    ((fileMode_ ∈ legalFileModes ∧ emptyRunLumiMode_ ∈ legalEmptyRunLumiModes) →
      ∃ m, createStateMachine fileMode_ emptyRunLumiMode_ = .ok m ∧ m.initiated = true) := by
  have hf : fileMode_ ∈ legalFileModes ↔
      (fileMode_ = "" ∨ fileMode_ = "NOMERGE" ∨ fileMode_ = "FULLMERGE") := by
    simp [legalFileModes]
  have hm : emptyRunLumiMode_ ∈ legalEmptyRunLumiModes ↔
      (emptyRunLumiMode_ = "" ∨ emptyRunLumiMode_ = "handleEmptyRunsAndLumis" ∨
        emptyRunLumiMode_ = "handleEmptyRuns" ∨
        emptyRunLumiMode_ = "doNotHandleEmptyRunsAndLumis") := by
    simp [legalEmptyRunLumiModes]
  rw [hf, hm]
  unfold createStateMachine decodeFileMode decodeEmptyRunLumiMode
  by_cases h1 : fileMode_ = "" <;> by_cases h2 : fileMode_ = "NOMERGE" <;>
    by_cases h3 : fileMode_ = "FULLMERGE" <;>
    by_cases h4 : emptyRunLumiMode_ = "" <;>
    by_cases h5 : emptyRunLumiMode_ = "handleEmptyRunsAndLumis" <;>
    by_cases h6 : emptyRunLumiMode_ = "handleEmptyRuns" <;>
    by_cases h7 : emptyRunLumiMode_ = "doNotHandleEmptyRunsAndLumis" <;>
    simp [h1, h2, h3, h4, h5, h6, h7]

/-! ## Theorems: the parent dispatcher -/

theorem decrementAlive_sndmsg (s : SenderRun) : (decrementAlive s).sndmsg = s.sndmsg := by
  unfold decrementAlive
  rfl

theorem decrementAlive_sent (s : SenderRun) : (decrementAlive s).sent = s.sent := by
  unfold decrementAlive
  rfl

theorem clearAndClose_sndmsg (idx : Nat) (s : SenderRun) :
    (clearAndClose idx s).sndmsg = s.sndmsg := rfl

theorem clearAndClose_sent (idx : Nat) (s : SenderRun) :
    (clearAndClose idx s).sent = s.sent := rfl

theorem senderInv_of_eq {n : Nat} {s t : SenderRun} (h1 : t.sndmsg = s.sndmsg)
    (h2 : t.sent = s.sent) (h : SenderInv n s) : SenderInv n t := by
  unfold SenderInv at *
  rw [h1, h2]
  exact h

theorem errorPipeScan_inv (n : Nat) (pipes : List Nat) (idx : Nat) (s : SenderRun)
    (h : SenderInv n s) : SenderInv n (errorPipeScan pipes idx s) := by
  unfold errorPipeScan
  induction pipes generalizing s with
  | nil => exact h
  | cons pipe rest ih =>
    simp only [List.foldl_cons]
    apply ih
    split_ifs
    · exact senderInv_of_eq (decrementAlive_sndmsg s) (decrementAlive_sent s) h
    · exact h

theorem watchdogPipeScan_inv_aux (n : Nat) (pipes : List Nat) (rc : Int) (idx : Nat)
    (acc : Bool × SenderRun) (h : SenderInv n acc.2) :
    SenderInv n (pipes.foldl
      (fun acc pipe =>
        if pipe = idx then
          (true, if rc ≤ 0 then clearAndClose idx (decrementAlive acc.2) else acc.2)
        else acc) acc).2 := by
  induction pipes generalizing acc with
  | nil => exact h
  | cons pipe rest ih =>
    simp only [List.foldl_cons]
    apply ih
    split_ifs
    · exact senderInv_of_eq
        ((clearAndClose_sndmsg idx _).trans (decrementAlive_sndmsg _))
        ((clearAndClose_sent idx _).trans (decrementAlive_sent _)) h
    · exact h
    · exact h

theorem watchdogPipeScan_inv (n : Nat) (pipes : List Nat) (rc : Int) (idx : Nat)
    (s : SenderRun) (h : SenderInv n s) :
    SenderInv n (watchdogPipeScan pipes rc idx s).2 :=
  watchdogPipeScan_inv_aux n pipes rc idx (false, s) h

theorem chunkReplies_succ (n count : Nat) :
    chunkReplies n (count + 1) =
      chunkReplies n count ++ [{ startIndex := (count * n) % uint64Modulus, nIndices := n }] := by
  simp [chunkReplies, List.range_succ]

theorem serveSocket_inv (n : Nat) (r : SelectRound) (idx : Nat) (s : SenderRun)
    (h : SenderInv n s) : SenderInv n (serveSocket r idx s) := by
  unfold serveSocket
  split_ifs
  · exact senderInv_of_eq rfl rfl h
  · exact senderInv_of_eq rfl rfl h
  · obtain ⟨h1, h2⟩ := h
    refine ⟨?_, ?_⟩
    · simp only [List.length_append, List.length_singleton, h1]
      congr 1
      rw [Nat.add_mul, one_mul, Nat.mod_add_mod]
    · simp only [List.map_append, List.map_cons, List.map_nil, List.length_append,
        List.length_singleton, chunkReplies_succ, h2, h1]

theorem handleFd_inv (n : Nat) (pipes : List Nat) (r : SelectRound)
    (readSockets errorSockets : List Nat) (s : SenderRun) (idx : Nat) (h : SenderInv n s) :
    SenderInv n (handleFd pipes r readSockets errorSockets s idx) := by
  unfold handleFd
  simp only
  split_ifs
  · exact errorPipeScan_inv n pipes idx _ (senderInv_of_eq rfl rfl h)
  · exact h
  · exact serveSocket_inv n r idx _ (watchdogPipeScan_inv n pipes _ idx s h)
  · exact watchdogPipeScan_inv n pipes _ idx s h

theorem foldl_handleFd_inv (n : Nat) (pipes : List Nat) (r : SelectRound)
    (readSockets errorSockets : List Nat) (fds : List Nat) (s : SenderRun)
    (h : SenderInv n s) :
    SenderInv n (fds.foldl (handleFd pipes r readSockets errorSockets) s) := by
  induction fds generalizing s with
  | nil => exact h
  | cons idx rest ih =>
    simp only [List.foldl_cons]
    exact ih _ (handleFd_inv n pipes r readSockets errorSockets s idx h)

theorem senderRound_inv (n : Nat) (pipes : List Nat) (maxFd : Nat) (r : SelectRound)
    (s s' : SenderRun) (h : SenderInv n s) (hr : senderRound pipes maxFd r s = some s') :
    SenderInv n s' := by
  unfold senderRound at hr
  split_ifs at hr
  simp only [Option.some.injEq] at hr
  rw [← hr]
  exact foldl_handleFd_inv n pipes r _ _ _ s h

theorem senderLoop_inv (n : Nat) (pipes : List Nat) (maxFd : Nat) (rounds : List SelectRound)
    (s : SenderRun) (h : SenderInv n s) :
    SenderInv n (senderLoop pipes maxFd rounds s).state := by
  induction rounds generalizing s with
  | nil => exact h
  | cons r rest ih =>
    unfold senderLoop
    cases hr : senderRound pipes maxFd r s with
    | none => exact h
    | some s' =>
      have hs' := senderRound_inv n pipes maxFd r s s' h hr
      simp only
      split_ifs
      · exact ih s' hs'
      · exact hs'

theorem dispatcherReplies_eq_chunkReplies (childrenSockets childrenPipes : List Nat)
    (n : Nat) (rounds : List SelectRound) :
    dispatcherReplies childrenSockets childrenPipes n rounds =
      chunkReplies n (dispatcherReplies childrenSockets childrenPipes n rounds).length := by
  have h := senderLoop_inv n
    (MessageSenderToSource.construct childrenSockets childrenPipes n).m_childrenPipes
    (MessageSenderToSource.construct childrenSockets childrenPipes n).m_maxFd rounds
    { socketSet := (MessageSenderToSource.construct childrenSockets childrenPipes n).m_socketSet
      aliveChildren :=
        (MessageSenderToSource.construct childrenSockets childrenPipes n).m_aliveChildren
      sndmsg := { startIndex := 0, nIndices := n }
      closed := []
      sent := [] }
    (by simp [SenderInv, chunkReplies])
  have h2 := h.2
  unfold dispatcherReplies MessageSenderToSource.run
  simp only [List.length_map]
  exact h2

theorem chunkReplies_strictlyAdvancing (n count : Nat) (hn : 0 < n)
    (hb : count * n ≤ uint64Modulus) : StrictlyAdvancing (chunkReplies n count) := by
  unfold StrictlyAdvancing chunkReplies
  rw [List.chain'_map]
  cases count with
  | zero => simp
  | succ m =>
    rw [List.chain'_range_succ]
    intro k hk
    have h1 : (k + 1) * n ≤ m * n := Nat.mul_le_mul_right n hk
    have h2 : m * n < (m + 1) * n := by
      rw [Nat.add_mul, one_mul]
      exact Nat.lt_add_of_pos_right hn
    have h3 : (k + 1) * n < uint64Modulus := by omega
    have h4 : k * n + n = (k + 1) * n := by rw [Nat.add_mul, one_mul]
    have h5 : k * n < uint64Modulus := by omega
    simp only [Nat.mod_eq_of_lt h3, Nat.mod_eq_of_lt h5]
    omega

theorem range_five : List.range 5 = [0, 1, 2, 3, 4] := by decide

theorem senderLoop_replicate_request (m : Nat) (s : SenderRun)
    (hset : s.socketSet = [3, 4]) (halive : s.aliveChildren = 1) :
    (senderLoop [4] 5 (List.replicate m (requestRound [3])) s).state.sent.length =
      s.sent.length + m := by
  induction m generalizing s with
  | zero => simp [senderLoop, SenderOutcome.state]
  | succ m ih =>
    have hround : senderRound [4] 5 (requestRound [3]) s =
        some { s with
          sent := s.sent ++ [{ fd := 3, msg := s.sndmsg }]
          sndmsg := { s.sndmsg with
            startIndex := (s.sndmsg.startIndex + s.sndmsg.nIndices) % uint64Modulus } } := by
      simp [senderRound, requestRound, hset, range_five, handleFd, fdIsSet, watchdogPipeScan,
        serveSocket]
    have hstep : senderLoop [4] 5 (List.replicate (m + 1) (requestRound [3])) s =
        senderLoop [4] 5 (List.replicate m (requestRound [3]))
          { s with
            sent := s.sent ++ [{ fd := 3, msg := s.sndmsg }]
            sndmsg := { s.sndmsg with
              startIndex := (s.sndmsg.startIndex + s.sndmsg.nIndices) % uint64Modulus } } := by
      rw [List.replicate_succ]
      simp only [senderLoop, hround]
      rw [if_pos (by rw [halive]; exact Nat.one_pos)]
    have key : ∀ s' : SenderRun, s'.socketSet = [3, 4] → s'.aliveChildren = 1 →
        s'.sent = s.sent ++ [{ fd := 3, msg := s.sndmsg }] →
        (senderLoop [4] 5 (List.replicate m (requestRound [3])) s').state.sent.length =
          s.sent.length + (m + 1) := by
      intro s' h1 h2 h3
      rw [ih s' h1 h2, h3]
      simp only [List.length_append, List.length_singleton]
      omega
    rw [hstep]
    apply key
    · exact hset
    · exact halive
    · rfl

/-- C4 (as amended): for a chunk size of at least one, and as long as the
indices handed out fit the 64-bit field, every reply starts strictly after the
previous one, exactly the previous `nIndices` further. -/
theorem dispatcher_startIndex_advances (childrenSockets childrenPipes : List Nat) (n : Nat)
    (rounds : List SelectRound) (hn : 0 < n)
    (hb : (dispatcherReplies childrenSockets childrenPipes n rounds).length * n
      ≤ uint64Modulus) :
    StrictlyAdvancing (dispatcherReplies childrenSockets childrenPipes n rounds) := by
  rw [dispatcherReplies_eq_chunkReplies]
  exact chunkReplies_strictlyAdvancing n _ hn hb

/-- Witness for C4: two children, chunk size 2, three requests. -/
theorem dispatcher_startIndex_advances_witness :
    StrictlyAdvancing (dispatcherReplies [3, 5] [4, 6] 2
      [requestRound [3], requestRound [5, 4], requestRound [3]]) :=
  dispatcher_startIndex_advances [3, 5] [4, 6] 2
    [requestRound [3], requestRound [5, 4], requestRound [3]] (by decide) (by decide)

/-- C4 (counterexample): with `maxSequentialEventsPerChild = 0` two served
requests both get `startIndex = 0`, so the sequence is not strictly increasing. -/
theorem dispatcher_zero_chunk_not_strict :
    dispatcherReplies [3] [4] 0 [requestRound [3], requestRound [3]] = [⟨0, 0⟩, ⟨0, 0⟩] ∧
    ¬ StrictlyAdvancing (dispatcherReplies [3] [4] 0 [requestRound [3], requestRound [3]]) := by
  have h : dispatcherReplies [3] [4] 0 [requestRound [3], requestRound [3]] =
      [⟨0, 0⟩, ⟨0, 0⟩] := by decide
  refine ⟨h, ?_⟩
  rw [h]
  simp [StrictlyAdvancing]

/-- C5 (as amended): reply number `k` is `(k * n mod 2 ^ 64, n)` whichever
socket asked, hence `(k * n, n)` as long as `k * n` fits the 64-bit field. -/
theorem dispatcher_kth_reply (childrenSockets childrenPipes : List Nat) (n : Nat)
    (rounds : List SelectRound) (k : Nat)
    (hk : k < (dispatcherReplies childrenSockets childrenPipes n rounds).length) :
    (dispatcherReplies childrenSockets childrenPipes n rounds)[k]? =
      some { startIndex := (k * n) % uint64Modulus, nIndices := n } ∧
    (k * n < uint64Modulus →
      (dispatcherReplies childrenSockets childrenPipes n rounds)[k]? =
        some { startIndex := k * n, nIndices := n }) := by
  have h : (dispatcherReplies childrenSockets childrenPipes n rounds)[k]? =
      some { startIndex := (k * n) % uint64Modulus, nIndices := n } := by
    rw [dispatcherReplies_eq_chunkReplies]
    unfold chunkReplies
    rw [List.getElem?_map, List.getElem?_range hk]
    rfl
  refine ⟨h, ?_⟩
  intro hlt
  rw [h, Nat.mod_eq_of_lt hlt]

/-- Witness for C5: the scenario with chunk size 2, whose third reply is `(4, 2)`. -/
theorem dispatcher_kth_reply_witness :
    dispatcherReplies [3, 5, 7] [4, 6, 8] 2
      [requestRound [3], requestRound [5], requestRound [7]] = [⟨0, 2⟩, ⟨2, 2⟩, ⟨4, 2⟩] ∧
    (dispatcherReplies [3, 5, 7] [4, 6, 8] 2
      [requestRound [3], requestRound [5], requestRound [7]])[2]? = some ⟨4, 2⟩ :=
  ⟨by decide, (dispatcher_kth_reply [3, 5, 7] [4, 6, 8] 2
    [requestRound [3], requestRound [5], requestRound [7]] 2 (by decide)).2 (by decide)⟩

/-- C5 (counterexample): with chunk size `2 ^ 32 - 1` and `2 ^ 32 + 3` served
requests, reply number `k = 2 ^ 32 + 2` starts at `2 ^ 32 - 2`, not at `k * n`. -/
theorem dispatcher_reply_wraps :
    (dispatcherReplies [3] [4] 4294967295
      (List.replicate 4294967299 (requestRound [3])))[4294967298]? =
        some { startIndex := 4294967294, nIndices := 4294967295 } ∧
    (dispatcherReplies [3] [4] 4294967295
      (List.replicate 4294967299 (requestRound [3])))[4294967298]? ≠
        some { startIndex := 4294967298 * 4294967295, nIndices := 4294967295 } := by
  have hlen : (dispatcherReplies [3] [4] 4294967295
      (List.replicate 4294967299 (requestRound [3]))).length = 4294967299 := by
    unfold dispatcherReplies MessageSenderToSource.run
    rw [List.length_map]
    have hc : MessageSenderToSource.construct [3] [4] 4294967295 =
        { m_childrenPipes := [4], m_nEventsToProcess := 4294967295, m_socketSet := [3, 4],
          m_aliveChildren := 1, m_maxFd := 5 } := by decide
    rw [hc]
    simp only
    rw [senderLoop_replicate_request 4294967299 _ rfl rfl]
    rfl
  have h : (dispatcherReplies [3] [4] 4294967295
      (List.replicate 4294967299 (requestRound [3])))[4294967298]? =
        some { startIndex := 4294967294, nIndices := 4294967295 } := by
    rw [dispatcherReplies_eq_chunkReplies, hlen]
    unfold chunkReplies
    rw [List.getElem?_map, List.getElem?_range (by decide)]
    decide
  refine ⟨h, ?_⟩
  rw [h]
  decide

/-! ## Theorems: the `SIGCHLD` handler -/

theorem ep_sigchld_child_done (st : SignalState) (stat_loc : WaitStatus) :
    (ep_sigchld_child st stat_loc).num_children_done % uintModulus =
      (st.num_children_done + (if countsAsDone stat_loc then 1 else 0)) % uintModulus := by
  cases stat_loc with
  | exited status =>
    by_cases h : 0 = status
    · subst h
      simp [ep_sigchld_child, WIFEXITED, WIFSIGNALED, WEXITSTATUS, countsAsDone]
    · simp [ep_sigchld_child, WIFEXITED, WIFSIGNALED, WEXITSTATUS, countsAsDone, h]
  | signaled signal => simp [ep_sigchld_child, WIFEXITED, WIFSIGNALED, countsAsDone]
  | other => simp [ep_sigchld_child, WIFEXITED, WIFSIGNALED, countsAsDone]

theorem ep_sigchld_child_range (st : SignalState) (stat_loc : WaitStatus)
    (h : st.num_children_done < uintModulus) :
    (ep_sigchld_child st stat_loc).num_children_done < uintModulus := by
  have hpos : 0 < uintModulus := by decide
  cases stat_loc with
  | exited status =>
    by_cases h0 : 0 = status
    · subst h0
      simpa [ep_sigchld_child, WIFEXITED, WIFSIGNALED, WEXITSTATUS] using Nat.mod_lt _ hpos
    · simpa [ep_sigchld_child, WIFEXITED, WIFSIGNALED, WEXITSTATUS, h0] using Nat.mod_lt _ hpos
  | signaled signal =>
    simpa [ep_sigchld_child, WIFEXITED, WIFSIGNALED] using Nat.mod_lt _ hpos
  | other => simpa [ep_sigchld_child, WIFEXITED, WIFSIGNALED] using h

theorem ep_sigchld_child_failed (st : SignalState) (stat_loc : WaitStatus) :
    (ep_sigchld_child st stat_loc).child_failed =
      (st.child_failed || countsAsFailed stat_loc) := by
  cases stat_loc with
  | exited status =>
    by_cases h : 0 = status
    · subst h
      simp [ep_sigchld_child, WIFEXITED, WIFSIGNALED, WEXITSTATUS, countsAsFailed]
    · have h' : ¬ status = 0 := fun e => h e.symm
      simp [ep_sigchld_child, WIFEXITED, WIFSIGNALED, WEXITSTATUS, countsAsFailed, h, h']
  | signaled signal => simp [ep_sigchld_child, WIFEXITED, WIFSIGNALED, countsAsFailed]
  | other => simp [ep_sigchld_child, WIFEXITED, WIFSIGNALED, countsAsFailed, WEXITSTATUS]

theorem ep_sigchld_range (reaped : List WaitStatus) (st : SignalState)
    (h : st.num_children_done < uintModulus) :
    (ep_sigchld st reaped).num_children_done < uintModulus := by
  induction reaped generalizing st with
  | nil => simpa [ep_sigchld] using h
  | cons stat_loc rest ih =>
    have h1 := ih (ep_sigchld_child st stat_loc) (ep_sigchld_child_range st stat_loc h)
    unfold ep_sigchld at h1 ⊢
    rw [List.foldl_cons]
    exact h1

theorem ep_sigchld_done (reaped : List WaitStatus) (st : SignalState) :
    (ep_sigchld st reaped).num_children_done % uintModulus =
      (st.num_children_done + reaped.countP countsAsDone) % uintModulus := by
  induction reaped generalizing st with
  | nil => simp [ep_sigchld]
  | cons stat_loc rest ih =>
    have h := ih (ep_sigchld_child st stat_loc)
    unfold ep_sigchld at h ⊢
    rw [List.foldl_cons, h, Nat.add_mod, ep_sigchld_child_done, ← Nat.add_mod, List.countP_cons]
    congr 1
    omega

theorem ep_sigchld_failed (reaped : List WaitStatus) (st : SignalState) :
    (ep_sigchld st reaped).child_failed = (st.child_failed || reaped.any countsAsFailed) := by
  induction reaped generalizing st with
  | nil => simp [ep_sigchld]
  | cons stat_loc rest ih =>
    have h := ih (ep_sigchld_child st stat_loc)
    unfold ep_sigchld at h ⊢
    rw [List.foldl_cons, h, ep_sigchld_child_failed, List.any_cons, Bool.or_assoc]

/-- C20: one run of `ep_sigchld` over any batch of reaped statuses raises
`num_children_done` by exactly the number of reaped children that exited or
were killed by a signal (in the arithmetic of `unsigned int`, and literally so
whenever the sum is representable); afterwards `child_failed` is set iff it was
set before or some reaped child exited with a non-zero status or was killed by
a signal; and a child that exited with status 0 leaves `child_failed`,
`child_fail_exit_status` and `child_fail_signal` as they were. -/
theorem ep_sigchld_counts (st : SignalState) (reaped : List WaitStatus)
    (hrange : st.num_children_done < uintModulus) :
    (ep_sigchld st reaped).num_children_done =
        (st.num_children_done + reaped.countP countsAsDone) % uintModulus
      ∧ (st.num_children_done + reaped.countP countsAsDone < uintModulus →
          (ep_sigchld st reaped).num_children_done =
            st.num_children_done + reaped.countP countsAsDone)
      ∧ ((ep_sigchld st reaped).child_failed = true ↔
          (st.child_failed = true ∨ ∃ stat_loc ∈ reaped, countsAsFailed stat_loc = true))
      ∧ (ep_sigchld_child st (.exited 0)).child_failed = st.child_failed
      ∧ (ep_sigchld_child st (.exited 0)).child_fail_exit_status = st.child_fail_exit_status
      ∧ (ep_sigchld_child st (.exited 0)).child_fail_signal = st.child_fail_signal := by
  have hmod : (ep_sigchld st reaped).num_children_done =
      (st.num_children_done + reaped.countP countsAsDone) % uintModulus := by
    rw [← ep_sigchld_done, Nat.mod_eq_of_lt (ep_sigchld_range reaped st hrange)]
  refine ⟨hmod, ?_, ?_, rfl, rfl, rfl⟩
  · intro hlt
    rw [hmod, Nat.mod_eq_of_lt hlt]
  · rw [ep_sigchld_failed]
    simp

theorem ep_sigchld_counts_witness :
    (ep_sigchld SignalState.initial [.exited 0, .signaled 11, .other, .exited 3]).num_children_done
        = (SignalState.initial.num_children_done
            + [WaitStatus.exited 0, .signaled 11, .other, .exited 3].countP countsAsDone)
              % uintModulus
      ∧ (SignalState.initial.num_children_done
            + [WaitStatus.exited 0, .signaled 11, .other, .exited 3].countP countsAsDone
              < uintModulus →
          (ep_sigchld SignalState.initial
              [.exited 0, .signaled 11, .other, .exited 3]).num_children_done =
            SignalState.initial.num_children_done
              + [WaitStatus.exited 0, .signaled 11, .other, .exited 3].countP countsAsDone)
      ∧ ((ep_sigchld SignalState.initial
              [.exited 0, .signaled 11, .other, .exited 3]).child_failed = true ↔
          (SignalState.initial.child_failed = true
            ∨ ∃ stat_loc ∈ [WaitStatus.exited 0, .signaled 11, .other, .exited 3],
                countsAsFailed stat_loc = true))
      ∧ (ep_sigchld_child SignalState.initial (.exited 0)).child_failed
          = SignalState.initial.child_failed
      ∧ (ep_sigchld_child SignalState.initial (.exited 0)).child_fail_exit_status
          = SignalState.initial.child_fail_exit_status
      ∧ (ep_sigchld_child SignalState.initial (.exited 0)).child_fail_signal
          = SignalState.initial.child_fail_signal :=
  ep_sigchld_counts SignalState.initial [.exited 0, .signaled 11, .other, .exited 3]
    (by decide)

/-! ## Theorems: `numberOfDigitsInChildIndex` -/

theorem digitLoop_eq (fuel : Nat) :
    ∀ numberOfChildren n, numberOfChildren ≤ fuel →
      digitLoop fuel numberOfChildren n = n + (Nat.digits 10 numberOfChildren).length := by
  induction fuel with
  | zero =>
    intro m n h
    have : m = 0 := by omega
    subst this
    simp [digitLoop]
  | succ fuel ih =>
    intro m n h
    by_cases hm : m = 0
    · subst hm
      simp [digitLoop]
    · have hpos : 0 < m := Nat.pos_of_ne_zero hm
      have hlt : m / 10 ≤ fuel := by omega
      rw [digitLoop, if_pos hm, ih _ _ hlt, Nat.digits_def' (by decide) hpos, List.length_cons]
      omega

theorem numberOfDigitsInChildIndex_eq (numberOfChildren : Nat) (h : 1 ≤ numberOfChildren) :
    numberOfDigitsInChildIndex numberOfChildren = (Nat.digits 10 numberOfChildren).length := by
  have hpos : 0 < (Nat.digits 10 numberOfChildren).length := by
    rw [List.length_pos]
    exact Nat.digits_ne_nil_iff_ne_zero.mpr (by omega)
  unfold numberOfDigitsInChildIndex
  rw [digitLoop_eq _ _ _ (le_refl _)]
  simp only [Nat.zero_add]
  rw [if_neg (by omega)]

/-- C16, as the code has it: for every number of children `N >= 1` the width
`forkProcess` asks for is the number of decimal digits of `N` itself (not of
`N - 1`), and every child index below `N` is written with exactly that many
characters. -/
theorem numberOfDigitsInChildIndex_is_width_of_N (kMaxChildren childIndex : Nat)
    (hN : 1 ≤ kMaxChildren) (hidx : childIndex < kMaxChildren) :
    numberOfDigitsInChildIndex kMaxChildren = decimalWidth kMaxChildren
      ∧ (zeroPadded (numberOfDigitsInChildIndex kMaxChildren) childIndex).length
          = decimalWidth kMaxChildren := by
  have hw : decimalWidth kMaxChildren = (Nat.digits 10 kMaxChildren).length := by
    unfold decimalWidth
    rw [if_neg (by omega)]
  have hpos : 0 < (Nat.digits 10 kMaxChildren).length := by
    rw [List.length_pos]
    exact Nat.digits_ne_nil_iff_ne_zero.mpr (by omega)
  have hlen : (Nat.toDigits 10 childIndex).length ≤ (Nat.digits 10 kMaxChildren).length :=
    Nat.toDigitsCore_length 10 (by decide) (childIndex + 1) childIndex _
      (lt_trans hidx (Nat.lt_base_pow_length_digits (by decide))) hpos
  rw [numberOfDigitsInChildIndex_eq _ hN, hw]
  refine ⟨rfl, ?_⟩
  unfold zeroPadded
  simp only [String.length, List.length_append, List.length_replicate]
  omega

theorem numberOfDigitsInChildIndex_is_width_of_N_witness :
    numberOfDigitsInChildIndex 10 = decimalWidth 10
      ∧ (zeroPadded (numberOfDigitsInChildIndex 10) 7).length = decimalWidth 10 :=
  numberOfDigitsInChildIndex_is_width_of_N 10 7 (by decide) (by decide)

/-- C16, counterexample: with ten children the largest child index is 9, one
decimal digit wide, but the width used is 2: child 7 logs to
`redirectout_4711_07.log`. -/
theorem numberOfDigitsInChildIndex_ten_children :
    numberOfDigitsInChildIndex 10 = 2 ∧ decimalWidth (10 - 1) = 1
      ∧ redirectName 4711 10 7 = "redirectout_4711_07.log" := by
  refine ⟨by decide, ?_, by decide⟩
  unfold decimalWidth
  simp

/-! ## Theorems: the prefetch exclusion list -/

/-- C17, failing input: record `R` is listed twice, once with the wildcard
(type left out) and once with the type `(anonymous namespace)::Payload`.  The
set for `R` then begins with the latter entry, the test of `begin()` against
`"*"` fails, and the data item `Geometry` of `R` is prefetched although a
wildcard entry for `R` is on the list; the order of the two entries in the
configuration makes no difference. -/
theorem prefetch_wildcard_not_first :
    excludedFromEntries
        [{ record := "R", type := none, label := none },
         { record := "R", type := some "(anonymous namespace)::Payload", label := none }]
      = [("R", [("(anonymous namespace)::Payload", ""), ("*", "")])]
    ∧ excludedFromEntries
        [{ record := "R", type := some "(anonymous namespace)::Payload", label := none },
         { record := "R", type := none, label := none }]
      = [("R", [("(anonymous namespace)::Payload", ""), ("*", "")])]
    ∧ prefetch
        (excludedFromEntries
          [{ record := "R", type := none, label := none },
           { record := "R", type := some "(anonymous namespace)::Payload", label := none }])
        [{ name := "R", found := true, dataKeys := [{ type := "Geometry", name := "" }] }]
      = [{ record := "R", dataKey := { type := "Geometry", name := "" } }] := by
  refine ⟨by decide, by decide, by decide⟩

/-! ## Theorems: `forkProcess` -/

theorem forkTail_ne_true (cont too_many_fds : Bool) (st : SignalState) :
    forkTail cont too_many_fds st ≠ .returned true := by
  unfold forkTail
  split
  · split
    · simp
    · split <;> simp
  · split <;> simp

theorem joinSender_ne_true (cont : Bool) (sender : SenderOutcome) (too_many_fds : Bool)
    (st : SignalState) (trace : List ForkAction) :
    (joinSender sender too_many_fds st trace).1.finish cont ≠ .returned true := by
  cases sender <;> simp [joinSender, ForkStage.finish, forkTail_ne_true]

theorem parentStage_ne_true (cfg : ForkConfig) (env : ForkEnv) (kMaxChildren : Nat)
    (s : ForkLoopState) :
    (parentStage cfg env kMaxChildren s).1.finish cfg.continueAfterChildFailure_
      ≠ .returned true := by
  unfold parentStage
  simp only []
  split
  · simp [ForkStage.finish]
  · split
    · simp [ForkStage.finish]
    · split
      · split
        · simp [ForkStage.finish]
        · exact joinSender_ne_true _ _ _ _ _
      · exact joinSender_ne_true _ _ _ _ _

theorem forkLoop_child_inv (cfg : ForkConfig) (env : ForkEnv) (remaining : Nat) :
    ∀ (c : Nat) (s : ForkLoopState) (i : Nat) (s' : ForkLoopState),
      forkLoop cfg env remaining c s = .child i s' →
        c ≤ i ∧ i < c + remaining
          ∧ (∀ j, c ≤ j → j < i →
              (env.attempts j).created = true ∧ 0 < (env.attempts j).forkValue)
          ∧ (env.attempts i).created = true ∧ (env.attempts i).forkValue = 0
          ∧ affinityFails cfg env i = false := by
  induction remaining with
  | zero =>
    intro c s i s' h
    simp [forkLoop] at h
  | succ remaining ih =>
    intro c s i s' h
    unfold forkLoop at h
    simp only [] at h
    by_cases h1 : (env.attempts c).socketpairRc ≠ 0
    · rw [if_pos h1] at h
      simp at h
    rw [if_neg h1] at h
    by_cases h2 : (env.attempts c).pipeRc ≠ 0
    · rw [if_pos h2] at h
      simp at h
    rw [if_neg h2] at h
    by_cases h3 : ((env.attempts c).fcntlRc.take 6).any (fun rc => rc == -1) = true
    · rw [if_pos h3] at h
      simp at h
    rw [if_neg h3] at h
    have hcreated : (env.attempts c).created = true := by
      unfold ForkAttempt.created
      simp only [ne_eq, not_not] at h1 h2
      simp only [Bool.not_eq_true] at h3
      rw [h1, h2, h3]
      rfl
    by_cases h4 : (env.attempts c).forkValue = 0
    · rw [if_pos h4] at h
      by_cases h5 : affinityFails cfg env c = true
      · rw [if_pos h5] at h
        simp at h
      · rw [if_neg h5] at h
        injection h with hi hs
        subst hi
        refine ⟨le_refl _, by omega, ?_, hcreated, h4, by simpa using h5⟩
        intro j hj hj'
        omega
    · rw [if_neg h4] at h
      by_cases h6 : (env.attempts c).forkValue < 0
      · rw [if_pos h6] at h
        simp at h
      · rw [if_neg h6] at h
        obtain ⟨hle, hlt, hall, hrest⟩ := ih _ _ _ _ h
        refine ⟨by omega, by omega, ?_, hrest⟩
        intro j hj hj'
        by_cases hjc : j = c
        · subst hjc
          exact ⟨hcreated, by omega⟩
        · exact hall j (by omega) hj'

theorem forkLoop_reaches_child (cfg : ForkConfig) (env : ForkEnv) (k : Nat) :
    ∀ (remaining c : Nat) (s : ForkLoopState), k < remaining →
      (∀ j, c ≤ j → j < c + k →
        (env.attempts j).created = true ∧ 0 < (env.attempts j).forkValue) →
      (env.attempts (c + k)).created = true → (env.attempts (c + k)).forkValue = 0 →
      ∃ s', forkLoop cfg env remaining c s =
        if affinityFails cfg env (c + k) then .exited (-1) s' else .child (c + k) s' := by
  induction k with
  | zero =>
    intro remaining c s hk _ hcreated hvalue
    obtain ⟨r, rfl⟩ : ∃ r, remaining = r + 1 := ⟨remaining - 1, by omega⟩
    unfold ForkAttempt.created at hcreated
    simp only [Bool.and_eq_true, beq_iff_eq, Bool.not_eq_true'] at hcreated
    obtain ⟨⟨h1, h2⟩, h3⟩ := hcreated
    simp only [Nat.add_zero] at h1 h2 h3 hvalue ⊢
    unfold forkLoop
    simp only [ne_eq, h1, h2, h3, hvalue, not_true_eq_false, if_false, if_true,
      Bool.false_eq_true]
    exact ⟨_, rfl⟩
  | succ k ih =>
    intro remaining c s hk hall hcreated hvalue
    obtain ⟨r, rfl⟩ : ∃ r, remaining = r + 1 := ⟨remaining - 1, by omega⟩
    obtain ⟨hc, hpos⟩ := hall c (le_refl _) (by omega)
    unfold ForkAttempt.created at hc
    simp only [Bool.and_eq_true, beq_iff_eq, Bool.not_eq_true'] at hc
    obtain ⟨⟨h1, h2⟩, h3⟩ := hc
    have h4 : ¬ (env.attempts c).forkValue = 0 := by omega
    have h5 : ¬ (env.attempts c).forkValue < 0 := by omega
    have hidx : c + (k + 1) = (c + 1) + k := by omega
    rw [hidx] at hcreated hvalue ⊢
    unfold forkLoop
    simp only [ne_eq, h1, h2, h3, h4, h5, not_true_eq_false, if_false, Bool.false_eq_true]
    exact ih r (c + 1) _ (by omega) (fun j hj hj' => hall j (by omega) (by omega))
      hcreated hvalue

/-- C6, as the code has it: with `maxChildProcesses` 0 the call returns true
at once, having made no call at all (no `beginJob`, nothing on the source, no
`fork`); in a forked child it returns true unless the child's
`sched_setaffinity` call fails, in which case the child leaves through
`exit(-1)`; and in a process that is not a forked child (the parent) it does
not return true when `maxChildProcesses` is not 0. -/
theorem forkProcess_returns_true (cfg : ForkConfig) (env : ForkEnv) :
    (cfg.numberOfForkedChildren_ = 0 → forkProcess cfg env = (.returned true, []))
      ∧ (∀ childIndex, ForkedChildAt cfg env childIndex →
          (forkProcess cfg env).1 =
            if affinityFails cfg env childIndex then .exited (-1) else .returned true)
      ∧ (cfg.numberOfForkedChildren_ ≠ 0 → (∀ childIndex, ¬ ForkedChildAt cfg env childIndex) →
          (forkProcess cfg env).1 ≠ .returned true) := by
  refine ⟨?_, ?_, ?_⟩
  · intro h0
    simp [forkProcess, forkProcessStage, h0, ForkStage.finish]
  · intro childIndex hchild
    obtain ⟨hpos, hbegin, hfirst, hsecond, hidx, hall, hcreated, hvalue⟩ := hchild
    have hne : ¬ cfg.numberOfForkedChildren_ = 0 := by omega
    obtain ⟨s', hs'⟩ := forkLoop_reaches_child cfg env childIndex
      cfg.numberOfForkedChildren_.toNat 0 (forkLoopStart cfg env) hidx
      (fun j _ hj => hall j (by omega)) (by simpa using hcreated) (by simpa using hvalue)
    simp only [Nat.zero_add] at hs'
    unfold forkProcess forkProcessStage
    simp only [hne, hpos, hbegin, hfirst, hsecond, if_false, not_true_eq_false, ne_eq, hs']
    by_cases haff : affinityFails cfg env childIndex = true
    · simp [haff, ForkStage.finish]
    · simp [haff, ForkStage.finish]
  · intro hne hnochild
    unfold forkProcess forkProcessStage
    rw [if_neg hne]
    by_cases hpos : 0 < cfg.numberOfForkedChildren_
    · rw [if_neg (not_not.mpr hpos)]
      cases hbegin : env.beginJob with
      | some e => simp [ForkStage.finish]
      | none =>
        simp only []
        by_cases hfirst : env.firstItemType ≠ .IsFile
        · rw [if_pos hfirst]
          simp [ForkStage.finish]
        rw [if_neg hfirst]
        by_cases hsecond : env.secondItemType ≠ .IsRun
        · rw [if_pos hsecond]
          simp [ForkStage.finish]
        rw [if_neg hsecond]
        cases hloop : forkLoop cfg env cfg.numberOfForkedChildren_.toNat 0
            (forkLoopStart cfg env) with
        | exited status s => simp [ForkStage.finish]
        | child i s' =>
          exfalso
          obtain ⟨_, hlt, hall, hcreated, hvalue, _⟩ := forkLoop_child_inv cfg env _ _ _ _ _ hloop
          exact hnochild i ⟨hpos, hbegin, not_not.mp hfirst, not_not.mp hsecond, by omega,
            fun j hj => hall j (Nat.zero_le _) hj, hcreated, hvalue⟩
        | parent s =>
          exact parentStage_ne_true cfg env _ s
    · rw [if_pos hpos]
      simp [ForkStage.finish]

theorem forkProcess_returns_true_witness :
    (forkProcess (sampleForkConfig true false) (sampleChildEnv 0)).1 =
      if affinityFails (sampleForkConfig true false) (sampleChildEnv 0) 0 then .exited (-1)
      else .returned true :=
  (forkProcess_returns_true (sampleForkConfig true false) (sampleChildEnv 0)).2.1 0
    ⟨by decide, rfl, rfl, rfl, by decide, fun j hj => absurd hj (Nat.not_lt_zero j),
      by decide, by decide⟩

/-- C6, counterexample: two children are asked for with `setCpuAffinity` on;
in child 0 (its `fork` returned 0) `sched_setaffinity` returns -1, and the
child leaves `forkProcess` through `exit(-1)` instead of returning true. -/
theorem forkProcess_child_exits :
    ((sampleChildEnv (-1)).attempts 0).forkValue = 0
      ∧ (forkProcess (sampleForkConfig true false) (sampleChildEnv (-1))).1 = .exited (-1) := by
  decide

theorem forkProcess_of_joined (cfg : ForkConfig) (env : ForkEnv) (too_many_fds : Bool)
    (st : SignalState) (hjoin : (forkProcessStage cfg env).1 = .joined too_many_fds st) :
    (forkProcess cfg env).1 = forkTail cfg.continueAfterChildFailure_ too_many_fds st := by
  unfold forkProcess
  simp only [hjoin, ForkStage.finish]

theorem forkTail_child_failed (cont too_many_fds : Bool) (st : SignalState)
    (hfailed : st.child_failed = true) (hcont : cont = false) :
    forkTail cont too_many_fds st =
      .raised { category := "ForkedChildFailed"
                message :=
                  if st.child_fail_signal ≠ 0 then
                    "child process ended abnormally with signal "
                      ++ toString st.child_fail_signal
                  else if st.child_fail_exit_status ≠ 0 then
                    "child process ended abnormally with exit code "
                      ++ toString st.child_fail_exit_status
                  else "child process ended abnormally for unknown reason" } := by
  unfold forkTail
  rw [hfailed, hcont]
  simp only [Bool.not_false, Bool.and_self, if_true]
  by_cases hs : st.child_fail_signal ≠ 0
  · rw [if_pos hs, if_pos hs]
  · rw [if_neg hs, if_neg hs]
    by_cases he : st.child_fail_exit_status ≠ 0
    · rw [if_pos he, if_pos he]
    · rw [if_neg he, if_neg he]

theorem forkTail_otherwise (cont too_many_fds : Bool) (st : SignalState)
    (h : ¬ (st.child_failed = true ∧ cont = false)) :
    forkTail cont too_many_fds st =
      if too_many_fds then
        .raised { category := "ForkedParentFailed"
                  message := "hit select limit for number of fds" }
      else .returned false := by
  unfold forkTail
  have hc : (st.child_failed && !cont) = false := by
    cases hf : st.child_failed <;> cases hk : cont <;> simp_all
  rw [hc]
  simp

/-- C7: when the parent gets as far as joining the dispatcher thread, with the
signal state `st` at that point, `forkProcess` raises `ForkedChildFailed` if
and only if `child_failed` is set in `st` and `continueAfterChildFailure` is
false; the message then names the signal number when `child_fail_signal` is
non-zero, otherwise the exit code when `child_fail_exit_status` is non-zero,
and otherwise says that the reason is unknown. -/
theorem forkProcess_child_failed (cfg : ForkConfig) (env : ForkEnv) (too_many_fds : Bool)
    (st : SignalState) (hjoin : (forkProcessStage cfg env).1 = .joined too_many_fds st) :
    ((∃ message, (forkProcess cfg env).1 =
          .raised { category := "ForkedChildFailed", message := message }) ↔
        (st.child_failed = true ∧ cfg.continueAfterChildFailure_ = false))
      ∧ (st.child_failed = true → cfg.continueAfterChildFailure_ = false →
          (forkProcess cfg env).1 =
            .raised { category := "ForkedChildFailed"
                      message :=
                        if st.child_fail_signal ≠ 0 then
                          "child process ended abnormally with signal "
                            ++ toString st.child_fail_signal
                        else if st.child_fail_exit_status ≠ 0 then
                          "child process ended abnormally with exit code "
                            ++ toString st.child_fail_exit_status
                        else "child process ended abnormally for unknown reason" }) := by
  rw [forkProcess_of_joined cfg env too_many_fds st hjoin]
  refine ⟨⟨?_, ?_⟩, ?_⟩
  · rintro ⟨message, hmsg⟩
    by_contra hnot
    rw [forkTail_otherwise _ _ _ hnot] at hmsg
    cases too_many_fds
    · simp at hmsg
    · simp only [if_true, Outcome.raised.injEq, Exception.mk.injEq] at hmsg
      exact absurd hmsg.1 (by decide)
  · rintro ⟨hfailed, hcont⟩
    exact ⟨_, forkTail_child_failed _ _ _ hfailed hcont⟩
  · intro hfailed hcont
    exact forkTail_child_failed _ _ _ hfailed hcont

theorem forkProcess_child_failed_witness :
    ((∃ message, (forkProcess (sampleForkConfig false false)
          (sampleParentEnv 7 [⟨[.signaled 11], false⟩] [⟨[.exited 0], false⟩])).1 =
          .raised { category := "ForkedChildFailed", message := message }) ↔
        ((SignalState.mk true 2 0 11 false).child_failed = true
          ∧ (sampleForkConfig false false).continueAfterChildFailure_ = false))
      ∧ ((SignalState.mk true 2 0 11 false).child_failed = true →
          (sampleForkConfig false false).continueAfterChildFailure_ = false →
          (forkProcess (sampleForkConfig false false)
              (sampleParentEnv 7 [⟨[.signaled 11], false⟩] [⟨[.exited 0], false⟩])).1 =
            .raised { category := "ForkedChildFailed"
                      message :=
                        if (SignalState.mk true 2 0 11 false).child_fail_signal ≠ 0 then
                          "child process ended abnormally with signal "
                            ++ toString (SignalState.mk true 2 0 11 false).child_fail_signal
                        else if (SignalState.mk true 2 0 11 false).child_fail_exit_status ≠ 0 then
                          "child process ended abnormally with exit code "
                            ++ toString (SignalState.mk true 2 0 11 false).child_fail_exit_status
                        else "child process ended abnormally for unknown reason" }) :=
  forkProcess_child_failed (sampleForkConfig false false)
    (sampleParentEnv 7 [⟨[.signaled 11], false⟩] [⟨[.exited 0], false⟩]) false
    (SignalState.mk true 2 0 11 false) (by decide)

/-- C8, as the code has it: when the parent found the descriptor limit
exceeded and gets as far as joining the dispatcher thread, with the signal
state `st` at that point, `forkProcess` raises `ForkedChildFailed` if
`child_failed` is set in `st` and `continueAfterChildFailure` is false, and
`ForkedParentFailed` in every other case; it does not return. -/
theorem forkProcess_too_many_fds (cfg : ForkConfig) (env : ForkEnv) (st : SignalState)
    (hjoin : (forkProcessStage cfg env).1 = .joined true st) :
    (st.child_failed = true → cfg.continueAfterChildFailure_ = false →
        ∃ message, (forkProcess cfg env).1 =
          .raised { category := "ForkedChildFailed", message := message })
      ∧ (¬ (st.child_failed = true ∧ cfg.continueAfterChildFailure_ = false) →
          (forkProcess cfg env).1 =
            .raised { category := "ForkedParentFailed"
                      message := "hit select limit for number of fds" })
      ∧ (∀ result, (forkProcess cfg env).1 ≠ .returned result) := by
  rw [forkProcess_of_joined cfg env true st hjoin]
  refine ⟨?_, ?_, ?_⟩
  · intro hfailed hcont
    exact ⟨_, forkTail_child_failed _ _ _ hfailed hcont⟩
  · intro hnot
    rw [forkTail_otherwise _ _ _ hnot]
    rfl
  · intro result
    by_cases h : st.child_failed = true ∧ cfg.continueAfterChildFailure_ = false
    · rw [forkTail_child_failed _ _ _ h.1 h.2]
      simp
    · rw [forkTail_otherwise _ _ _ h]
      simp

theorem forkProcess_too_many_fds_witness :
    ((SignalState.mk false 2 0 0 false).child_failed = true →
        (sampleForkConfig false false).continueAfterChildFailure_ = false →
        ∃ message, (forkProcess (sampleForkConfig false false)
          (sampleParentEnv 1024 [] [⟨[.exited 0], false⟩, ⟨[.exited 0], false⟩])).1 =
          .raised { category := "ForkedChildFailed", message := message })
      ∧ (¬ ((SignalState.mk false 2 0 0 false).child_failed = true
            ∧ (sampleForkConfig false false).continueAfterChildFailure_ = false) →
          (forkProcess (sampleForkConfig false false)
            (sampleParentEnv 1024 [] [⟨[.exited 0], false⟩, ⟨[.exited 0], false⟩])).1 =
            .raised { category := "ForkedParentFailed"
                      message := "hit select limit for number of fds" })
      ∧ (∀ result, (forkProcess (sampleForkConfig false false)
            (sampleParentEnv 1024 [] [⟨[.exited 0], false⟩, ⟨[.exited 0], false⟩])).1
              ≠ .returned result) :=
  forkProcess_too_many_fds (sampleForkConfig false false)
    (sampleParentEnv 1024 [] [⟨[.exited 0], false⟩, ⟨[.exited 0], false⟩])
    (SignalState.mk false 2 0 0 false) (by decide)

/-- C8, counterexample: the last pipe end is descriptor 1024 with
`FD_SETSIZE` 1024, so `too_many_fds` is set; the children are told to stop,
one of them is reaped as killed by signal 11 and the other as exited with
status 0; with `continueAfterChildFailure` false the call raises
`ForkedChildFailed`, not `ForkedParentFailed`. -/
theorem forkProcess_too_many_fds_child_failed :
    (forkProcessStage (sampleForkConfig false false)
        (sampleParentEnv 1024 [] [⟨[.signaled 11], false⟩, ⟨[.exited 0], false⟩])).1
        = .joined true (SignalState.mk true 2 0 11 false)
      ∧ (forkProcess (sampleForkConfig false false)
          (sampleParentEnv 1024 [] [⟨[.signaled 11], false⟩, ⟨[.exited 0], false⟩])).1
        = .raised { category := "ForkedChildFailed"
                    message := "child process ended abnormally with signal 11" } := by
  decide

/-! ## Theorems: `readNextEventForStream` -/

theorem storeDeferred_calls (e : Exception) (st : ProcessorState) :
    (storeDeferred e st).calls = st.calls := by
  unfold storeDeferred
  split <;> rfl

theorem storeDeferred_firstEventInBlock (e : Exception) (st : ProcessorState) :
    (storeDeferred e st).firstEventInBlock_ = st.firstEventInBlock_ := by
  unfold storeDeferred
  split <;> rfl

theorem storeDeferred_errorState (e : Exception) (st : ProcessorState) :
    (storeDeferred e st).stateMachineWasInErrorState_ = st.stateMachineWasInErrorState_ := by
  unfold storeDeferred
  split <;> rfl

theorem storeDeferred_flag (e : Exception) (st : ProcessorState) :
    (storeDeferred e st).deferredExceptionPtrIsSet_ = true := by
  unfold storeDeferred
  split
  · rfl
  · rename_i h
    simpa using h

theorem storeDeferred_attempts (e : Exception) (st : ProcessorState) :
    (storeDeferred e st).attempts = st.attempts ++ [e] := by
  unfold storeDeferred
  split <;> rfl

theorem storeDeferred_ptr_of_set (e : Exception) (st : ProcessorState)
    (h : st.deferredExceptionPtrIsSet_ = true) :
    (storeDeferred e st).deferredExceptionPtr_ = st.deferredExceptionPtr_ := by
  unfold storeDeferred
  rw [if_neg (by simp [h])]

theorem storeDeferred_ptr_of_unset (e : Exception) (st : ProcessorState)
    (h : st.deferredExceptionPtrIsSet_ = false) :
    (storeDeferred e st).deferredExceptionPtr_ = some e := by
  unfold storeDeferred
  rw [if_pos h]

/-- C18, as the code has it: `readNextEventForStream` returns false and reads
no event whenever a global stop is requested, the deferred-exception flag is
set or the finished flag is set; and, in a call that is not the first of its
block (`firstEventInBlock_` false), whenever the source's next item is not an
Event or the shutdown flag is set. -/
theorem readNextEventForStream_returns_false (a : ReadAnswers) (iStreamIndex : Nat)
    (finishedProcessingEvents : Bool) (st : ProcessorState)
    (h : shouldWeStop st.shouldWeStop_ a.terminate = true
      ∨ st.deferredExceptionPtrIsSet_ = true
      ∨ finishedProcessingEvents = true
      ∨ (st.firstEventInBlock_ = false
          ∧ (a.itemType ≠ .IsEvent ∨ st.shutdown_flag = true))) :
    (readNextEventForStream a iStreamIndex finishedProcessingEvents st).1 = false
      ∧ ∀ j, (readNextEventForStream a iStreamIndex finishedProcessingEvents st).2.2.calls.count
              (.readEvent j) = st.calls.count (.readEvent j) := by
  unfold readNextEventForStream
  by_cases h1 : shouldWeStop st.shouldWeStop_ a.terminate = true
  · simp [h1]
  by_cases h2 : st.deferredExceptionPtrIsSet_ = true
  · simp [h1, h2]
  by_cases h3 : finishedProcessingEvents = true
  · simp [h1, h2, h3]
  rcases h with h | h | h | ⟨hfirst, h⟩
  · exact absurd h h1
  · exact absurd h h2
  · exact absurd h h3
  simp only [h1, h2, h3, hfirst, if_false, Bool.not_false, if_true, Bool.false_eq_true]
  cases hthrow : a.nextItemTypeThrows with
  | some e =>
    simp [storeDeferred_calls, List.count_append]
  | none =>
    by_cases hitem : a.itemType = .IsEvent
    · have hflag : st.shutdown_flag = true := by
        rcases h with h | h
        · exact absurd hitem h
        · exact h
      simp [hitem, checkForAsyncStopRequest, hflag, List.count_append]
    · simp [hitem, List.count_append]

theorem readNextEventForStream_returns_false_witness :
    (readNextEventForStream (ReadAnswers.next .IsEvent) 0 false
        { ProcessorState.initial with shutdown_flag := true }).1 = false
      ∧ ∀ j, (readNextEventForStream (ReadAnswers.next .IsEvent) 0 false
              { ProcessorState.initial with shutdown_flag := true }).2.2.calls.count
              (.readEvent j)
            = ({ ProcessorState.initial with shutdown_flag := true } : ProcessorState).calls.count
                (.readEvent j) :=
  readNextEventForStream_returns_false (ReadAnswers.next .IsEvent) 0 false
    { ProcessorState.initial with shutdown_flag := true }
    (Or.inr (Or.inr (Or.inr ⟨rfl, Or.inr rfl⟩)))

/-- C18, counterexample: the shutdown flag is set (the signal came after the
main loop classified the event) and the call is the first of its block
(`firstEventInBlock_` true): neither the item type nor the shutdown flag is
looked at, the event of stream 0 is read, and the call returns true. -/
theorem readNextEventForStream_first_call_ignores_shutdown :
    readNextEventForStream (ReadAnswers.next .IsEvent) 0 false
        { ProcessorState.initial with shutdown_flag := true, firstEventInBlock_ := true }
      = (true, false,
          { ProcessorState.initial with shutdown_flag := true, firstEventInBlock_ := false
                                        calls := [.readEvent 0] }) := by
  decide

/-- The record of calls only grows in `readNextEventForStream`, a first call
adds nothing or exactly its `readEvent`, and `firstEventInBlock_` is not set. -/
theorem readNextEventForStream_calls (a : ReadAnswers) (i : Nat) (fin : Bool)
    (st : ProcessorState) :
    ∃ added, (readNextEventForStream a i fin st).2.2.calls = st.calls ++ added
      ∧ (st.firstEventInBlock_ = true →
          (added = [] ∧ (readNextEventForStream a i fin st).2.2.firstEventInBlock_ = true)
            ∨ (added = [.readEvent i]
                ∧ (readNextEventForStream a i fin st).2.2.firstEventInBlock_ = false))
      ∧ (st.firstEventInBlock_ = false →
          (readNextEventForStream a i fin st).2.2.firstEventInBlock_ = false) := by
  unfold readNextEventForStream
  by_cases h1 : shouldWeStop st.shouldWeStop_ a.terminate = true
  · refine ⟨[], ?_, ?_, ?_⟩ <;> simp [h1]
  by_cases h2 : st.deferredExceptionPtrIsSet_ = true
  · refine ⟨[], ?_, ?_, ?_⟩ <;> simp [h1, h2]
  by_cases h3 : fin = true
  · refine ⟨[], ?_, ?_, ?_⟩ <;> simp [h1, h2, h3]
  simp only [h1, h2, h3, if_false, Bool.false_eq_true]
  cases hfirst : st.firstEventInBlock_ with
  | true =>
    simp only [Bool.not_true, Bool.false_eq_true, if_false]
    refine ⟨[.readEvent i], ?_, ?_, ?_⟩
    · unfold readEventInTry
      cases a.readEventThrows <;> simp [storeDeferred_calls]
    · intro _
      right
      refine ⟨rfl, ?_⟩
      unfold readEventInTry
      cases a.readEventThrows <;> simp [storeDeferred_firstEventInBlock]
    · intro h
      exact absurd h (by simp)
  | false =>
    simp only [Bool.not_false, if_true]
    cases hthrow : a.nextItemTypeThrows with
    | some e =>
      refine ⟨[.nextItemType], ?_, ?_, ?_⟩
      · simp [storeDeferred_calls]
      · intro h
        exact absurd h (by simp)
      · intro _
        simp [storeDeferred_firstEventInBlock, hfirst]
    | none =>
      by_cases hitem : a.itemType = .IsEvent
      · cases hflag : st.shutdown_flag with
        | true =>
          refine ⟨[.nextItemType, .preSourceEarlyTerminationSignal], ?_, ?_, ?_⟩
          · simp [hitem, checkForAsyncStopRequest, hflag]
          · intro h
            exact absurd h (by simp)
          · intro _
            simp [hitem, checkForAsyncStopRequest, hflag, hfirst]
        | false =>
          refine ⟨[.nextItemType, .readEvent i], ?_, ?_, ?_⟩
          · simp only [hitem, checkForAsyncStopRequest, hflag, ne_eq, not_true_eq_false,
              if_false, Bool.false_eq_true]
            unfold readEventInTry
            cases a.readEventThrows <;> simp [storeDeferred_calls]
          · intro h
            exact absurd h (by simp)
          · intro _
            simp only [hitem, checkForAsyncStopRequest, hflag, ne_eq, not_true_eq_false,
              if_false, Bool.false_eq_true]
            unfold readEventInTry
            cases a.readEventThrows <;> simp [storeDeferred_firstEventInBlock, hfirst]
      · refine ⟨[.nextItemType], ?_, ?_, ?_⟩
        · simp [hitem]
        · intro h
          exact absurd h (by simp)
        · intro _
          simp [hitem, hfirst]

theorem readNextEventForStream_firstCallInv (a : ReadAnswers) (i : Nat) (fin : Bool)
    (st : ProcessorState) (h : FirstCallInv st) :
    FirstCallInv (readNextEventForStream a i fin st).2.2 := by
  obtain ⟨added, hcalls, hfirst, hlater⟩ := readNextEventForStream_calls a i fin st
  rcases h with ⟨hf, hc⟩ | ⟨hf, j, rest, hc⟩
  · rcases hfirst hf with ⟨hadd, hflag⟩ | ⟨hadd, hflag⟩
    · left
      exact ⟨hflag, by rw [hcalls, hc, hadd]; rfl⟩
    · right
      exact ⟨hflag, i, [], by rw [hcalls, hc, hadd]; rfl⟩
  · right
    exact ⟨hlater hf, j, rest ++ added, by rw [hcalls, hc]; rfl⟩

/-- A property of the members that every piece of a block step preserves is
preserved by the step. -/
theorem blockStep_proc_inv (P : ProcessorState → Prop)
    (hsignal : ∀ st, P st → P { st with shutdown_flag := true })
    (hread : ∀ a i fin st, P st → P (readNextEventForStream a i fin st).2.2)
    (hstop : ∀ st, P st → P { st with shouldWeStop_ := true })
    (hstore : ∀ e st, P st → P (storeDeferred e st))
    (b : BlockState) (step : LoopStep) (h : P b.proc) : P (blockStep b step).proc := by
  cases step with
  | signal => exact hsignal _ h
  | read i a =>
    simp only [blockStep]
    by_cases hc : i < b.nStreams ∧ b.status i = .waiting
    · rw [if_pos hc]
      by_cases hr : (readNextEventForStream a i b.finishedProcessingEvents b.proc).1 = true
      · rw [if_pos hr]
        exact hread a i _ _ h
      · rw [if_neg hr]
        exact hread a i _ _ h
    · rw [if_neg hc]
      exact h
  | processed i failure looperStops =>
    simp only [blockStep]
    by_cases hc : i < b.nStreams ∧ b.status i = .processing
    · rw [if_pos hc]
      have h1 : P (if looperStops then { b.proc with shouldWeStop_ := true } else b.proc) := by
        by_cases hl : looperStops = true
        · rw [if_pos hl]
          exact hstop _ h
        · rw [if_neg hl]
          exact h
      cases failure with
      | none => exact h1
      | some e => exact hstore e _ h1
    · rw [if_neg hc]
      exact h

theorem foldl_blockStep_proc_inv (P : ProcessorState → Prop)
    (hsignal : ∀ st, P st → P { st with shutdown_flag := true })
    (hread : ∀ a i fin st, P st → P (readNextEventForStream a i fin st).2.2)
    (hstop : ∀ st, P st → P { st with shouldWeStop_ := true })
    (hstore : ∀ e st, P st → P (storeDeferred e st))
    (steps : List LoopStep) (b : BlockState) (h : P b.proc) :
    P (steps.foldl blockStep b).proc := by
  induction steps generalizing b with
  | nil => exact h
  | cons step rest ih =>
    exact ih _ (blockStep_proc_inv P hsignal hread hstop hstore b step h)

theorem runBlock_proc_inv (P : ProcessorState → Prop)
    (hsignal : ∀ st, P st → P { st with shutdown_flag := true })
    (hread : ∀ a i fin st, P st → P (readNextEventForStream a i fin st).2.2)
    (hstop : ∀ st, P st → P { st with shouldWeStop_ := true })
    (hstore : ∀ e st, P st → P (storeDeferred e st))
    (steps : List LoopStep) (b b' : BlockState) (h : P b.proc)
    (hrun : runBlock steps b = some b') : P b'.proc := by
  induction steps generalizing b with
  | nil =>
    unfold runBlock at hrun
    by_cases hz : b.running = 0
    · rw [if_pos hz] at hrun
      injection hrun with hb
      rw [← hb]
      exact h
    · rw [if_neg hz] at hrun
      exact absurd hrun (by simp)
  | cons step rest ih =>
    unfold runBlock at hrun
    by_cases hz : b.running = 0
    · rw [if_pos hz] at hrun
      injection hrun with hb
      rw [← hb]
      exact h
    · rw [if_neg hz] at hrun
      exact ih _ (blockStep_proc_inv P hsignal hread hstop hstore b step h) hrun

theorem firstCallInv_storeDeferred (e : Exception) (st : ProcessorState)
    (h : FirstCallInv st) : FirstCallInv (storeDeferred e st) := by
  unfold FirstCallInv at h ⊢
  rw [storeDeferred_calls, storeDeferred_firstEventInBlock]
  exact h

theorem foldl_blockStep_firstCallInv (steps : List LoopStep) (b : BlockState)
    (h : FirstCallInv b.proc) : FirstCallInv (steps.foldl blockStep b).proc :=
  foldl_blockStep_proc_inv FirstCallInv (fun _ h => h)
    (fun a i fin st h => readNextEventForStream_firstCallInv a i fin st h)
    (fun _ h => h) firstCallInv_storeDeferred steps b h

/-- C19: take a non-forked block (started with an empty record of calls) at
any point, and a call of `readNextEventForStream` there that reaches the
source (no stop requested, no deferred exception, finished flag clear).  If no
earlier call of the block reached the source, the call does not call
`nextItemType`: it calls `readEvent` and nothing else, and clears
`firstEventInBlock_`.  Otherwise it calls `nextItemType` exactly once, and
first; and when that item is not an Event the call returns false with the item
type recorded in `nextItemTypeFromProcessingEvents_` and the finished flag
set, having read nothing. -/
theorem readNextEventForStream_first_and_later (kNumStreams : Nat) (steps : List LoopStep)
    (st0 : ProcessorState) (a : ReadAnswers) (iStreamIndex : Nat)
    (hstart : st0.calls = [])
    (hstop : shouldWeStop (blockAfter kNumStreams st0 steps).proc.shouldWeStop_
      a.terminate = false)
    (hset : (blockAfter kNumStreams st0 steps).proc.deferredExceptionPtrIsSet_ = false)
    (hfinished : (blockAfter kNumStreams st0 steps).finishedProcessingEvents = false) :
    ((blockAfter kNumStreams st0 steps).proc.calls = [] →
        (readNextEventForStream a iStreamIndex
            (blockAfter kNumStreams st0 steps).finishedProcessingEvents
            (blockAfter kNumStreams st0 steps).proc).2.2.calls
          = [.readEvent iStreamIndex]
        ∧ (readNextEventForStream a iStreamIndex
            (blockAfter kNumStreams st0 steps).finishedProcessingEvents
            (blockAfter kNumStreams st0 steps).proc).2.2.firstEventInBlock_
          = false)
      ∧ ((blockAfter kNumStreams st0 steps).proc.calls ≠ [] →
          (∃ rest,
            (readNextEventForStream a iStreamIndex
                (blockAfter kNumStreams st0 steps).finishedProcessingEvents
                (blockAfter kNumStreams st0 steps).proc).2.2.calls
              = (blockAfter kNumStreams st0 steps).proc.calls ++ .nextItemType :: rest
            ∧ Call.nextItemType ∉ rest)
          ∧ (a.nextItemTypeThrows = none → a.itemType ≠ .IsEvent →
              readNextEventForStream a iStreamIndex
                  (blockAfter kNumStreams st0 steps).finishedProcessingEvents
                  (blockAfter kNumStreams st0 steps).proc
                = (false, true,
                    { (blockAfter kNumStreams st0 steps).proc with
                      calls := (blockAfter kNumStreams st0 steps).proc.calls
                        ++ [.nextItemType]
                      nextItemTypeFromProcessingEvents_ := a.itemType }))) := by
  have hinv : FirstCallInv (blockAfter kNumStreams st0 steps).proc :=
    foldl_blockStep_firstCallInv steps _ (Or.inl ⟨rfl, hstart⟩)
  rw [hfinished]
  generalize (blockAfter kNumStreams st0 steps).proc = st at *
  refine ⟨?_, ?_⟩
  · intro hcalls
    have hfirst : st.firstEventInBlock_ = true := by
      rcases hinv with ⟨hf, _⟩ | ⟨_, j, rest, hc⟩
      · exact hf
      · rw [hc] at hcalls
        exact absurd hcalls (by simp)
    unfold readNextEventForStream
    simp only [hstop, hset, hfirst, if_false, Bool.false_eq_true, Bool.not_true]
    unfold readEventInTry
    cases a.readEventThrows <;>
      simp [storeDeferred_calls, storeDeferred_firstEventInBlock, hcalls]
  · intro hcalls
    have hfirst : st.firstEventInBlock_ = false := by
      rcases hinv with ⟨_, hc⟩ | ⟨hf, _⟩
      · exact absurd hc hcalls
      · exact hf
    refine ⟨?_, ?_⟩
    · unfold readNextEventForStream
      simp only [hstop, hset, hfirst, if_false, Bool.false_eq_true, Bool.not_false, if_true]
      cases hthrow : a.nextItemTypeThrows with
      | some e => exact ⟨[], by simp [storeDeferred_calls], by simp⟩
      | none =>
        by_cases hitem : a.itemType = .IsEvent
        · cases hflag : st.shutdown_flag with
          | true =>
            exact ⟨[.preSourceEarlyTerminationSignal],
              by simp [hitem, checkForAsyncStopRequest, hflag], by simp⟩
          | false =>
            refine ⟨[.readEvent iStreamIndex], ?_, by simp⟩
            simp only [hitem, checkForAsyncStopRequest, hflag, ne_eq, not_true_eq_false,
              if_false, Bool.false_eq_true]
            unfold readEventInTry
            cases a.readEventThrows <;> simp [storeDeferred_calls]
        · exact ⟨[], by simp [hitem], by simp⟩
    · intro hthrow hitem
      unfold readNextEventForStream
      simp [hstop, hset, hfirst, hthrow, hitem]

theorem readNextEventForStream_first_and_later_witness :
    ((blockAfter 1 ProcessorState.initial oneEventBlock.dropLast).proc.calls = [] →
        (readNextEventForStream (ReadAnswers.next .IsLumi) 0
            (blockAfter 1 ProcessorState.initial oneEventBlock.dropLast).finishedProcessingEvents
            (blockAfter 1 ProcessorState.initial oneEventBlock.dropLast).proc).2.2.calls
          = [.readEvent 0]
        ∧ (readNextEventForStream (ReadAnswers.next .IsLumi) 0
            (blockAfter 1 ProcessorState.initial oneEventBlock.dropLast).finishedProcessingEvents
            (blockAfter 1 ProcessorState.initial
              oneEventBlock.dropLast).proc).2.2.firstEventInBlock_
          = false)
      ∧ ((blockAfter 1 ProcessorState.initial oneEventBlock.dropLast).proc.calls ≠ [] →
          (∃ rest,
            (readNextEventForStream (ReadAnswers.next .IsLumi) 0
                (blockAfter 1 ProcessorState.initial
                  oneEventBlock.dropLast).finishedProcessingEvents
                (blockAfter 1 ProcessorState.initial oneEventBlock.dropLast).proc).2.2.calls
              = (blockAfter 1 ProcessorState.initial oneEventBlock.dropLast).proc.calls
                  ++ .nextItemType :: rest
            ∧ Call.nextItemType ∉ rest)
          ∧ ((ReadAnswers.next .IsLumi).nextItemTypeThrows = none →
              (ReadAnswers.next .IsLumi).itemType ≠ .IsEvent →
              readNextEventForStream (ReadAnswers.next .IsLumi) 0
                  (blockAfter 1 ProcessorState.initial
                    oneEventBlock.dropLast).finishedProcessingEvents
                  (blockAfter 1 ProcessorState.initial oneEventBlock.dropLast).proc
                = (false, true,
                    { (blockAfter 1 ProcessorState.initial oneEventBlock.dropLast).proc with
                      calls := (blockAfter 1 ProcessorState.initial
                        oneEventBlock.dropLast).proc.calls ++ [.nextItemType]
                      nextItemTypeFromProcessingEvents_ :=
                        (ReadAnswers.next .IsLumi).itemType }))) :=
  readNextEventForStream_first_and_later 1 oneEventBlock.dropLast
    ProcessorState.initial (ReadAnswers.next .IsLumi) 0 rfl (by decide) (by decide) (by decide)

/-! ## Theorems: the deferred-exception slot -/

theorem slotInv_of_eq (st st' : ProcessorState) (h : SlotInv st)
    (hflag : st'.deferredExceptionPtrIsSet_ = st.deferredExceptionPtrIsSet_)
    (hptr : st'.deferredExceptionPtr_ = st.deferredExceptionPtr_)
    (hattempts : st'.attempts = st.attempts) : SlotInv st' := by
  unfold SlotInv at h ⊢
  rw [hflag, hptr, hattempts]
  exact h

theorem slotInv_storeDeferred (e : Exception) (st : ProcessorState) (h : SlotInv st) :
    SlotInv (storeDeferred e st) := by
  right
  refine ⟨storeDeferred_flag e st, ?_⟩
  rcases h with ⟨hflag, hatt⟩ | ⟨hflag, e0, rest, hatt, hptr⟩
  · exact ⟨e, [], by rw [storeDeferred_attempts, hatt]; rfl,
      storeDeferred_ptr_of_unset e st hflag⟩
  · exact ⟨e0, rest ++ [e], by rw [storeDeferred_attempts, hatt]; rfl,
      by rw [storeDeferred_ptr_of_set e st hflag, hptr]⟩

theorem readEventInTry_slotInv (a : ReadAnswers) (i : Nat) (st : ProcessorState)
    (h : SlotInv st) : SlotInv (readEventInTry a i st).2 := by
  unfold readEventInTry
  have h1 : SlotInv { st with calls := st.calls ++ [.readEvent i] } :=
    slotInv_of_eq st _ h rfl rfl rfl
  cases a.readEventThrows with
  | none => exact h1
  | some e => exact slotInv_storeDeferred e _ h1

theorem readNextEventForStream_slotInv (a : ReadAnswers) (i : Nat) (fin : Bool)
    (st : ProcessorState) (h : SlotInv st) :
    SlotInv (readNextEventForStream a i fin st).2.2 := by
  unfold readNextEventForStream
  by_cases h1 : shouldWeStop st.shouldWeStop_ a.terminate = true
  · rw [if_pos h1]
    exact h
  rw [if_neg h1]
  by_cases h2 : st.deferredExceptionPtrIsSet_ = true
  · rw [if_pos h2]
    exact h
  rw [if_neg h2]
  by_cases h3 : fin = true
  · rw [if_pos h3]
    exact h
  rw [if_neg h3]
  by_cases hfirst : (!st.firstEventInBlock_) = true
  · rw [if_pos hfirst]
    cases hthrow : a.nextItemTypeThrows with
    | some e =>
      exact slotInv_storeDeferred e _ (slotInv_of_eq st _ h rfl rfl rfl)
    | none =>
      simp only []
      by_cases hitem : a.itemType ≠ .IsEvent
      · rw [if_pos hitem]
        exact slotInv_of_eq st _ h rfl rfl rfl
      · rw [if_neg hitem]
        by_cases hcheck : (checkForAsyncStopRequest st.shutdown_flag
            st.asyncStopStatusCodeFromProcessingEvents_).1 = true
        · rw [if_pos hcheck]
          exact slotInv_of_eq st _ h rfl rfl rfl
        · rw [if_neg hcheck]
          exact readEventInTry_slotInv a i _ (slotInv_of_eq st _ h rfl rfl rfl)
  · rw [if_neg hfirst]
    exact readEventInTry_slotInv a i _ (slotInv_of_eq st _ h rfl rfl rfl)

theorem foldl_storeDeferred_ptr (es : List Exception) (st : ProcessorState)
    (h : st.deferredExceptionPtrIsSet_ = true) :
    (es.foldl (fun s x => storeDeferred x s) st).deferredExceptionPtrIsSet_ = true
      ∧ (es.foldl (fun s x => storeDeferred x s) st).deferredExceptionPtr_
          = st.deferredExceptionPtr_ := by
  induction es generalizing st with
  | nil => exact ⟨h, rfl⟩
  | cons x rest ih =>
    have hx := ih (storeDeferred x st) (storeDeferred_flag x st)
    rw [storeDeferred_ptr_of_set x st h] at hx
    exact hx

/-- C11: starting from an empty slot, after any sequence of attempts to store
an exception the slot holds the exception of the first attempt; an attempt on
a slot whose flag is set leaves the flag and the stored exception as they
were; and a non-forked `readAndProcessEvent` that comes back raises exactly
the first exception offered to the slot during the block (by a failed read or
by a failed event), and returns normally when none was offered. -/
theorem deferredException_first_wins (numberOfForkedChildren_ : Int) (kNumStreams : Nat)
    (env : BlockEnv) (st : ProcessorState) (e : Exception) (es : List Exception)
    (hn : numberOfForkedChildren_ ≤ 0)
    (hflag : st.deferredExceptionPtrIsSet_ = false) (hattempts : st.attempts = []) :
    (((e :: es).foldl (fun s x => storeDeferred x s) st).deferredExceptionPtrIsSet_ = true
        ∧ ((e :: es).foldl (fun s x => storeDeferred x s) st).deferredExceptionPtr_ = some e)
      ∧ (∀ e' st', st'.deferredExceptionPtrIsSet_ = true →
          (storeDeferred e' st').deferredExceptionPtrIsSet_ = true
            ∧ (storeDeferred e' st').deferredExceptionPtr_ = st'.deferredExceptionPtr_)
      ∧ ((readAndProcessEvent numberOfForkedChildren_ kNumStreams env st).1 ≠ .blocked →
          ((readAndProcessEvent numberOfForkedChildren_ kNumStreams env st).2.attempts = [] →
              (readAndProcessEvent numberOfForkedChildren_ kNumStreams env st).1 = .returned ())
            ∧ (∀ first rest,
                (readAndProcessEvent numberOfForkedChildren_ kNumStreams env st).2.attempts
                    = first :: rest →
                  (readAndProcessEvent numberOfForkedChildren_ kNumStreams env st).1
                      = .raised first
                    ∧ (readAndProcessEvent numberOfForkedChildren_ kNumStreams env
                        st).2.deferredExceptionPtr_ = some first)) := by
  refine ⟨?_, ?_, ?_⟩
  · have h := foldl_storeDeferred_ptr es (storeDeferred e st) (storeDeferred_flag e st)
    rw [storeDeferred_ptr_of_unset e st hflag] at h
    exact h
  · intro e' st' h
    exact ⟨storeDeferred_flag e' st', storeDeferred_ptr_of_set e' st' h⟩
  · have hnot : ¬ numberOfForkedChildren_ > 0 := by omega
    unfold readAndProcessEvent
    rw [if_neg hnot]
    cases hrun : runBlock env.steps (blockStart kNumStreams st) with
    | none => simp
    | some b =>
      intro _
      have hinv : SlotInv b.proc :=
        runBlock_proc_inv SlotInv (fun st h => slotInv_of_eq st _ h rfl rfl rfl)
          readNextEventForStream_slotInv (fun st h => slotInv_of_eq st _ h rfl rfl rfl)
          slotInv_storeDeferred env.steps _ b (Or.inl ⟨hflag, hattempts⟩) hrun
      rcases hinv with ⟨hf, hatt⟩ | ⟨hf, e0, rest0, hatt, hptr⟩
      · simp [hf, hatt]
      · simp [hf, hatt, hptr]

theorem deferredException_first_wins_witness :
    ((([sampleFailure, otherFailure].foldl (fun s x => storeDeferred x s)
          ProcessorState.initial).deferredExceptionPtrIsSet_ = true
        ∧ ([sampleFailure, otherFailure].foldl (fun s x => storeDeferred x s)
            ProcessorState.initial).deferredExceptionPtr_ = some sampleFailure)
      ∧ (∀ e' st', st'.deferredExceptionPtrIsSet_ = true →
          (storeDeferred e' st').deferredExceptionPtrIsSet_ = true
            ∧ (storeDeferred e' st').deferredExceptionPtr_ = st'.deferredExceptionPtr_)
      ∧ ((readAndProcessEvent 0 2 ⟨twoFailuresBlock, none, none, false⟩
            ProcessorState.initial).1 ≠ .blocked →
          ((readAndProcessEvent 0 2 ⟨twoFailuresBlock, none, none, false⟩
              ProcessorState.initial).2.attempts = [] →
              (readAndProcessEvent 0 2 ⟨twoFailuresBlock, none, none, false⟩
                ProcessorState.initial).1 = .returned ())
            ∧ (∀ first rest,
                (readAndProcessEvent 0 2 ⟨twoFailuresBlock, none, none, false⟩
                    ProcessorState.initial).2.attempts = first :: rest →
                  (readAndProcessEvent 0 2 ⟨twoFailuresBlock, none, none, false⟩
                      ProcessorState.initial).1 = .raised first
                    ∧ (readAndProcessEvent 0 2 ⟨twoFailuresBlock, none, none, false⟩
                        ProcessorState.initial).2.deferredExceptionPtr_ = some first)))
      ∧ (readAndProcessEvent 0 2 ⟨twoFailuresBlock, none, none, false⟩
          ProcessorState.initial).2.attempts = [sampleFailure, otherFailure] :=
  ⟨deferredException_first_wins 0 2 ⟨twoFailuresBlock, none, none, false⟩
    ProcessorState.initial sampleFailure [otherFailure] (by decide) rfl rfl, by decide⟩

/-- C10, failing input: in a forked child (`maxChildProcesses` 1) the
processing of the event fails with an exception, and `readAndProcessEvent`
returns normally; the same failure in a process that did not fork is raised
to the caller. -/
theorem readAndProcessEvent_forked_drops_exception :
    (readAndProcessEvent 1 1
        { steps := [], forkedReadEventThrows := none, forkedFailure := some sampleFailure
          forkedLooperStops := false } ProcessorState.initial).1 = .returned ()
      ∧ (readAndProcessEvent 0 1
          { steps := [.read 0 (ReadAnswers.next .IsEvent),
                      .processed 0 (some sampleFailure) false]
            forkedReadEventThrows := none, forkedFailure := none
            forkedLooperStops := false } ProcessorState.initial).1 = .raised sampleFailure := by
  decide

/-! ## Theorems: `runToCompletion` and the shutdown flag -/

theorem ofOutcome_ne_finished (outcome : Outcome Bool) (st : ProcessorState)
    (code : StatusCode) (t : Bool) (st' : ProcessorState) :
    LoopExit.ofOutcome outcome st ≠ .finished code t st' := by
  cases outcome <;> simp [LoopExit.ofOutcome]

theorem afterLoop_finished (rc : StatusCode) (t : Bool) (st : ProcessorState) :
    afterLoop (.finished rc t st) =
      if st.stateMachineWasInErrorState_ then (.raised badStateError, st)
      else if !t then (.raised machineNotDestroyedError, st)
      else (.returned rc, st) := rfl

theorem errInv_of_eq (st st' : ProcessorState) (h : ErrInv st)
    (h1 : st'.stateMachineWasInErrorState_ = st.stateMachineWasInErrorState_)
    (h2 : Call.doErrorStuff ∈ st'.calls ↔ Call.doErrorStuff ∈ st.calls) : ErrInv st' := by
  unfold ErrInv at h ⊢
  rw [h1, h2]
  exact h

theorem errInv_storeDeferred (e : Exception) (st : ProcessorState) (h : ErrInv st) :
    ErrInv (storeDeferred e st) :=
  errInv_of_eq st _ h (storeDeferred_errorState e st) (by rw [storeDeferred_calls])

theorem readEventInTry_errInv (a : ReadAnswers) (i : Nat) (st : ProcessorState)
    (h : ErrInv st) : ErrInv (readEventInTry a i st).2 := by
  unfold readEventInTry
  have h1 : ErrInv { st with calls := st.calls ++ [.readEvent i] } :=
    errInv_of_eq st _ h rfl (by simp)
  cases a.readEventThrows with
  | none => exact h1
  | some e => exact errInv_storeDeferred e _ h1

theorem readNextEventForStream_errInv (a : ReadAnswers) (i : Nat) (fin : Bool)
    (st : ProcessorState) (h : ErrInv st) :
    ErrInv (readNextEventForStream a i fin st).2.2 := by
  unfold readNextEventForStream
  by_cases h1 : shouldWeStop st.shouldWeStop_ a.terminate = true
  · rw [if_pos h1]
    exact h
  rw [if_neg h1]
  by_cases h2 : st.deferredExceptionPtrIsSet_ = true
  · rw [if_pos h2]
    exact h
  rw [if_neg h2]
  by_cases h3 : fin = true
  · rw [if_pos h3]
    exact h
  rw [if_neg h3]
  by_cases hfirst : (!st.firstEventInBlock_) = true
  · rw [if_pos hfirst]
    cases hthrow : a.nextItemTypeThrows with
    | some e =>
      exact errInv_storeDeferred e _ (errInv_of_eq st _ h rfl (by simp))
    | none =>
      simp only []
      by_cases hitem : a.itemType ≠ .IsEvent
      · rw [if_pos hitem]
        exact errInv_of_eq st _ h rfl (by simp)
      · rw [if_neg hitem]
        by_cases hcheck : (checkForAsyncStopRequest st.shutdown_flag
            st.asyncStopStatusCodeFromProcessingEvents_).1 = true
        · rw [if_pos hcheck]
          exact errInv_of_eq st _ h rfl (by simp)
        · rw [if_neg hcheck]
          exact readEventInTry_errInv a i _ (errInv_of_eq st _ h rfl (by simp))
  · rw [if_neg hfirst]
    exact readEventInTry_errInv a i _ (errInv_of_eq st _ h rfl (by rfl))

theorem readAndProcessEvent_errInv (n : Int) (k : Nat) (env : BlockEnv)
    (st : ProcessorState) (h : ErrInv st) :
    ErrInv (readAndProcessEvent n k env st).2 := by
  have hstart : ErrInv (blockStart k st).proc := errInv_of_eq st _ h rfl (by rfl)
  unfold readAndProcessEvent
  by_cases hn : n > 0
  · rw [if_pos hn]
    have h1 : ErrInv { st with calls := st.calls ++ [.readEvent 0] } :=
      errInv_of_eq st _ h rfl (by simp)
    cases env.forkedReadEventThrows with
    | some e => exact h1
    | none =>
      simp only []
      by_cases hl : env.forkedLooperStops = true
      · rw [if_pos hl]
        exact errInv_of_eq _ _ h1 rfl (by rfl)
      · rw [if_neg hl]
        exact h1
  · rw [if_neg hn]
    cases hrun : runBlock env.steps (blockStart k st) with
    | none => exact hstart
    | some b =>
      have hb : ErrInv b.proc :=
        runBlock_proc_inv ErrInv (fun st h => errInv_of_eq st _ h rfl (by rfl))
          readNextEventForStream_errInv (fun st h => errInv_of_eq st _ h rfl (by rfl))
          errInv_storeDeferred env.steps _ b hstart hrun
      simp only []
      by_cases hset : b.proc.deferredExceptionPtrIsSet_ = true
      · rw [if_pos hset]
        cases b.proc.deferredExceptionPtr_ <;> exact hb
      · rw [if_neg hset]
        exact hb

theorem beforeBlock_errInv (event : MachineEvent) (r : MachineReaction)
    (st : ProcessorState) (h : ErrInv st) : ErrInv (beforeBlock event r st) := by
  unfold ErrInv at h
  unfold beforeBlock ErrInv doErrorStuff startingNewLoop
  cases r.errorState <;> cases r.startsNewLoop <;> simp [h]

theorem processMachineEvent_errInv (cfg : RunConfig) (event : MachineEvent)
    (r : MachineReaction) (st : ProcessorState) (h : ErrInv st) :
    ErrInv (processMachineEvent cfg event r st).2 := by
  show ErrInv (blockOfReaction cfg event r (beforeBlock event r st)).2
  have hb := beforeBlock_errInv event r st h
  unfold blockOfReaction
  cases event <;> cases r.block <;>
    first
      | exact hb
      | exact readAndProcessEvent_errInv _ _ _ _ hb

theorem ofOutcome_state (outcome : Outcome Bool) (st : ProcessorState) :
    (LoopExit.ofOutcome outcome st).state = st := by
  cases outcome <;> rfl

theorem dispatchItem_errInv (cfg : RunConfig) (p : LoopIteration) (itemType : ItemType)
    (rc : StatusCode) (t : Bool) (st : ProcessorState) (h : ErrInv st) :
    ErrInv (dispatchItem cfg p itemType rc t st).2
      ∧ ∀ exit, (dispatchItem cfg p itemType rc t st).1 = some exit →
          exit.state = (dispatchItem cfg p itemType rc t st).2 := by
  unfold dispatchItem
  by_cases hitem : itemType = .IsEvent ∨ itemType = .IsSynchronize
  · rw [if_pos hitem]
    cases t with
    | true =>
      refine ⟨h, ?_⟩
      intro exit heq
      simp at heq
      rw [← heq]
      rfl
    | false =>
      refine ⟨h, ?_⟩
      intro exit heq
      simp at heq
  · rw [if_neg hitem]
    cases hev : transitionFor itemType with
    | none =>
      refine ⟨h, ?_⟩
      intro exit heq
      simp at heq
      rw [← heq]
      rfl
    | some event =>
      have hinv := processMachineEvent_errInv cfg event p.onTransition st h
      simp only []
      cases hout : (processMachineEvent cfg event p.onTransition st) with
      | mk outcome st1 =>
        rw [hout] at hinv
        cases outcome with
        | returned t1 =>
          cases t1 with
          | true =>
            refine ⟨hinv, ?_⟩
            intro exit heq
            simp at heq
            rw [← heq]
            rfl
          | false =>
            refine ⟨hinv, ?_⟩
            intro exit heq
            simp at heq
        | raised e =>
          refine ⟨hinv, ?_⟩
          intro exit heq
          simp at heq
          rw [← heq]
          exact ofOutcome_state _ _
        | exited status =>
          refine ⟨hinv, ?_⟩
          intro exit heq
          simp at heq
          rw [← heq]
          exact ofOutcome_state _ _
        | aborted =>
          refine ⟨hinv, ?_⟩
          intro exit heq
          simp at heq
          rw [← heq]
          exact ofOutcome_state _ _
        | blocked =>
          refine ⟨hinv, ?_⟩
          intro exit heq
          simp at heq
          rw [← heq]
          exact ofOutcome_state _ _

theorem passStart_errInv (cfg : RunConfig) (p : LoopIteration) (st : ProcessorState)
    (h : ErrInv st) : ErrInv (passStart cfg p st) := by
  unfold ErrInv at h
  unfold passStart ErrInv
  cases p.signal <;> cases decide (cfg.numberOfForkedChildren_ > 0) <;> cases p.more <;>
    simp [h]

theorem passBody_errInv (cfg : RunConfig) (p : LoopIteration) (itemType : ItemType)
    (rc : StatusCode) (st1 : ProcessorState) (h : ErrInv st1) :
    ErrInv (passBody cfg p itemType rc st1).2.2
      ∧ ∀ exit, (passBody cfg p itemType rc st1).1 = some exit →
          exit.state = (passBody cfg p itemType rc st1).2.2 := by
  unfold passBody
  simp only []
  by_cases hcheck : (checkForAsyncStopRequest st1.shutdown_flag rc).1 = true
  · rw [if_pos hcheck]
    have hinv := processMachineEvent_errInv cfg .Stop p.onTransition
      { st1 with calls := st1.calls ++ [.preSourceEarlyTerminationSignal] }
      (errInv_of_eq st1 _ h rfl (by simp))
    cases hout : processMachineEvent cfg .Stop p.onTransition
        { st1 with calls := st1.calls ++ [.preSourceEarlyTerminationSignal] } with
    | mk outcome st3 =>
      rw [hout] at hinv
      cases outcome <;>
        exact ⟨hinv, fun exit heq => by
          simp at heq
          rw [← heq]
          rfl⟩
  · rw [if_neg hcheck]
    by_cases hitem : itemType = .IsEvent
    · rw [if_pos hitem]
      have hinv := processMachineEvent_errInv cfg .Event p.onEvent st1 h
      cases hout : processMachineEvent cfg .Event p.onEvent st1 with
      | mk outcome st2 =>
        rw [hout] at hinv
        cases outcome with
        | returned t =>
          simp only []
          by_cases hstop : st2.asyncStopRequestedWhileProcessingEvents_ = true
          · rw [if_pos hstop]
            have hinv2 := processMachineEvent_errInv cfg .Stop p.onTransition st2 hinv
            cases hout2 : processMachineEvent cfg .Stop p.onTransition st2 with
            | mk outcome2 st3 =>
              rw [hout2] at hinv2
              cases outcome2 <;>
                exact ⟨hinv2, fun exit heq => by
                  simp at heq
                  rw [← heq]
                  rfl⟩
          · rw [if_neg hstop]
            exact dispatchItem_errInv cfg p _ _ t st2 hinv
        | raised e =>
          exact ⟨hinv, fun exit heq => by
            simp at heq
            rw [← heq]
            exact ofOutcome_state _ _⟩
        | exited status =>
          exact ⟨hinv, fun exit heq => by
            simp at heq
            rw [← heq]
            exact ofOutcome_state _ _⟩
        | aborted =>
          exact ⟨hinv, fun exit heq => by
            simp at heq
            rw [← heq]
            exact ofOutcome_state _ _⟩
        | blocked =>
          exact ⟨hinv, fun exit heq => by
            simp at heq
            rw [← heq]
            exact ofOutcome_state _ _⟩
    · rw [if_neg hitem]
      exact dispatchItem_errInv cfg p _ _ false st1 h

theorem mainLoop_errInv (cfg : RunConfig) (passes : List LoopIteration) :
    ∀ (rc : StatusCode) (st : ProcessorState), ErrInv st →
      ErrInv (mainLoop cfg passes rc st).state := by
  induction passes with
  | nil =>
    intro rc st h
    exact h
  | cons p rest ih =>
    intro rc st h
    obtain ⟨hinv, hexit⟩ := passBody_errInv cfg p (passItemType cfg p) rc (passStart cfg p st)
      (passStart_errInv cfg p st h)
    unfold mainLoop loopPass
    cases hpass : passBody cfg p (passItemType cfg p) rc (passStart cfg p st) with
    | mk exit rest2 =>
      cases rest2 with
      | mk rc1 st1 =>
        rw [hpass] at hinv hexit
        cases exit with
        | some e =>
          simp only []
          rw [hexit e rfl]
          exact hinv
        | none =>
          simp only []
          exact ih rc1 st1 hinv

theorem runToCompletion_flag_independent (cfg : RunConfig) (env : RunEnv)
    (st : ProcessorState) (b : Bool) :
    (runToCompletion cfg env { st with stateMachineWasInErrorState_ := b }).1
      = (runToCompletion cfg env st).1 := by
  unfold runToCompletion
  cases env.beginJob with
  | some e => rfl
  | none =>
    cases createStateMachine cfg.fileMode_ cfg.emptyRunLumiMode_ with
    | error e => rfl
    | ok machine => rfl

/-- C15: take a `runToCompletion` whose main loop is left without an exception
(the record of calls having no `doErrorStuff` at the start).  If the machine
entered its Error state during the run (`doErrorStuff` was called), the call
raises `BadState` and returns no status code; if it did not, the call does not
raise `BadState` (it returns the code, or raises the `LogicError` of an
unterminated machine).  The outcome does not depend on the value the
error-state flag had before the call. -/
theorem runToCompletion_badState (cfg : RunConfig) (env : RunEnv) (st st' : ProcessorState)
    (machine : statemachine.Machine) (code : StatusCode) (terminated b : Bool)
    (hstart : Call.doErrorStuff ∉ st.calls)
    (hbegin : env.beginJob = none)
    (hmachine : createStateMachine cfg.fileMode_ cfg.emptyRunLumiMode_ = .ok machine)
    (hloop : mainLoop cfg env.passes .epSuccess (startRun st)
      = .finished code terminated st') :
    (Call.doErrorStuff ∈ st'.calls →
        (runToCompletion cfg env st).1 = .raised badStateError)
      ∧ (Call.doErrorStuff ∉ st'.calls →
          (runToCompletion cfg env st).1 =
            if terminated then .returned code else .raised machineNotDestroyedError)
      ∧ (runToCompletion cfg env { st with stateMachineWasInErrorState_ := b }).1
          = (runToCompletion cfg env st).1 := by
  have hinv : ErrInv st' := by
    have h := mainLoop_errInv cfg env.passes .epSuccess (startRun st)
      ⟨fun hf => absurd hf (by simp [startRun]), fun hmem => absurd hmem hstart⟩
    rw [hloop] at h
    exact h
  have hrun : runToCompletion cfg env st = afterLoop (.finished code terminated st') := by
    unfold runToCompletion
    rw [hbegin, hmachine]
    simp only []
    rw [hloop]
  refine ⟨?_, ?_, runToCompletion_flag_independent cfg env st b⟩
  · intro hmem
    rw [hrun, afterLoop_finished, if_pos (hinv.mpr hmem)]
  · intro hnot
    have hflag : ¬ st'.stateMachineWasInErrorState_ = true := fun hf => hnot (hinv.mp hf)
    rw [hrun, afterLoop_finished, if_neg hflag]
    cases terminated <;> rfl

theorem runToCompletion_badState_witness :
    ((Call.doErrorStuff
          ∈ (mainLoop (sampleRunConfig 0 1) errorStateRun.passes .epSuccess
              (startRun { ProcessorState.initial with
                stateMachineWasInErrorState_ := true })).state.calls →
        (runToCompletion (sampleRunConfig 0 1) errorStateRun
          { ProcessorState.initial with stateMachineWasInErrorState_ := true }).1
            = .raised badStateError)
      ∧ (Call.doErrorStuff
            ∉ (mainLoop (sampleRunConfig 0 1) errorStateRun.passes .epSuccess
                (startRun { ProcessorState.initial with
                  stateMachineWasInErrorState_ := true })).state.calls →
          (runToCompletion (sampleRunConfig 0 1) errorStateRun
            { ProcessorState.initial with stateMachineWasInErrorState_ := true }).1 =
            if true then .returned .epSuccess else .raised machineNotDestroyedError)
      ∧ (runToCompletion (sampleRunConfig 0 1) errorStateRun
          { { ProcessorState.initial with stateMachineWasInErrorState_ := true } with
            stateMachineWasInErrorState_ := false }).1
          = (runToCompletion (sampleRunConfig 0 1) errorStateRun
              { ProcessorState.initial with stateMachineWasInErrorState_ := true }).1)
      ∧ (runToCompletion (sampleRunConfig 0 1) errorStateRun ProcessorState.initial).1
          = .raised badStateError
      ∧ (runToCompletion (sampleRunConfig 0 1) quietRun
          { ProcessorState.initial with stateMachineWasInErrorState_ := true }).1
          = .returned .epSuccess :=
  ⟨runToCompletion_badState (sampleRunConfig 0 1) errorStateRun
    { ProcessorState.initial with stateMachineWasInErrorState_ := true }
    (mainLoop (sampleRunConfig 0 1) errorStateRun.passes .epSuccess
      (startRun { ProcessorState.initial with stateMachineWasInErrorState_ := true })).state
    { fileMode := .FULLMERGE, emptyRunLumiMode := .handleEmptyRunsAndLumis, initiated := true }
    .epSuccess true false (by decide) rfl rfl (by decide), by decide, by decide⟩

/-! ## Theorems: `beginJob` -/

/-- C13: a call of `beginJob` made when `beginJobCalled_` is set returns at
once, makes no call (no signal, nothing on the source, the schedule or a
sub-process) and leaves the state as it was; and `beginJobCalled_` is set after
every call of `beginJob`, whether that call completed or threw, so every call
after the first is of this kind. -/
theorem beginJob_idempotent (env env' : BeginJobEnv) (st : BeginJobState) :
    (st.beginJobCalled_ = true → beginJob env st = (.returned (), st))
      ∧ (beginJob env st).2.beginJobCalled_ = true
      ∧ beginJob env' (beginJob env st).2 = (.returned (), (beginJob env st).2) := by
  have hflag : (beginJob env st).2.beginJobCalled_ = true := by
    unfold beginJob
    by_cases h : st.beginJobCalled_ = true
    · rw [if_pos h]
      exact h
    · rw [if_neg h]
      cases env.dependencyCheckThrows with
      | some e => rfl
      | none =>
        cases env.sourceBeginJobThrows with
        | some e => rfl
        | none => rfl
  have hagain : ∀ (e : BeginJobEnv) (s : BeginJobState), s.beginJobCalled_ = true →
      beginJob e s = (.returned (), s) := by
    intro e s h
    unfold beginJob
    rw [if_pos h]
  exact ⟨hagain env st, hflag, hagain env' _ hflag⟩

/-! ## Theorems: `endJob` -/

theorem foldl_call (env : EndJobEnv) (steps : List EndJobStep) :
    ∀ c : ExceptionCollector,
      steps.foldl (ExceptionCollector.call env) c =
        { collected := c.collected ++ steps.flatMap (fun step => (env.throws step).toList)
          attempted := c.attempted ++ steps } := by
  induction steps with
  | nil =>
    intro c
    simp
  | cons step rest ih =>
    intro c
    rw [List.foldl_cons, ih]
    simp [ExceptionCollector.call]

theorem endStream_eq (env : EndJobEnv) (c : ExceptionCollector) (i : Nat) :
    endStream env c i =
      (EndJobStep.scheduleEndStream i
        :: (List.range env.subProcesses).map
            (fun subProcess => EndJobStep.subProcessDoEndStream subProcess i)).foldl
        (ExceptionCollector.call env) c := by
  unfold endStream
  rw [List.foldl_cons, List.foldl_map]

theorem foldl_endStream (env : EndJobEnv) (streams : List Nat) :
    ∀ c : ExceptionCollector,
      streams.foldl (endStream env) c =
        (streams.flatMap (fun i =>
          EndJobStep.scheduleEndStream i
            :: (List.range env.subProcesses).map
                (fun subProcess => EndJobStep.subProcessDoEndStream subProcess i))).foldl
          (ExceptionCollector.call env) c := by
  induction streams with
  | nil =>
    intro c
    rfl
  | cons i rest ih =>
    intro c
    rw [List.foldl_cons, ih, endStream_eq, List.flatMap_cons, List.foldl_append]

theorem endJobCollector_eq (env : EndJobEnv) :
    endJobCollector env =
      { collected :=
          ((List.range env.numberOfStreams).flatMap (fun i =>
              EndJobStep.scheduleEndStream i
                :: (List.range env.subProcesses).map
                    (fun subProcess => EndJobStep.subProcessDoEndStream subProcess i))
            ++ [EndJobStep.preEndJobSignal]).flatMap (fun step => (env.throws step).toList)
          ++ env.scheduleEndJobCollects
          ++ ((List.range env.subProcesses).map EndJobStep.subProcessDoEndJob
              ++ [EndJobStep.sourceDoEndJob]
              ++ (if env.looper_ then [EndJobStep.looperEndOfJob] else [])
              ++ [EndJobStep.postEndJobSignal]).flatMap (fun step => (env.throws step).toList)
        attempted := teardownOrder env.numberOfStreams env.subProcesses env.looper_ } := by
  unfold endJobCollector teardownOrder
  simp only [foldl_endStream, List.foldl_map]
  rw [foldl_call]
  have hsub : ∀ c : ExceptionCollector,
      (List.range env.subProcesses).foldl
        (fun c subProcess => c.call env (.subProcessDoEndJob subProcess)) c
      = ((List.range env.subProcesses).map EndJobStep.subProcessDoEndJob).foldl
          (ExceptionCollector.call env) c := by
    intro c
    rw [List.foldl_map]
  rw [hsub, foldl_call]
  cases env.looper_ <;> simp [ExceptionCollector.call, List.flatMap_append]

/-- C14: whatever the steps throw, `endJob` attempts the teardown steps in the
one fixed order (for each stream the schedule's `endStream` and then each
sub-process's; the `preEndJob` signal; the schedule's `endJob`; each
sub-process's `endJob`; the source's `endJob`; the looper's `endOfJob` when a
looper exists; the `postEndJob` signal), and it raises at the end if and only
if at least one step raised (a step run through the collector threw, or the
schedule's `endJob` handed an exception to the collector); otherwise it
returns. -/
theorem endJob_attempts_all (env : EndJobEnv) :
    (endJob env).2 = teardownOrder env.numberOfStreams env.subProcesses env.looper_
      ∧ ((∃ e, (endJob env).1 = .raised e) ↔
          ((∃ step ∈ teardownOrder env.numberOfStreams env.subProcesses env.looper_,
              step ≠ EndJobStep.scheduleEndJob ∧ (env.throws step).isSome = true)
            ∨ env.scheduleEndJobCollects ≠ []))
      ∧ ((endJob env).1 = .returned () ∨ ∃ e, (endJob env).1 = .raised e) := by
  have hc := endJobCollector_eq env
  have hthrown : (endJobCollector env).hasThrown = true ↔
      ((∃ step ∈ teardownOrder env.numberOfStreams env.subProcesses env.looper_,
          step ≠ EndJobStep.scheduleEndJob ∧ (env.throws step).isSome = true)
        ∨ env.scheduleEndJobCollects ≠ []) := by
    rw [hc]
    unfold ExceptionCollector.hasThrown teardownOrder
    simp only [Bool.not_eq_true', List.isEmpty_eq_false, ne_eq, List.append_eq_nil,
      List.flatMap_eq_nil_iff, not_and, not_forall]
    constructor
    · intro h
      by_cases hs : env.scheduleEndJobCollects = []
      · left
        by_cases h1 : ∀ step ∈ (List.range env.numberOfStreams).flatMap (fun i =>
              EndJobStep.scheduleEndStream i
                :: (List.range env.subProcesses).map
                    (fun subProcess => EndJobStep.subProcessDoEndStream subProcess i))
              ++ [EndJobStep.preEndJobSignal], (env.throws step).toList = []
        · obtain ⟨step, hmem, hne⟩ := h ⟨h1, hs⟩
          refine ⟨step, ?_, ?_, ?_⟩
          · simp only [List.mem_append] at hmem ⊢
            rcases hmem with ((hm | hm) | hm) | hm
            · exact Or.inl (Or.inl (Or.inl (Or.inr hm)))
            · exact Or.inl (Or.inl (Or.inr hm))
            · exact Or.inl (Or.inr hm)
            · exact Or.inr hm
          · intro heq
            subst heq
            cases hl : env.looper_ <;> simp [hl] at hmem
          · cases ht : env.throws step with
            | none => simp [ht] at hne
            | some e => rfl
        · simp only [not_forall] at h1
          obtain ⟨step, hmem, hne⟩ := h1
          refine ⟨step, ?_, ?_, ?_⟩
          · simp only [List.mem_append] at hmem ⊢
            rcases hmem with hm | hm
            · exact Or.inl (Or.inl (Or.inl (Or.inl (Or.inl hm))))
            · simp only [List.mem_singleton] at hm
              subst hm
              exact Or.inl (Or.inl (Or.inl (Or.inl (Or.inr (by simp)))))
          · intro heq
            subst heq
            simp at hmem
          · cases ht : env.throws step with
            | none => simp [ht] at hne
            | some e => rfl
      · exact Or.inr hs
    · intro h hall
      rcases h with ⟨step, hmem, hne, hsome⟩ | hs
      · have hnonnil : (env.throws step).toList ≠ [] := by
          cases ht : env.throws step with
          | none => simp [ht] at hsome
          | some e => simp
        simp only [List.mem_append] at hmem
        rcases hmem with ((((hm | hm) | hm) | hm) | hm) | hm
        · exact absurd (hall.1 step (List.mem_append.mpr (Or.inl hm))) hnonnil
        · simp only [List.mem_cons, List.mem_singleton, List.not_mem_nil, or_false] at hm
          rcases hm with hm | hm
          · subst hm
            exact absurd (hall.1 _ (by simp)) hnonnil
          · exact absurd hm hne
        · exact ⟨step, by simp only [List.mem_append]; exact Or.inl (Or.inl (Or.inl hm)),
            hnonnil⟩
        · exact ⟨step, by simp only [List.mem_append]; exact Or.inl (Or.inl (Or.inr hm)),
            hnonnil⟩
        · exact ⟨step, by simp only [List.mem_append]; exact Or.inl (Or.inr hm), hnonnil⟩
        · exact ⟨step, by simp only [List.mem_append]; exact Or.inr hm, hnonnil⟩
      · exact absurd hall.2 hs
  refine ⟨?_, ?_, ?_⟩
  · unfold endJob
    simp only []
    split <;> rw [hc]
  · rw [← hthrown]
    unfold endJob
    simp only []
    by_cases ht : (endJobCollector env).hasThrown = true
    · rw [if_pos ht]
      simp [ht]
    · rw [if_neg ht]
      simp [ht]
  · unfold endJob
    simp only []
    by_cases ht : (endJobCollector env).hasThrown = true
    · rw [if_pos ht]
      exact Or.inr ⟨_, rfl⟩
    · rw [if_neg ht]
      exact Or.inl rfl

/-! ## Theorems: `readRun` and `readLuminosityBlock` -/

/-- C12: `readRun` raises its `LogicError` whenever the cache holds a run
principal, and `readLuminosityBlock` raises a `LogicError` whenever the cache
holds a lumi principal or holds no run principal; in each of these cases the
source is not read and the cache is left as it was.  Hence a cache with at
most one run principal, at most one lumi principal and no lumi principal
without a run principal is again such a cache after either call. -/
theorem readRun_readLuminosityBlock_checks (env : ReadEnv) (st : CacheState) :
    (st.cache.hasRunPrincipal = true → readRun env st = (.raised insertRunError, st))
      ∧ (st.cache.hasLumiPrincipal = true →
          readLuminosityBlock env st = (.raised insertLumiError, st))
      ∧ (st.cache.hasLumiPrincipal = false → st.cache.hasRunPrincipal = false →
          readLuminosityBlock env st = (.raised insertLumiNoRunError, st))
      ∧ insertRunError.category = "LogicError" ∧ insertLumiError.category = "LogicError"
      ∧ insertLumiNoRunError.category = "LogicError"
      ∧ (st.cache.Unique → (readRun env st).2.cache.Unique
          ∧ (readLuminosityBlock env st).2.cache.Unique) := by
  refine ⟨?_, ?_, ?_, rfl, rfl, rfl, ?_⟩
  · intro h
    unfold readRun
    rw [if_pos h]
  · intro h
    unfold readLuminosityBlock
    rw [if_pos h]
  · intro h1 h2
    unfold readLuminosityBlock
    rw [if_neg (by simp [h1]), if_pos (by simp [h2])]
  · intro hu
    obtain ⟨hr, hl, hlr⟩ := hu
    refine ⟨?_, ?_⟩
    · unfold readRun
      by_cases h : st.cache.hasRunPrincipal = true
      · rw [if_pos h]
        exact ⟨hr, hl, hlr⟩
      · rw [if_neg h]
        have hempty : st.cache.runs = [] := by
          unfold PrincipalCache.hasRunPrincipal at h
          simpa using h
        cases env.readThrows with
        | some e => exact ⟨hr, hl, hlr⟩
        | none =>
          simp only []
          by_cases hid : env.reducedProcessHistoryID ≠ env.principalHistoryID
          · rw [if_pos hid]
            exact ⟨hr, hl, hlr⟩
          · rw [if_neg hid]
            refine ⟨?_, hl, ?_⟩
            · simp [hempty]
            · intro _
              simp
    · unfold readLuminosityBlock
      by_cases h : st.cache.hasLumiPrincipal = true
      · rw [if_pos h]
        exact ⟨hr, hl, hlr⟩
      · rw [if_neg h]
        have hempty : st.cache.lumis = [] := by
          unfold PrincipalCache.hasLumiPrincipal at h
          simpa using h
        by_cases h2 : (!st.cache.hasRunPrincipal) = true
        · rw [if_pos h2]
          exact ⟨hr, hl, hlr⟩
        · rw [if_neg h2]
          have hrun : st.cache.runs ≠ [] := by
            unfold PrincipalCache.hasRunPrincipal at h2
            simpa using h2
          cases env.readThrows with
          | some e => exact ⟨hr, hl, hlr⟩
          | none =>
            refine ⟨hr, ?_, fun _ => hrun⟩
            simp [hempty]

/-! ## Theorems: waiting for the children -/

/-- C21: `possiblyContinueAfterForkChildFailure` leaves the state as it is
unless `child_failed` and `continueAfterChildFailure` are both true; in that
case `child_failed` is false afterwards and the one cause it reported is
zeroed (`child_fail_signal` if that is non-zero, otherwise
`child_fail_exit_status`), nothing else changes.  With
`continueAfterChildFailure` true the condition of the wait loop does not look
at `child_failed`: the loop goes on as long as no shutdown is requested and
not all children are done, and when it is left one of the two holds. -/
theorem possiblyContinue_keeps_waiting (cont : Bool) (nChildren : Nat) (st st' : SignalState)
    (w : Wake) (wakes : List Wake) :
    (¬ (st.child_failed = true ∧ cont = true) →
        possiblyContinueAfterForkChildFailure cont st = st)
      ∧ (st.child_failed = true → cont = true →
          possiblyContinueAfterForkChildFailure cont st =
            if st.child_fail_signal ≠ 0 then
              { st with child_failed := false, child_fail_signal := 0 }
            else { st with child_failed := false, child_fail_exit_status := 0 })
      ∧ keepWaiting true nChildren st
          = (!st.shutdown_flag && decide (nChildren ≠ st.num_children_done))
      ∧ (keepWaiting true nChildren st = true →
          waitLoop true nChildren (w :: wakes) st =
            waitLoop true nChildren wakes
              (possiblyContinueAfterForkChildFailure true (w.apply st)))
      ∧ (waitLoop true nChildren wakes st = some st' →
          st'.shutdown_flag = true ∨ nChildren = st'.num_children_done) := by
  refine ⟨?_, ?_, ?_, ?_, ?_⟩
  · intro h
    unfold possiblyContinueAfterForkChildFailure
    rw [if_neg]
    cases hf : st.child_failed <;> cases hc : cont <;> simp_all
  · intro hf hc
    unfold possiblyContinueAfterForkChildFailure
    rw [hf, hc]
    simp only [Bool.and_self, if_true]
    by_cases hs : st.child_fail_signal ≠ 0
    · rw [if_pos hs, if_pos hs]
    · rw [if_neg hs, if_neg hs]
      by_cases he : st.child_fail_exit_status ≠ 0
      · rw [if_pos he]
      · rw [if_neg he]
        have he0 : st.child_fail_exit_status = 0 := not_not.mp he
        cases st
        simp only [] at he0 hf
        subst he0
        rfl
  · unfold keepWaiting
    simp
  · intro hk
    show (if keepWaiting true nChildren st = true then _ else _) = _
    rw [if_pos hk]
  · have key : ∀ (ws : List Wake) (s : SignalState),
        waitLoop true nChildren ws s = some st' →
          st'.shutdown_flag = true ∨ nChildren = st'.num_children_done := by
      intro ws
      induction ws with
      | nil =>
        intro s h
        unfold waitLoop at h
        by_cases hk : keepWaiting true nChildren s = true
        · rw [if_pos hk] at h
          exact absurd h (by simp)
        · rw [if_neg hk] at h
          injection h with h
          subst h
          unfold keepWaiting at hk
          cases hsd : s.shutdown_flag
          · right
            simpa [hsd] using hk
          · left
            rfl
      | cons w' rest ih =>
        intro s h
        unfold waitLoop at h
        by_cases hk : keepWaiting true nChildren s = true
        · rw [if_pos hk] at h
          exact ih _ h
        · rw [if_neg hk] at h
          injection h with h
          subst h
          unfold keepWaiting at hk
          cases hsd : s.shutdown_flag
          · right
            simpa [hsd] using hk
          · left
            rfl
    exact key wakes st

/-! ## Theorems: the width of the child index -/

/-- C26: `numberOfDigitsInChildIndex(0)` is 3, and for every `N >= 1` the
result is the number of decimal digits of `N`; hence every child index below
`N` is below `10 ^ numberOfDigitsInChildIndex(N)`, and written with zero
padding it has exactly that many characters. -/
theorem numberOfDigitsInChildIndex_fits :
    numberOfDigitsInChildIndex 0 = 3
      ∧ ∀ N, 1 ≤ N →
          numberOfDigitsInChildIndex N = decimalWidth N
            ∧ ∀ idx, idx < N →
                idx < 10 ^ numberOfDigitsInChildIndex N
                  ∧ (zeroPadded (numberOfDigitsInChildIndex N) idx).length
                      = numberOfDigitsInChildIndex N := by
  refine ⟨by decide, ?_⟩
  intro N hN
  have hw : decimalWidth N = (Nat.digits 10 N).length := by
    unfold decimalWidth
    rw [if_neg (by omega)]
  have hpos : 0 < (Nat.digits 10 N).length := by
    rw [List.length_pos]
    exact Nat.digits_ne_nil_iff_ne_zero.mpr (by omega)
  rw [numberOfDigitsInChildIndex_eq N hN]
  refine ⟨hw.symm, ?_⟩
  intro idx hidx
  have hlt : idx < 10 ^ (Nat.digits 10 N).length :=
    lt_trans hidx (Nat.lt_base_pow_length_digits (by decide))
  refine ⟨hlt, ?_⟩
  have hlen : (Nat.toDigits 10 idx).length ≤ (Nat.digits 10 N).length :=
    Nat.toDigitsCore_length 10 (by decide) (idx + 1) idx _ hlt hpos
  unfold zeroPadded
  simp only [String.length, List.length_append, List.length_replicate]
  omega

/-! ## Theorems: the preallocation and the streams that are started -/

/-- C27: for options whose values are `unsigned int` values, with or without
a looper, the preallocation built by `init` has at least one thread and at
least one stream (`numberOfThreads` 0 counts as 1, and without a looper
`numberOfStreams` 0 takes that thread count); so `kNumStreams - 1` in
`readAndProcessEvent` does not wrap, as many streams are started as are
configured, and at least one event principal is preallocated. -/
theorem init_at_least_one_stream (optionsPset : OptionsPset) (looper : Bool)
    (hthreads : ∀ n, optionsPset.numberOfThreads = some n → n < uintModulus)
    (hstreams : ∀ n, optionsPset.numberOfStreams = some n → n < uintModulus) :
    1 ≤ (init optionsPset looper).nThreads
      ∧ 1 ≤ (init optionsPset looper).nStreams
      ∧ (optionsPset.numberOfThreads = some 0 → (init optionsPset looper).nThreads = 1)
      ∧ (optionsPset.numberOfStreams = some 0 →
          (init optionsPset false).nStreams = (init optionsPset false).nThreads)
      ∧ ((init optionsPset looper).nStreams + uintModulus - 1) % uintModulus
          = (init optionsPset looper).nStreams - 1
      ∧ startedStreams (init optionsPset looper).nStreams = (init optionsPset looper).nStreams
      ∧ 1 ≤ (preallocatedEventPrincipals (init optionsPset looper)).length := by
  have ht1 : 1 ≤ initThreads optionsPset := by
    unfold initThreads
    cases h : optionsPset.numberOfThreads with
    | none => simp
    | some n =>
      simp only []
      split <;> omega
  have ht2 : initThreads optionsPset < uintModulus := by
    unfold initThreads
    cases h : optionsPset.numberOfThreads with
    | none =>
      simp only []
      decide
    | some n =>
      simp only []
      split
      · decide
      · exact hthreads n h
  have hs1 : 1 ≤ initStreams optionsPset (initThreads optionsPset) := by
    unfold initStreams
    cases h : optionsPset.numberOfStreams with
    | none => simp
    | some n =>
      simp only []
      split <;> omega
  have hs2 : initStreams optionsPset (initThreads optionsPset) < uintModulus := by
    unfold initStreams
    cases h : optionsPset.numberOfStreams with
    | none =>
      simp only []
      decide
    | some n =>
      simp only []
      split
      · exact ht2
      · exact hstreams n h
  have hthr : (init optionsPset looper).nThreads = initThreads optionsPset := by
    unfold init
    cases looper <;> rfl
  have hstr1 : 1 ≤ (init optionsPset looper).nStreams := by
    unfold init
    cases looper
    · exact hs1
    · exact le_refl 1
  have hstr2 : (init optionsPset looper).nStreams < uintModulus := by
    unfold init
    cases looper
    · exact hs2
    · show 1 < uintModulus
      decide
  have hwrap : ((init optionsPset looper).nStreams + uintModulus - 1) % uintModulus
      = (init optionsPset looper).nStreams - 1 := by
    generalize (init optionsPset looper).nStreams = k at hstr1 hstr2
    generalize uintModulus = m at hstr2
    have h1 : k + m - 1 = (k - 1) + m := by omega
    rw [h1, Nat.add_mod_right, Nat.mod_eq_of_lt (by omega)]
  refine ⟨hthr ▸ ht1, hstr1, ?_, ?_, hwrap, ?_, ?_⟩
  · intro h0
    rw [hthr]
    unfold initThreads
    rw [h0]
    rfl
  · intro h0
    show initStreams optionsPset (initThreads optionsPset) = initThreads optionsPset
    unfold initStreams
    rw [h0]
    rfl
  · unfold startedStreams
    rw [hwrap]
    omega
  · unfold preallocatedEventPrincipals
    rw [List.length_range]
    exact hstr1

theorem init_at_least_one_stream_witness :
    1 ≤ (init { numberOfThreads := some 0, numberOfStreams := some 0 } false).nThreads
      ∧ 1 ≤ (init { numberOfThreads := some 0, numberOfStreams := some 0 } false).nStreams
      ∧ ((some 0 : Option Nat) = some 0 →
          (init { numberOfThreads := some 0, numberOfStreams := some 0 } false).nThreads = 1)
      ∧ ((some 0 : Option Nat) = some 0 →
          (init { numberOfThreads := some 0, numberOfStreams := some 0 } false).nStreams
            = (init { numberOfThreads := some 0, numberOfStreams := some 0 } false).nThreads)
      ∧ ((init { numberOfThreads := some 0, numberOfStreams := some 0 } false).nStreams
            + uintModulus - 1) % uintModulus
          = (init { numberOfThreads := some 0, numberOfStreams := some 0 } false).nStreams - 1
      ∧ startedStreams
            (init { numberOfThreads := some 0, numberOfStreams := some 0 } false).nStreams
          = (init { numberOfThreads := some 0, numberOfStreams := some 0 } false).nStreams
      ∧ 1 ≤ (preallocatedEventPrincipals
          (init { numberOfThreads := some 0, numberOfStreams := some 0 } false)).length :=
  init_at_least_one_stream { numberOfThreads := some 0, numberOfStreams := some 0 } false
    (fun n h => by
      have h' : n = 0 := (Option.some.inj h).symm
      subst h'
      decide)
    (fun n h => by
      have h' : n = 0 := (Option.some.inj h).symm
      subst h'
      decide)

/-! ## Theorems: the dispatcher on failed and short transfers -/

theorem not_mem_fdClr (idx : Nat) (set : List Nat) : idx ∉ fdClr idx set := by
  unfold fdClr
  simp

theorem mem_fdClr (p idx : Nat) (set : List Nat) : p ∈ fdClr idx set ↔ p ∈ set ∧ p ≠ idx := by
  unfold fdClr
  simp

/-- C22, as the code has it: when the `recv` of the request or the `send` of
the reply on a control socket fails (returns a negative value, `EINTR` having
been retried), the descriptor is removed from the monitored set and closed and
`startIndex` is not advanced.  When neither fails the reply counts as sent
whatever the number of bytes transferred: the descriptor stays monitored and
open and `startIndex` advances by `nIndices`.  So `startIndex` changes only
after a `send` that did not fail. -/
theorem serveSocket_closes_on_failure (r : SelectRound) (idx : Nat) (s : SenderRun) :
    ((r.recvRc idx < 0 ∨ r.sendRc idx < 0) →
        idx ∉ (serveSocket r idx s).socketSet
          ∧ (serveSocket r idx s).closed = s.closed ++ [idx]
          ∧ (serveSocket r idx s).sndmsg = s.sndmsg
          ∧ (serveSocket r idx s).sent = s.sent)
      ∧ (0 ≤ r.recvRc idx → 0 ≤ r.sendRc idx →
          (serveSocket r idx s).socketSet = s.socketSet
            ∧ (serveSocket r idx s).closed = s.closed
            ∧ (serveSocket r idx s).sent = s.sent ++ [{ fd := idx, msg := s.sndmsg }]
            ∧ (serveSocket r idx s).sndmsg.startIndex
                = (s.sndmsg.startIndex + s.sndmsg.nIndices) % uint64Modulus)
      ∧ ((serveSocket r idx s).sndmsg.startIndex ≠ s.sndmsg.startIndex →
          0 ≤ r.recvRc idx ∧ 0 ≤ r.sendRc idx) := by
  unfold serveSocket
  by_cases h1 : r.recvRc idx < 0
  · rw [if_pos h1]
    refine ⟨fun _ => ⟨not_mem_fdClr idx _, rfl, rfl, rfl⟩, fun h => absurd h1 (by omega), ?_⟩
    intro hne
    exact absurd rfl hne
  · rw [if_neg h1]
    by_cases h2 : r.sendRc idx < 0
    · rw [if_pos h2]
      refine ⟨fun _ => ⟨not_mem_fdClr idx _, rfl, rfl, rfl⟩,
        fun _ h => absurd h2 (by omega), ?_⟩
      intro hne
      exact absurd rfl hne
    · rw [if_neg h2]
      refine ⟨fun h => ?_, fun _ _ => ⟨rfl, rfl, rfl, rfl⟩, fun _ => ⟨by omega, by omega⟩⟩
      rcases h with h | h
      · exact absurd h h1
      · exact absurd h h2

/-- C22, counterexample: one child with control socket 3 and watchdog pipe 4,
chunk size 5.  The child's request is received in full but `send` transfers
only 8 of the 16 bytes of the reply: descriptor 3 is neither removed from the
monitored set nor closed, and `startIndex` has advanced from 0 to 5. -/
theorem dispatcher_short_send_advances :
    (8 : Int) < replySize
      ∧ (((MessageSenderToSource.construct [3] [4] 5).run
            [transferRound [3] 1 8]).state.socketSet = [3, 4]
        ∧ ((MessageSenderToSource.construct [3] [4] 5).run
            [transferRound [3] 1 8]).state.closed = []
        ∧ ((MessageSenderToSource.construct [3] [4] 5).run
            [transferRound [3] 1 8]).state.sndmsg.startIndex = 5) := by
  decide

/-! ## Theorems: the alive count of the dispatcher -/

theorem decrementAlive_socketSet (s : SenderRun) :
    (decrementAlive s).socketSet = s.socketSet := by
  unfold decrementAlive
  rfl

theorem decrementAlive_alive (s : SenderRun) (h1 : 1 ≤ s.aliveChildren)
    (h2 : s.aliveChildren < uintModulus) :
    (decrementAlive s).aliveChildren = s.aliveChildren - 1 := by
  unfold decrementAlive
  show (s.aliveChildren + uintModulus - 1) % uintModulus = s.aliveChildren - 1
  generalize s.aliveChildren = a at h1 h2
  generalize uintModulus = m at h2
  have h : a + m - 1 = (a - 1) + m := by omega
  rw [h, Nat.add_mod_right, Nat.mod_eq_of_lt (by omega)]

theorem errorPipeScan_not_mem (pipes : List Nat) (idx : Nat) (s : SenderRun)
    (h : idx ∉ pipes) : errorPipeScan pipes idx s = s := by
  unfold errorPipeScan
  induction pipes generalizing s with
  | nil => rfl
  | cons pipe rest ih =>
    have hne : ¬ pipe = idx := fun e => h (by rw [e]; exact List.mem_cons_self _ _)
    rw [List.foldl_cons, if_neg hne]
    exact ih s (fun hm => h (List.mem_cons_of_mem _ hm))

theorem errorPipeScan_mem (pipes : List Nat) (idx : Nat) (s : SenderRun)
    (hnodup : pipes.Nodup) (h : idx ∈ pipes) :
    errorPipeScan pipes idx s = decrementAlive s := by
  induction pipes generalizing s with
  | nil => exact absurd h (List.not_mem_nil _)
  | cons pipe rest ih =>
    obtain ⟨hnot, hrest⟩ := List.nodup_cons.mp hnodup
    by_cases he : pipe = idx
    · subst he
      have hstep : errorPipeScan (pipe :: rest) pipe s
          = errorPipeScan rest pipe (decrementAlive s) := by
        unfold errorPipeScan
        rw [List.foldl_cons, if_pos rfl]
      rw [hstep, errorPipeScan_not_mem rest pipe _ hnot]
    · have hstep : errorPipeScan (pipe :: rest) idx s = errorPipeScan rest idx s := by
        unfold errorPipeScan
        rw [List.foldl_cons, if_neg he]
      rw [hstep]
      rcases List.mem_cons.mp h with h' | h'
      · exact absurd h'.symm he
      · exact ih s hrest h'

theorem watchdogFold_not_mem (pipes : List Nat) (rc : Int) (idx : Nat)
    (acc : Bool × SenderRun) (h : idx ∉ pipes) :
    pipes.foldl
      (fun acc pipe =>
        if pipe = idx then
          (true, if rc ≤ 0 then clearAndClose idx (decrementAlive acc.2) else acc.2)
        else acc) acc = acc := by
  induction pipes generalizing acc with
  | nil => rfl
  | cons pipe rest ih =>
    have hne : ¬ pipe = idx := fun e => h (by rw [e]; exact List.mem_cons_self _ _)
    rw [List.foldl_cons, if_neg hne]
    exact ih acc (fun hm => h (List.mem_cons_of_mem _ hm))

theorem watchdogFold_mem (pipes : List Nat) (rc : Int) (idx : Nat)
    (acc : Bool × SenderRun) (hnodup : pipes.Nodup) (h : idx ∈ pipes) :
    pipes.foldl
      (fun acc pipe =>
        if pipe = idx then
          (true, if rc ≤ 0 then clearAndClose idx (decrementAlive acc.2) else acc.2)
        else acc) acc
      = (true, if rc ≤ 0 then clearAndClose idx (decrementAlive acc.2) else acc.2) := by
  induction pipes generalizing acc with
  | nil => exact absurd h (List.not_mem_nil _)
  | cons pipe rest ih =>
    obtain ⟨hnot, hrest⟩ := List.nodup_cons.mp hnodup
    by_cases he : pipe = idx
    · subst he
      rw [List.foldl_cons, if_pos rfl]
      exact watchdogFold_not_mem rest rc pipe _ hnot
    · rw [List.foldl_cons, if_neg he]
      rcases List.mem_cons.mp h with h' | h'
      · exact absurd h'.symm he
      · exact ih acc hrest h'

theorem watchdogPipeScan_not_mem (pipes : List Nat) (rc : Int) (idx : Nat) (s : SenderRun)
    (h : idx ∉ pipes) : watchdogPipeScan pipes rc idx s = (false, s) :=
  watchdogFold_not_mem pipes rc idx (false, s) h

theorem watchdogPipeScan_mem (pipes : List Nat) (rc : Int) (idx : Nat) (s : SenderRun)
    (hnodup : pipes.Nodup) (h : idx ∈ pipes) :
    watchdogPipeScan pipes rc idx s
      = (true, if rc ≤ 0 then clearAndClose idx (decrementAlive s) else s) :=
  watchdogFold_mem pipes rc idx (false, s) hnodup h

theorem filter_fdClr_not_mem (pipes : List Nat) (idx : Nat) (set : List Nat)
    (h : idx ∉ pipes) :
    pipes.filter (fun pipe => decide (pipe ∈ fdClr idx set))
      = pipes.filter (fun pipe => decide (pipe ∈ set)) := by
  apply List.filter_congr
  intro p hp
  have hne : p ≠ idx := fun e => h (e ▸ hp)
  simp [mem_fdClr, hne]

theorem filter_fdClr_mem (pipes : List Nat) (idx : Nat) (set : List Nat)
    (hnodup : pipes.Nodup) (h : idx ∈ pipes) (hset : idx ∈ set) :
    (pipes.filter (fun pipe => decide (pipe ∈ fdClr idx set))).length + 1
      = (pipes.filter (fun pipe => decide (pipe ∈ set))).length := by
  induction pipes with
  | nil => exact absurd h (List.not_mem_nil _)
  | cons pipe rest ih =>
    obtain ⟨hnot, hrest⟩ := List.nodup_cons.mp hnodup
    by_cases he : pipe = idx
    · subst he
      rw [List.filter_cons_of_neg (by simp [not_mem_fdClr]),
        List.filter_cons_of_pos (by simpa using hset),
        filter_fdClr_not_mem rest pipe set hnot, List.length_cons]
    · have hrm : idx ∈ rest := by
        rcases List.mem_cons.mp h with h' | h'
        · exact absurd h'.symm he
        · exact h'
      have ih' := ih hrest hrm
      by_cases hp : pipe ∈ set
      · rw [List.filter_cons_of_pos (by simp [mem_fdClr, hp, he]),
          List.filter_cons_of_pos (by simpa using hp), List.length_cons, List.length_cons]
        omega
      · rw [List.filter_cons_of_neg (by simp [mem_fdClr, hp]),
          List.filter_cons_of_neg (by simpa using hp)]
        exact ih'

theorem filter_mem_pos (pipes : List Nat) (idx : Nat) (set : List Nat)
    (h : idx ∈ pipes) (hset : idx ∈ set) :
    1 ≤ (pipes.filter (fun pipe => decide (pipe ∈ set))).length := by
  have hm : idx ∈ pipes.filter (fun pipe => decide (pipe ∈ set)) := by
    rw [List.mem_filter]
    exact ⟨h, by simpa using hset⟩
  exact List.length_pos_of_mem hm

theorem pipeInv_close_pipe (pipes : List Nat) (idx : Nat) (s : SenderRun)
    (hnodup : pipes.Nodup) (hlen : pipes.length < uintModulus) (h : PipeInv pipes s)
    (hp : idx ∈ pipes) (hset : idx ∈ s.socketSet) :
    PipeInv pipes (decrementAlive (clearAndClose idx s))
      ∧ PipeInv pipes (clearAndClose idx (decrementAlive s)) := by
  unfold PipeInv at h
  have hpos := filter_mem_pos pipes idx s.socketSet hp hset
  have hcount := filter_fdClr_mem pipes idx s.socketSet hnodup hp hset
  have hle : (pipes.filter (fun pipe => decide (pipe ∈ s.socketSet))).length ≤ pipes.length :=
    List.length_filter_le _ _
  have hdec : (decrementAlive s).aliveChildren = s.aliveChildren - 1 :=
    decrementAlive_alive s (by omega) (by omega)
  refine ⟨?_, ?_⟩
  · unfold PipeInv
    rw [decrementAlive_socketSet]
    have hd : (decrementAlive (clearAndClose idx s)).aliveChildren = s.aliveChildren - 1 :=
      decrementAlive_alive (clearAndClose idx s) (by show 1 ≤ s.aliveChildren; omega)
        (by show s.aliveChildren < uintModulus; omega)
    rw [hd]
    show s.aliveChildren - 1 = (pipes.filter
      (fun pipe => decide (pipe ∈ fdClr idx s.socketSet))).length
    omega
  · unfold PipeInv
    show (decrementAlive s).aliveChildren = (pipes.filter
      (fun pipe => decide (pipe ∈ fdClr idx (decrementAlive s).socketSet))).length
    rw [decrementAlive_socketSet, hdec]
    omega

theorem pipeInv_close_socket (pipes : List Nat) (idx : Nat) (s : SenderRun)
    (h : PipeInv pipes s) (hp : idx ∉ pipes) : PipeInv pipes (clearAndClose idx s) := by
  unfold PipeInv at h ⊢
  show s.aliveChildren = (pipes.filter
    (fun pipe => decide (pipe ∈ fdClr idx s.socketSet))).length
  rw [filter_fdClr_not_mem pipes idx _ hp]
  exact h

theorem serveSocket_socketSet (r : SelectRound) (idx : Nat) (s : SenderRun) :
    serveSocket r idx s = clearAndClose idx s
      ∨ ((serveSocket r idx s).socketSet = s.socketSet
          ∧ (serveSocket r idx s).aliveChildren = s.aliveChildren) := by
  unfold serveSocket
  split_ifs
  · exact Or.inl rfl
  · exact Or.inl rfl
  · exact Or.inr ⟨rfl, rfl⟩

/-- What handling one descriptor does to the alive count and the monitored
set: the invariant is kept, and no other descriptor leaves the set. -/
theorem handleFd_pipeInv (pipes : List Nat) (r : SelectRound)
    (readSockets errorSockets : List Nat) (s : SenderRun) (idx : Nat)
    (hnodup : pipes.Nodup) (hlen : pipes.length < uintModulus) (h : PipeInv pipes s)
    (hmem : idx ∈ errorSockets ∨ idx ∈ readSockets → idx ∈ s.socketSet) :
    PipeInv pipes (handleFd pipes r readSockets errorSockets s idx)
      ∧ ∀ j, j ≠ idx → j ∈ s.socketSet →
          j ∈ (handleFd pipes r readSockets errorSockets s idx).socketSet := by
  have hkeep : ∀ j, j ≠ idx → j ∈ s.socketSet → j ∈ (clearAndClose idx s).socketSet := by
    intro j hj hjs
    show j ∈ fdClr idx s.socketSet
    exact (mem_fdClr j idx _).mpr ⟨hjs, hj⟩
  unfold handleFd
  by_cases he : fdIsSet idx errorSockets = true
  · rw [if_pos he]
    have hin : idx ∈ s.socketSet := hmem (Or.inl (by simpa [fdIsSet] using he))
    by_cases hp : idx ∈ pipes
    · rw [errorPipeScan_mem pipes idx _ hnodup hp]
      refine ⟨(pipeInv_close_pipe pipes idx s hnodup hlen h hp hin).1, ?_⟩
      intro j hj hjs
      rw [decrementAlive_socketSet]
      exact hkeep j hj hjs
    · rw [errorPipeScan_not_mem pipes idx _ hp]
      exact ⟨pipeInv_close_socket pipes idx s h hp, hkeep⟩
  · rw [if_neg he]
    by_cases hr : (!fdIsSet idx readSockets) = true
    · rw [if_pos hr]
      exact ⟨h, fun j _ hjs => hjs⟩
    · rw [if_neg hr]
      have hin : idx ∈ s.socketSet := hmem (Or.inr (by simpa [fdIsSet] using hr))
      by_cases hp : idx ∈ pipes
      · rw [watchdogPipeScan_mem pipes _ idx s hnodup hp]
        simp only [Bool.not_true, Bool.false_eq_true, if_false]
        by_cases hrc : r.readRc idx ≤ 0
        · rw [if_pos hrc]
          refine ⟨(pipeInv_close_pipe pipes idx s hnodup hlen h hp hin).2, ?_⟩
          intro j hj hjs
          show j ∈ fdClr idx (decrementAlive s).socketSet
          rw [decrementAlive_socketSet]
          exact (mem_fdClr j idx _).mpr ⟨hjs, hj⟩
        · rw [if_neg hrc]
          exact ⟨h, fun j _ hjs => hjs⟩
      · rw [watchdogPipeScan_not_mem pipes _ idx s hp]
        simp only [Bool.not_false, if_true]
        rcases serveSocket_socketSet r idx s with hs | ⟨hs1, hs2⟩
        · rw [hs]
          exact ⟨pipeInv_close_socket pipes idx s h hp, hkeep⟩
        · refine ⟨?_, ?_⟩
          · unfold PipeInv at h ⊢
            rw [hs1, hs2]
            exact h
          · intro j _ hjs
            rw [hs1]
            exact hjs

theorem foldl_handleFd_pipeInv (pipes : List Nat) (r : SelectRound)
    (readSockets errorSockets : List Nat) (hnodup : pipes.Nodup)
    (hlen : pipes.length < uintModulus) (fds : List Nat) :
    ∀ s : SenderRun, fds.Nodup → PipeInv pipes s →
      (∀ j ∈ fds, j ∈ errorSockets ∨ j ∈ readSockets → j ∈ s.socketSet) →
      PipeInv pipes (fds.foldl (handleFd pipes r readSockets errorSockets) s) := by
  induction fds with
  | nil =>
    intro s _ h _
    exact h
  | cons idx rest ih =>
    intro s hfds h hmem
    obtain ⟨hnot, hrest⟩ := List.nodup_cons.mp hfds
    obtain ⟨h1, h2⟩ := handleFd_pipeInv pipes r readSockets errorSockets s idx hnodup hlen h
      (hmem idx (List.mem_cons_self _ _))
    rw [List.foldl_cons]
    apply ih _ hrest h1
    intro j hj hsel
    have hne : j ≠ idx := fun e => hnot (e ▸ hj)
    exact h2 j hne (hmem j (List.mem_cons_of_mem _ hj) hsel)

theorem senderRound_pipeInv (pipes : List Nat) (maxFd : Nat) (r : SelectRound)
    (s s' : SenderRun) (hnodup : pipes.Nodup) (hlen : pipes.length < uintModulus)
    (h : PipeInv pipes s) (hr : senderRound pipes maxFd r s = some s') :
    PipeInv pipes s' := by
  unfold senderRound at hr
  split_ifs at hr
  simp only [Option.some.injEq] at hr
  rw [← hr]
  apply foldl_handleFd_pipeInv pipes r _ _ hnodup hlen _ s (List.nodup_range maxFd) h
  intro j _ hsel
  rcases hsel with hsel | hsel
  · exact (List.mem_filter.mp hsel).1
  · exact (List.mem_filter.mp hsel).1

theorem senderLoop_pipeInv (pipes : List Nat) (maxFd : Nat) (hnodup : pipes.Nodup)
    (hlen : pipes.length < uintModulus) (rounds : List SelectRound) :
    ∀ s : SenderRun, PipeInv pipes s →
      PipeInv pipes (senderLoop pipes maxFd rounds s).state := by
  induction rounds with
  | nil =>
    intro s h
    exact h
  | cons r rest ih =>
    intro s h
    unfold senderLoop
    cases hr : senderRound pipes maxFd r s with
    | none => exact h
    | some s' =>
      have hs' := senderRound_pipeInv pipes maxFd r s s' hnodup hlen h hr
      simp only
      split_ifs
      · exact ih s' hs'
      · exact hs'

theorem senderLoop_returned (pipes : List Nat) (maxFd : Nat) (rounds : List SelectRound) :
    ∀ s t : SenderRun, senderLoop pipes maxFd rounds s = .returned t → t.aliveChildren = 0 := by
  induction rounds with
  | nil =>
    intro s t h
    simp [senderLoop] at h
  | cons r rest ih =>
    intro s t h
    unfold senderLoop at h
    cases hr : senderRound pipes maxFd r s with
    | none =>
      rw [hr] at h
      simp at h
    | some s' =>
      rw [hr] at h
      simp only at h
      by_cases ha : s'.aliveChildren > 0
      · rw [if_pos ha] at h
        exact ih s' t h
      · rw [if_neg ha] at h
        injection h with h
        subst h
        omega

theorem senderLoop_blocked (pipes : List Nat) (maxFd : Nat) (rounds : List SelectRound) :
    ∀ s t : SenderRun, senderLoop pipes maxFd rounds s = .blocked t →
      (rounds = [] ∧ t = s) ∨ 0 < t.aliveChildren := by
  induction rounds with
  | nil =>
    intro s t h
    simp only [senderLoop, SenderOutcome.blocked.injEq] at h
    exact Or.inl ⟨rfl, h.symm⟩
  | cons r rest ih =>
    intro s t h
    unfold senderLoop at h
    cases hr : senderRound pipes maxFd r s with
    | none =>
      rw [hr] at h
      simp at h
    | some s' =>
      rw [hr] at h
      simp only at h
      by_cases ha : s'.aliveChildren > 0
      · rw [if_pos ha] at h
        rcases ih s' t h with ⟨_, ht⟩ | hpos
        · right
          rw [ht]
          exact ha
        · exact Or.inr hpos
      · rw [if_neg ha] at h
        simp at h

theorem mem_foldl_fdSet (fds : List Nat) :
    ∀ (set : List Nat) (p : Nat),
      p ∈ fds.foldl (fun set fd => fdSet fd set) set ↔ p ∈ set ∨ p ∈ fds := by
  induction fds with
  | nil =>
    intro set p
    simp
  | cons fd rest ih =>
    intro set p
    rw [List.foldl_cons, ih]
    unfold fdSet
    by_cases hfd : fd ∈ set
    · rw [if_pos hfd]
      constructor
      · rintro (h | h)
        · exact Or.inl h
        · exact Or.inr (List.mem_cons_of_mem _ h)
      · rintro (h | h)
        · exact Or.inl h
        · rcases List.mem_cons.mp h with h' | h'
          · exact Or.inl (h' ▸ hfd)
          · exact Or.inr h'
    · rw [if_neg hfd]
      simp only [List.mem_append, List.mem_singleton, List.mem_cons]
      tauto

theorem errorPipeScan_socketSet (pipes : List Nat) (idx : Nat) :
    ∀ s : SenderRun, (errorPipeScan pipes idx s).socketSet = s.socketSet := by
  induction pipes with
  | nil =>
    intro s
    rfl
  | cons pipe rest ih =>
    intro s
    unfold errorPipeScan
    rw [List.foldl_cons]
    by_cases he : pipe = idx
    · rw [if_pos he]
      exact (ih (decrementAlive s)).trans (decrementAlive_socketSet s)
    · rw [if_neg he]
      exact ih s

/-- What handling a watchdog pipe does: reported in error, it is cleared and
closed and the count drops; otherwise, reported readable with a `read` result
of zero or less, the count drops and it is cleared and closed; otherwise
nothing changes. -/
theorem handleFd_pipe (pipes : List Nat) (r : SelectRound)
    (readSockets errorSockets : List Nat) (s : SenderRun) (idx : Nat)
    (hnodup : pipes.Nodup) (hp : idx ∈ pipes) :
    handleFd pipes r readSockets errorSockets s idx
      = if idx ∈ errorSockets then decrementAlive (clearAndClose idx s)
        else if idx ∈ readSockets ∧ r.readRc idx ≤ 0 then clearAndClose idx (decrementAlive s)
        else s := by
  unfold handleFd
  by_cases he : idx ∈ errorSockets
  · rw [if_pos (by simpa [fdIsSet] using he), if_pos he,
      errorPipeScan_mem pipes idx _ hnodup hp]
  · rw [if_neg (by simpa [fdIsSet] using he), if_neg he]
    by_cases hr : idx ∈ readSockets
    · rw [if_neg (by simpa [fdIsSet] using hr), watchdogPipeScan_mem pipes _ idx s hnodup hp]
      simp only [Bool.not_true, Bool.false_eq_true, if_false]
      by_cases hrc : r.readRc idx ≤ 0
      · rw [if_pos hrc, if_pos ⟨hr, hrc⟩]
      · rw [if_neg hrc, if_neg (fun h => hrc h.2)]
    · rw [if_pos (by simpa [fdIsSet] using hr), if_neg (fun h => hr h.1)]

/-- What handling any other descriptor does: reported in error, it is cleared
and closed; otherwise, reported readable, it is served as a control socket;
otherwise nothing changes. -/
theorem handleFd_not_pipe (pipes : List Nat) (r : SelectRound)
    (readSockets errorSockets : List Nat) (s : SenderRun) (idx : Nat)
    (hp : idx ∉ pipes) :
    handleFd pipes r readSockets errorSockets s idx
      = if idx ∈ errorSockets then clearAndClose idx s
        else if idx ∈ readSockets then serveSocket r idx s
        else s := by
  unfold handleFd
  by_cases he : idx ∈ errorSockets
  · rw [if_pos (by simpa [fdIsSet] using he), if_pos he, errorPipeScan_not_mem pipes idx _ hp]
  · rw [if_neg (by simpa [fdIsSet] using he), if_neg he]
    by_cases hr : idx ∈ readSockets
    · rw [if_neg (by simpa [fdIsSet] using hr), watchdogPipeScan_not_mem pipes _ idx s hp,
        if_pos hr]
      rfl
    · rw [if_pos (by simpa [fdIsSet] using hr), if_neg hr]

theorem serveSocket_alive (r : SelectRound) (idx : Nat) (s : SenderRun) :
    (serveSocket r idx s).aliveChildren = s.aliveChildren := by
  unfold serveSocket
  split_ifs <;> rfl

theorem handleFd_not_pipe_alive (pipes : List Nat) (r : SelectRound)
    (readSockets errorSockets : List Nat) (s : SenderRun) (idx : Nat)
    (hp : idx ∉ pipes) :
    (handleFd pipes r readSockets errorSockets s idx).aliveChildren = s.aliveChildren := by
  rw [handleFd_not_pipe pipes r readSockets errorSockets s idx hp]
  split_ifs
  · rfl
  · exact serveSocket_alive r idx s
  · rfl

theorem handleFd_socketSet (pipes : List Nat) (r : SelectRound)
    (readSockets errorSockets : List Nat) (s : SenderRun) (idx : Nat)
    (hnodup : pipes.Nodup) :
    (handleFd pipes r readSockets errorSockets s idx).socketSet = s.socketSet
      ∨ (handleFd pipes r readSockets errorSockets s idx).socketSet
          = fdClr idx s.socketSet := by
  by_cases hp : idx ∈ pipes
  · rw [handleFd_pipe pipes r readSockets errorSockets s idx hnodup hp]
    split_ifs
    · right
      rw [decrementAlive_socketSet]
      rfl
    · right
      show fdClr idx (decrementAlive s).socketSet = _
      rw [decrementAlive_socketSet]
    · exact Or.inl rfl
  · rw [handleFd_not_pipe pipes r readSockets errorSockets s idx hp]
    split_ifs
    · exact Or.inr rfl
    · rcases serveSocket_socketSet r idx s with h | h
      · right
        rw [h]
        rfl
      · exact Or.inl h.1
    · exact Or.inl rfl

theorem handleFd_mem_other (pipes : List Nat) (r : SelectRound)
    (readSockets errorSockets : List Nat) (s : SenderRun) (idx j : Nat)
    (hnodup : pipes.Nodup) (hj : j ≠ idx) :
    j ∈ (handleFd pipes r readSockets errorSockets s idx).socketSet ↔ j ∈ s.socketSet := by
  rcases handleFd_socketSet pipes r readSockets errorSockets s idx hnodup with h | h
  · rw [h]
  · rw [h, mem_fdClr]
    exact ⟨fun hm => hm.1, fun hm => ⟨hm, hj⟩⟩

theorem handleFd_mem_pipe (pipes : List Nat) (r : SelectRound)
    (readSockets errorSockets : List Nat) (s : SenderRun) (idx : Nat)
    (hnodup : pipes.Nodup) (hp : idx ∈ pipes) :
    idx ∈ (handleFd pipes r readSockets errorSockets s idx).socketSet
      ↔ idx ∈ s.socketSet
        ∧ ¬ (idx ∈ errorSockets ∨ (idx ∈ readSockets ∧ r.readRc idx ≤ 0)) := by
  rw [handleFd_pipe pipes r readSockets errorSockets s idx hnodup hp]
  by_cases he : idx ∈ errorSockets
  · rw [if_pos he, decrementAlive_socketSet]
    constructor
    · intro hm
      exact absurd hm (not_mem_fdClr idx _)
    · intro hm
      exact absurd (Or.inl he) hm.2
  · rw [if_neg he]
    by_cases hr : idx ∈ readSockets ∧ r.readRc idx ≤ 0
    · rw [if_pos hr]
      constructor
      · intro hm
        exact absurd hm (not_mem_fdClr idx _)
      · intro hm
        exact absurd (Or.inr hr) hm.2
    · rw [if_neg hr]
      constructor
      · intro hm
        exact ⟨hm, fun h => h.elim he hr⟩
      · intro hm
        exact hm.1

theorem foldl_handleFd_mem_pipe (pipes : List Nat) (r : SelectRound)
    (readSockets errorSockets : List Nat) (hnodup : pipes.Nodup) (fds : List Nat) :
    ∀ s : SenderRun, fds.Nodup → ∀ p, p ∈ pipes →
      (p ∈ (fds.foldl (handleFd pipes r readSockets errorSockets) s).socketSet
        ↔ p ∈ s.socketSet
          ∧ (p ∈ fds → ¬ (p ∈ errorSockets ∨ (p ∈ readSockets ∧ r.readRc p ≤ 0)))) := by
  induction fds with
  | nil =>
    intro s _ p _
    simp
  | cons idx rest ih =>
    intro s hfds p hp
    obtain ⟨hnot, hrest⟩ := List.nodup_cons.mp hfds
    rw [List.foldl_cons, ih _ hrest p hp]
    by_cases hpi : p = idx
    · subst hpi
      rw [handleFd_mem_pipe pipes r readSockets errorSockets s p hnodup hp]
      constructor
      · rintro ⟨⟨hm, hrem⟩, _⟩
        exact ⟨hm, fun _ => hrem⟩
      · rintro ⟨hm, hrem⟩
        exact ⟨⟨hm, hrem (List.mem_cons_self _ _)⟩, fun h => absurd h hnot⟩
    · rw [handleFd_mem_other pipes r readSockets errorSockets s idx p hnodup hpi]
      constructor
      · rintro ⟨hm, hrem⟩
        refine ⟨hm, fun h => ?_⟩
        rcases List.mem_cons.mp h with h' | h'
        · exact absurd h' hpi
        · exact hrem h'
      · rintro ⟨hm, hrem⟩
        exact ⟨hm, fun h => hrem (List.mem_cons_of_mem _ h)⟩

theorem senderRound_mem_pipe (pipes : List Nat) (maxFd : Nat) (r : SelectRound)
    (s s' : SenderRun) (hnodup : pipes.Nodup) (hlt : ∀ p, p ∈ pipes → p < maxFd)
    (hr : senderRound pipes maxFd r s = some s') (p : Nat) (hp : p ∈ pipes) :
    p ∈ s'.socketSet
      ↔ p ∈ s.socketSet ∧ ¬ (p ∈ r.inError ∨ (p ∈ r.readable ∧ r.readRc p ≤ 0)) := by
  unfold senderRound at hr
  split_ifs at hr
  simp only [Option.some.injEq] at hr
  rw [← hr, foldl_handleFd_mem_pipe pipes r _ _ hnodup _ s (List.nodup_range maxFd) p hp]
  have hrange : p ∈ List.range maxFd := List.mem_range.mpr (hlt p hp)
  simp only [List.mem_filter, decide_eq_true_eq]
  constructor
  · rintro ⟨hm, hrem⟩
    refine ⟨hm, fun h => hrem hrange ?_⟩
    rcases h with h | h
    · exact Or.inl ⟨hm, h⟩
    · exact Or.inr ⟨⟨hm, h.1⟩, h.2⟩
  · rintro ⟨hm, hrem⟩
    refine ⟨hm, fun _ h => hrem ?_⟩
    rcases h with h | h
    · exact Or.inl h.2
    · exact Or.inr ⟨h.1.2, h.2⟩

theorem filter_split_length (l : List Nat) (a b : Nat → Bool) :
    (l.filter (fun x => a x && !b x)).length + (l.filter (fun x => a x && b x)).length
      = (l.filter a).length := by
  induction l with
  | nil => rfl
  | cons x rest ih =>
    simp only [List.filter_cons]
    cases a x <;> cases b x <;> simp <;> omega

theorem senderRound_alive (pipes : List Nat) (maxFd : Nat) (r : SelectRound)
    (s s' : SenderRun) (hnodup : pipes.Nodup) (hlen : pipes.length < uintModulus)
    (hlt : ∀ p, p ∈ pipes → p < maxFd) (h : PipeInv pipes s)
    (hr : senderRound pipes maxFd r s = some s') :
    s'.aliveChildren
        + (pipes.filter (fun p => decide (p ∈ s.socketSet)
            && decide (p ∈ r.inError ∨ (p ∈ r.readable ∧ r.readRc p ≤ 0)))).length
      = s.aliveChildren := by
  have h' := senderRound_pipeInv pipes maxFd r s s' hnodup hlen h hr
  unfold PipeInv at h h'
  have hkept : pipes.filter (fun p => decide (p ∈ s'.socketSet))
      = pipes.filter (fun p => decide (p ∈ s.socketSet)
          && !decide (p ∈ r.inError ∨ (p ∈ r.readable ∧ r.readRc p ≤ 0))) := by
    apply List.filter_congr
    intro p hp
    have hiff := senderRound_mem_pipe pipes maxFd r s s' hnodup hlt hr p hp
    by_cases hm : p ∈ s'.socketSet
    · have h2 := hiff.1 hm
      simp [hm, h2.1, h2.2]
    · have h2 : ¬ (p ∈ s.socketSet
          ∧ ¬ (p ∈ r.inError ∨ (p ∈ r.readable ∧ r.readRc p ≤ 0))) := fun h3 => hm (hiff.2 h3)
      by_cases hs : p ∈ s.socketSet
      · have h3 : p ∈ r.inError ∨ (p ∈ r.readable ∧ r.readRc p ≤ 0) := by
          by_contra hno
          exact h2 ⟨hs, hno⟩
        simp [hm, hs, h3]
      · simp [hm, hs]
  rw [h', h, hkept]
  exact filter_split_length pipes (fun p => decide (p ∈ s.socketSet))
    (fun p => decide (p ∈ r.inError ∨ (p ∈ r.readable ∧ r.readRc p ≤ 0)))

theorem le_foldl_max (fds : List Nat) :
    ∀ m : Nat, m ≤ fds.foldl (fun m fd => if fd > m then fd else m) m
      ∧ ∀ p, p ∈ fds → p ≤ fds.foldl (fun m fd => if fd > m then fd else m) m := by
  induction fds with
  | nil =>
    intro m
    exact ⟨Nat.le_refl _, fun p hp => absurd hp (List.not_mem_nil _)⟩
  | cons fd rest ih =>
    intro m
    rw [List.foldl_cons]
    obtain ⟨h1, h2⟩ := ih (if fd > m then fd else m)
    have hm : m ≤ (if fd > m then fd else m) ∧ fd ≤ (if fd > m then fd else m) := by
      split_ifs <;> omega
    refine ⟨Nat.le_trans hm.1 h1, ?_⟩
    intro p hp
    rcases List.mem_cons.mp hp with h' | h'
    · rw [h']
      exact Nat.le_trans hm.2 h1
    · exact h2 p h'

theorem lt_maxFd (childrenSockets childrenPipes : List Nat) (n p : Nat)
    (hp : p ∈ childrenPipes) :
    p < (MessageSenderToSource.construct childrenSockets childrenPipes n).m_maxFd := by
  have h := (le_foldl_max (childrenSockets ++ childrenPipes) 0).2 p
    (List.mem_append.mpr (Or.inr hp))
  show p < (childrenSockets ++ childrenPipes).foldl (fun m fd => if fd > m then fd else m) 0 + 1
  omega

/-- C23: with the children's socket and pipe descriptors pairwise distinct and
equal in number (fewer than `2 ^ 32` of them):
wherever the dispatcher loop stands the alive count is the number of watchdog
pipes still in the monitored set; the loop is left by `return` only with the
count at zero, when no watchdog pipe is monitored any more, and as long as it
goes on after a pass the count is positive.
In a pass of the loop that starts with the count in step, a watchdog pipe
stays monitored exactly if it was monitored, is not reported in error and is
not reported readable with a `read` result of zero or less; the count drops by
the number of monitored pipes that leave, and is in step again.
Handling one monitored watchdog pipe that is in the error set, or in the read
set with a `read` result of zero or less, takes it out of the monitored set
and lowers the count, which was at least one, by exactly one; handling it
otherwise changes nothing.  Handling a descriptor that is not a watchdog pipe,
so any control socket, leaves the count as it is. -/
theorem dispatcher_alive_count (childrenSockets childrenPipes : List Nat) (n : Nat)
    (rounds : List SelectRound)
    (hdistinct : (childrenSockets ++ childrenPipes).Nodup)
    (hequal : childrenSockets.length = childrenPipes.length)
    (hrange : childrenPipes.length < uintModulus) :
    ((MessageSenderToSource.construct childrenSockets childrenPipes n).run
        rounds).state.aliveChildren
        = (childrenPipes.filter (fun pipe => decide (pipe ∈
            ((MessageSenderToSource.construct childrenSockets childrenPipes n).run
              rounds).state.socketSet))).length
      ∧ (∀ t, (MessageSenderToSource.construct childrenSockets childrenPipes n).run rounds
            = .returned t →
          t.aliveChildren = 0 ∧ ∀ pipe ∈ childrenPipes, pipe ∉ t.socketSet)
      ∧ (∀ t, (MessageSenderToSource.construct childrenSockets childrenPipes n).run rounds
            = .blocked t → rounds ≠ [] → 0 < t.aliveChildren)
      ∧ (∀ (s s' : SenderRun) (r : SelectRound), PipeInv childrenPipes s →
          senderRound childrenPipes
              (MessageSenderToSource.construct childrenSockets childrenPipes n).m_maxFd r s
            = some s' →
          (∀ pipe, pipe ∈ childrenPipes →
              (pipe ∈ s'.socketSet
                ↔ pipe ∈ s.socketSet
                  ∧ ¬ (pipe ∈ r.inError ∨ (pipe ∈ r.readable ∧ r.readRc pipe ≤ 0))))
            ∧ s'.aliveChildren
                + (childrenPipes.filter (fun pipe => decide (pipe ∈ s.socketSet)
                    && decide (pipe ∈ r.inError
                        ∨ (pipe ∈ r.readable ∧ r.readRc pipe ≤ 0)))).length
              = s.aliveChildren
            ∧ PipeInv childrenPipes s')
      ∧ (∀ (s : SenderRun) (r : SelectRound) (readSockets errorSockets : List Nat)
            (idx : Nat),
          PipeInv childrenPipes s → idx ∈ childrenPipes → idx ∈ s.socketSet →
          ((idx ∈ errorSockets ∨ (idx ∈ readSockets ∧ r.readRc idx ≤ 0)) →
              idx ∉ (handleFd childrenPipes r readSockets errorSockets s idx).socketSet
                ∧ 1 ≤ s.aliveChildren
                ∧ (handleFd childrenPipes r readSockets errorSockets s idx).aliveChildren + 1
                    = s.aliveChildren)
            ∧ (¬ (idx ∈ errorSockets ∨ (idx ∈ readSockets ∧ r.readRc idx ≤ 0)) →
                handleFd childrenPipes r readSockets errorSockets s idx = s))
      ∧ (∀ idx, idx ∈ childrenSockets → idx ∉ childrenPipes)
      ∧ (∀ (s : SenderRun) (r : SelectRound) (readSockets errorSockets : List Nat)
            (idx : Nat), idx ∉ childrenPipes →
          (handleFd childrenPipes r readSockets errorSockets s idx).aliveChildren
            = s.aliveChildren) := by
  have hnodup : childrenPipes.Nodup := (List.nodup_append.mp hdistinct).2.1
  have hstart : PipeInv childrenPipes
      { socketSet := (MessageSenderToSource.construct childrenSockets childrenPipes n).m_socketSet
        aliveChildren :=
          (MessageSenderToSource.construct childrenSockets childrenPipes n).m_aliveChildren
        sndmsg := { startIndex := 0, nIndices := n }
        closed := []
        sent := [] } := by
    unfold PipeInv MessageSenderToSource.construct
    simp only []
    have hall : childrenPipes.filter (fun pipe => decide (pipe ∈
        (childrenSockets ++ childrenPipes).foldl (fun set fd => fdSet fd set) []))
        = childrenPipes := by
      rw [List.filter_eq_self]
      intro p hp
      simp only [decide_eq_true_eq]
      rw [mem_foldl_fdSet]
      exact Or.inr (List.mem_append.mpr (Or.inr hp))
    rw [hall, hequal, Nat.mod_eq_of_lt hrange]
  have hinv := senderLoop_pipeInv childrenPipes
    (MessageSenderToSource.construct childrenSockets childrenPipes n).m_maxFd hnodup hrange
    rounds _ hstart
  refine ⟨hinv, ?_, ?_, ?_, ?_, ?_, ?_⟩
  · intro t ht
    have hzero := senderLoop_returned _ _ rounds _ t ht
    refine ⟨hzero, ?_⟩
    intro pipe hp hmem
    have hinv' : PipeInv childrenPipes t := by
      have h2 : PipeInv childrenPipes
          ((MessageSenderToSource.construct childrenSockets childrenPipes n).run
            rounds).state := hinv
      rw [ht] at h2
      exact h2
    unfold PipeInv at hinv'
    have hpos := filter_mem_pos childrenPipes pipe t.socketSet hp hmem
    omega
  · intro t ht hne
    rcases senderLoop_blocked _ _ rounds _ t ht with ⟨h, _⟩ | h
    · exact absurd h hne
    · exact h
  · intro s s' r hs hr
    have hlt : ∀ p, p ∈ childrenPipes →
        p < (MessageSenderToSource.construct childrenSockets childrenPipes n).m_maxFd :=
      fun p hp => lt_maxFd childrenSockets childrenPipes n p hp
    exact ⟨fun pipe hp => senderRound_mem_pipe childrenPipes _ r s s' hnodup hlt hr pipe hp,
      senderRound_alive childrenPipes _ r s s' hnodup hrange hlt hs hr,
      senderRound_pipeInv childrenPipes _ r s s' hnodup hrange hs hr⟩
  · intro s r readSockets errorSockets idx hs hp hmem
    have hpos := filter_mem_pos childrenPipes idx s.socketSet hp hmem
    have hle : (childrenPipes.filter (fun pipe => decide (pipe ∈ s.socketSet))).length
        ≤ childrenPipes.length := List.length_filter_le _ _
    have halive : s.aliveChildren
        = (childrenPipes.filter (fun pipe => decide (pipe ∈ s.socketSet))).length := hs
    have hdec : (decrementAlive s).aliveChildren = s.aliveChildren - 1 :=
      decrementAlive_alive s (by omega) (by omega)
    have hdec' : (decrementAlive (clearAndClose idx s)).aliveChildren = s.aliveChildren - 1 :=
      decrementAlive_alive (clearAndClose idx s) (by show 1 ≤ s.aliveChildren; omega)
        (by show s.aliveChildren < uintModulus; omega)
    rw [handleFd_pipe childrenPipes r readSockets errorSockets s idx hnodup hp]
    constructor
    · intro hrem
      by_cases he : idx ∈ errorSockets
      · rw [if_pos he, decrementAlive_socketSet, hdec']
        exact ⟨not_mem_fdClr idx _, by omega, by omega⟩
      · rw [if_neg he]
        have hr : idx ∈ readSockets ∧ r.readRc idx ≤ 0 := hrem.resolve_left he
        rw [if_pos hr]
        refine ⟨?_, by omega, ?_⟩
        · show idx ∉ fdClr idx (decrementAlive s).socketSet
          exact not_mem_fdClr idx _
        · show (decrementAlive s).aliveChildren + 1 = s.aliveChildren
          omega
    · intro hno
      rw [if_neg (fun he => hno (Or.inl he)), if_neg (fun hr => hno (Or.inr hr))]
  · intro idx hs hp
    exact (List.nodup_append.mp hdistinct).2.2 hs hp
  · intro s r readSockets errorSockets idx hp
    exact handleFd_not_pipe_alive childrenPipes r readSockets errorSockets s idx hp

/-- Witness for C23: two children with the control sockets 3 and 5 and the
watchdog pipes 4 and 6.  Pipe 4 hangs up, then socket 5 is served while pipe 6
delivers a byte, then pipe 6 hangs up: the loop returns with the count at
zero, the two sockets still monitored and one reply sent. -/
theorem dispatcher_alive_count_witness :
    ([3, 5] ++ [4, 6] : List Nat).Nodup
      ∧ ([3, 5] : List Nat).length = ([4, 6] : List Nat).length
      ∧ ([4, 6] : List Nat).length < uintModulus
      ∧ ((MessageSenderToSource.construct [3, 5] [4, 6] 2).run
          [hangupRound [4]]).state.aliveChildren = 1
      ∧ ((MessageSenderToSource.construct [3, 5] [4, 6] 2).run
          [hangupRound [4], transferRound [5, 6] 1 16]).state.aliveChildren = 1
      ∧ ((MessageSenderToSource.construct [3, 5] [4, 6] 2).run
          [hangupRound [4], transferRound [5, 6] 1 16, hangupRound [6]]).state.socketSet
          = [3, 5]
      ∧ ((MessageSenderToSource.construct [3, 5] [4, 6] 2).run
          [hangupRound [4], transferRound [5, 6] 1 16, hangupRound [6]]).state.aliveChildren
          = ([4, 6].filter (fun pipe => decide (pipe ∈
              ((MessageSenderToSource.construct [3, 5] [4, 6] 2).run
                [hangupRound [4], transferRound [5, 6] 1 16,
                  hangupRound [6]]).state.socketSet))).length :=
  ⟨by decide, by decide, by decide, by decide, by decide, by decide,
    (dispatcher_alive_count [3, 5] [4, 6] 2
      [hangupRound [4], transferRound [5, 6] 1 16, hangupRound [6]]
      (by decide) (by decide) (by decide)).1⟩


/-! ## Run and lumi transitions -/

theorem mem_streamBegins (n i : Nat) :
    TransitionCall.streamBeginDispatched i ∈ streamBegins n ↔ i < n := by
  simp [streamBegins]

theorem mem_streamEnds (n i : Nat) :
    TransitionCall.streamEndDispatched i ∈ streamEnds n ↔ i < n := by
  simp [streamEnds]

theorem globalEnd_not_mem_streamEnds (n : Nat) :
    TransitionCall.globalEnd ∉ streamEnds n := by
  simp [streamEnds]

theorem beginTransitions_ordered (env : TransitionEnv) (calls : List TransitionCall)
    (hcalls : ∀ i, TransitionCall.streamBeginDispatched i ∉ calls) :
    GlobalBeginFirst env (beginTransitions env calls) := by
  unfold GlobalBeginFirst beginTransitions
  cases hg : env.globalWaitTaskException with
  | some e =>
    refine ⟨calls, [], ?_, hcalls, ?_, ?_⟩
    · simp
    · intro e' he'
      cases he'
      simp
    · intro h; cases h
  | none =>
    refine ⟨calls, (if env.looper_ then [TransitionCall.looperDoBegin] else [])
      ++ streamBegins env.numberOfStreams ++ [TransitionCall.streamBeginAwaited], ?_, hcalls, ?_, ?_⟩
    · cases env.streamLoopWaitTaskException <;> simp
    · intro e' he'; cases he'
    · intro _ i hi
      have := (mem_streamBegins env.numberOfStreams i).2 hi
      simp [this]

theorem endTransitions_ordered (env : TransitionEnv) (calls : List TransitionCall)
    (hcalls : TransitionCall.globalEnd ∉ calls) :
    StreamEndsFirst env (endTransitions env calls) := by
  unfold StreamEndsFirst endTransitions
  have hpre : TransitionCall.globalEnd ∉ calls ++ streamEnds env.numberOfStreams := by
    simp [hcalls, globalEnd_not_mem_streamEnds]
  have hall : ∀ i, i < env.numberOfStreams →
      TransitionCall.streamEndDispatched i ∈ calls ++ streamEnds env.numberOfStreams := by
    intro i hi
    have := (mem_streamEnds env.numberOfStreams i).2 hi
    simp [this]
  cases hs : env.streamLoopWaitTaskException with
  | some e =>
    refine ⟨calls ++ streamEnds env.numberOfStreams, [], ?_, hall, hpre, ?_, ?_, ?_⟩
    · simp
    · simp
    · intro e' he'
      cases he'
      simp
    · intro h; cases h
  | none =>
    refine ⟨calls ++ streamEnds env.numberOfStreams,
      [TransitionCall.globalEnd]
        ++ (List.range env.subProcesses).map TransitionCall.subProcessDoEnd
        ++ (if env.looper_ then [TransitionCall.looperDoEnd] else []), ?_, hall, hpre, ?_, ?_, ?_⟩
    · simp
    · intro i
      cases env.looper_ <;> simp
    · intro e' he'; cases he'
    · intro _
      simp

/-- C24: in `beginRun` and in `beginLumi` the global-begin transition is
started and awaited before any stream-begin transition is started, and an
exception left by the global-begin is raised with no stream-begin started; in
`endRun` and in `endLumi` the stream-end of every stream is started and
awaited, and an exception they left is raised, before the global-end
transition runs. -/
theorem transitions_global_and_stream_order (env : TransitionEnv) :
    GlobalBeginFirst env (beginRun env) ∧ GlobalBeginFirst env (beginLumi env)
      ∧ StreamEndsFirst env (endRun env) ∧ StreamEndsFirst env (endLumi env) := by
  refine ⟨?_, ?_, ?_, ?_⟩
  · unfold beginRun
    apply beginTransitions_ordered
    intro i
    cases env.forceESCacheClearOnNewRun_ <;> cases env.looper_ <;>
      cases env.looperBeginJobRun_ <;> simp
  · unfold beginLumi
    apply beginTransitions_ordered
    intro i
    cases env.rngAvailable <;> simp
  · unfold endRun
    apply endTransitions_ordered
    simp
  · unfold endLumi
    apply endTransitions_ordered
    simp

/-- The record of `beginRun` and of `endRun` for two streams and one
sub-process when nothing fails, and of `beginRun` when the global-begin left
an exception. -/
theorem transitions_sample_records :
    beginRun sampleTransitionEnv
        = (.returned (),
            [TransitionCall.sourceDoBegin, TransitionCall.eventSetupForInstance,
             TransitionCall.globalBeginDispatched, TransitionCall.globalBeginAwaited,
             TransitionCall.streamBeginDispatched 0, TransitionCall.streamBeginDispatched 1,
             TransitionCall.streamBeginAwaited])
      ∧ endRun sampleTransitionEnv
        = (.returned (),
            [TransitionCall.sourceDoEnd, TransitionCall.eventSetupForInstance,
             TransitionCall.streamEndDispatched 0, TransitionCall.streamEndDispatched 1,
             TransitionCall.streamEndAwaited, TransitionCall.globalEnd,
             TransitionCall.subProcessDoEnd 0])
      ∧ beginRun { sampleTransitionEnv with globalWaitTaskException := some sampleFailure }
        = (.raised sampleFailure,
            [TransitionCall.sourceDoBegin, TransitionCall.eventSetupForInstance,
             TransitionCall.globalBeginDispatched, TransitionCall.globalBeginAwaited]) := by
  decide

/-! ## `processEventAsync` -/

theorem submittedTo_append (a b : List EventCall) :
    submittedTo (a ++ b) = submittedTo a ++ submittedTo b := by
  simp [submittedTo, List.filterMap_append]

theorem handedOn_append (a b : List EventCall) :
    handedOn (a ++ b) = handedOn a ++ handedOn b := by
  simp [handedOn, List.filterMap_append]

theorem submittedTo_map (l : List Nat) :
    submittedTo (l.map EventCall.subProcessDoEventAsync) = l := by
  induction l with
  | nil => rfl
  | cons a l ih =>
    simp only [List.map_cons]
    show a :: submittedTo (l.map EventCall.subProcessDoEventAsync) = a :: l
    rw [ih]

theorem handedOn_map (l : List Nat) :
    handedOn (l.map EventCall.subProcessDoEventAsync) = [] := by
  induction l with
  | nil => rfl
  | cons a l ih =>
    simp only [List.map_cons]
    show handedOn (l.map EventCall.subProcessDoEventAsync) = []
    exact ih

theorem submittedTo_finalizeEventTask (env : EventEnv) (iPtr : Option Exception) :
    submittedTo (finalizeEventTask env iPtr) = [] := by
  unfold finalizeEventTask
  cases env.looper_ <;> rfl

theorem handedOn_finalizeEventTask (env : EventEnv) (iPtr : Option Exception) :
    handedOn (finalizeEventTask env iPtr) = [iPtr] := by
  unfold finalizeEventTask
  cases env.looper_ <;> rfl

theorem processEventAsync_calls (env : EventEnv) (iStreamIndex : Nat)
    (hassert : env.assertionsHold = true) :
    processEventAsync env iStreamIndex =
      (.returned (),
        (if env.rngAvailable then [EventCall.rngPostEventRead] else [])
          ++ [EventCall.scheduleProcessOneEventAsync iStreamIndex]
          ++ afterProcessTask env env.scheduleException) := by
  unfold processEventAsync
  simp [hassert]

theorem submittedTo_processEventAsync (env : EventEnv) (iStreamIndex : Nat)
    (hassert : env.assertionsHold = true) :
    submittedTo (processEventAsync env iStreamIndex).2
      = submittedTo (afterProcessTask env env.scheduleException) := by
  rw [processEventAsync_calls env iStreamIndex hassert]
  simp only [submittedTo_append]
  cases env.rngAvailable <;> rfl

theorem handedOn_processEventAsync (env : EventEnv) (iStreamIndex : Nat)
    (hassert : env.assertionsHold = true) :
    handedOn (processEventAsync env iStreamIndex).2
      = handedOn (afterProcessTask env env.scheduleException) := by
  rw [processEventAsync_calls env iStreamIndex hassert]
  simp only [handedOn_append]
  cases env.rngAvailable <;> rfl

theorem afterProcessTask_some (env : EventEnv) (e : Exception) :
    afterProcessTask env (some e) = finalizeEventTask env (some e) := by
  unfold afterProcessTask
  by_cases h0 : env.subProcesses = 0
  · rw [if_pos h0]
  · rw [if_neg h0]

theorem submittedTo_afterProcessTask_none (env : EventEnv) :
    submittedTo (afterProcessTask env none) = (List.range env.subProcesses).reverse := by
  unfold afterProcessTask
  by_cases h0 : env.subProcesses = 0
  · rw [if_pos h0, submittedTo_finalizeEventTask, h0]
    rfl
  · rw [if_neg h0]
    simp only [submittedTo_append, submittedTo_map, submittedTo_finalizeEventTask,
      List.append_nil]

/-- C25: in `processEventAsync`, past the assertions, when the schedule hands
no exception to the task that follows it the event is submitted to the
sub-processes in the reverse of their declared order, each of them exactly
once, and when the schedule hands over an exception the event is submitted
to no sub-process and that exception is what the finalise step hands on. -/
theorem processEventAsync_subProcesses (env : EventEnv) (iStreamIndex : Nat)
    (hassert : env.assertionsHold = true) :
    (env.scheduleException = none →
        submittedTo (processEventAsync env iStreamIndex).2
            = (List.range env.subProcesses).reverse
          ∧ ∀ subProcess, subProcess < env.subProcesses →
              (submittedTo (processEventAsync env iStreamIndex).2).count subProcess = 1)
      ∧ (∀ e, env.scheduleException = some e →
          (processEventAsync env iStreamIndex).1 = .returned ()
            ∧ submittedTo (processEventAsync env iStreamIndex).2 = []
            ∧ handedOn (processEventAsync env iStreamIndex).2 = [some e]) := by
  rw [submittedTo_processEventAsync env iStreamIndex hassert,
    handedOn_processEventAsync env iStreamIndex hassert]
  constructor
  · intro hnone
    rw [hnone, submittedTo_afterProcessTask_none]
    refine ⟨rfl, ?_⟩
    intro subProcess hlt
    apply List.count_eq_one_of_mem
    · exact List.nodup_reverse.2 (List.nodup_range _)
    · simp [hlt]
  · intro e he
    rw [he, afterProcessTask_some, submittedTo_finalizeEventTask, handedOn_finalizeEventTask]
    refine ⟨?_, rfl, rfl⟩
    rw [processEventAsync_calls env iStreamIndex hassert]

/-- Witness for C25: with two sub-processes and a schedule that succeeds the
event goes to sub-process 1 and then to sub-process 0. -/
theorem processEventAsync_subProcesses_witness :
    sampleEventEnv.assertionsHold = true
      ∧ submittedTo (processEventAsync sampleEventEnv 0).2 = [1, 0] :=
  ⟨rfl, ((processEventAsync_subProcesses sampleEventEnv 0 rfl).1 rfl).1⟩


/-! ## Theorems: the deferred exception stays -/

theorem held_of_eq (e : Exception) (st st' : ProcessorState) (h : DeferredHeld e st)
    (h1 : st'.deferredExceptionPtrIsSet_ = st.deferredExceptionPtrIsSet_)
    (h2 : st'.deferredExceptionPtr_ = st.deferredExceptionPtr_) : DeferredHeld e st' := by
  unfold DeferredHeld at h ⊢
  rw [h1, h2]
  exact h

theorem held_storeDeferred (e e' : Exception) (st : ProcessorState)
    (h : DeferredHeld e st) : DeferredHeld e (storeDeferred e' st) :=
  ⟨storeDeferred_flag e' st, by rw [storeDeferred_ptr_of_set e' st h.1]; exact h.2⟩

theorem readNextEventForStream_of_held (e : Exception) (a : ReadAnswers) (i : Nat)
    (fin : Bool) (st : ProcessorState) (h : DeferredHeld e st) :
    readNextEventForStream a i fin st = (false, fin, st) := by
  unfold readNextEventForStream
  by_cases h1 : shouldWeStop st.shouldWeStop_ a.terminate = true
  · rw [if_pos h1]
  · rw [if_neg h1, if_pos h.1]

theorem readNextEventForStream_held (e : Exception) (a : ReadAnswers) (i : Nat)
    (fin : Bool) (st : ProcessorState) (h : DeferredHeld e st) :
    DeferredHeld e (readNextEventForStream a i fin st).2.2 := by
  rw [readNextEventForStream_of_held e a i fin st h]
  exact h

theorem blockStart_held (e : Exception) (k : Nat) (st : ProcessorState)
    (h : DeferredHeld e st) : DeferredHeld e (blockStart k st).proc :=
  held_of_eq e st _ h rfl rfl

theorem runBlock_held (e : Exception) (steps : List LoopStep) (b b' : BlockState)
    (h : DeferredHeld e b.proc) (hrun : runBlock steps b = some b') :
    DeferredHeld e b'.proc :=
  runBlock_proc_inv (DeferredHeld e) (fun st h => held_of_eq e st _ h rfl rfl)
    (fun a i fin st h => readNextEventForStream_held e a i fin st h)
    (fun st h => held_of_eq e st _ h rfl rfl)
    (fun e' st h => held_storeDeferred e e' st h) steps b b' h hrun

theorem readAndProcessEvent_held (e : Exception) (n : Int) (k : Nat) (env : BlockEnv)
    (st : ProcessorState) (h : DeferredHeld e st) :
    DeferredHeld e (readAndProcessEvent n k env st).2 := by
  have hstart := blockStart_held e k st h
  unfold readAndProcessEvent
  by_cases hn : n > 0
  · rw [if_pos hn]
    have h1 : DeferredHeld e { st with calls := st.calls ++ [.readEvent 0] } :=
      held_of_eq e st _ h rfl rfl
    cases env.forkedReadEventThrows with
    | some e' => exact h1
    | none =>
      simp only []
      by_cases hl : env.forkedLooperStops = true
      · rw [if_pos hl]
        exact held_of_eq e _ _ h1 rfl rfl
      · rw [if_neg hl]
        exact h1
  · rw [if_neg hn]
    cases hrun : runBlock env.steps (blockStart k st) with
    | none => exact hstart
    | some b =>
      have hb : DeferredHeld e b.proc := runBlock_held e env.steps _ b hstart hrun
      simp only []
      rw [if_pos hb.1, hb.2]
      exact hb

theorem readAndProcessEvent_of_held (e : Exception) (n : Int) (k : Nat) (env : BlockEnv)
    (st : ProcessorState) (h : DeferredHeld e st) (hn : n ≤ 0) :
    (readAndProcessEvent n k env st).1 = .raised e
      ∨ (readAndProcessEvent n k env st).1 = .blocked := by
  unfold readAndProcessEvent
  rw [if_neg (by omega)]
  cases hrun : runBlock env.steps (blockStart k st) with
  | none => exact Or.inr rfl
  | some b =>
    have hb : DeferredHeld e b.proc :=
      runBlock_held e env.steps _ b (blockStart_held e k st h) hrun
    simp only []
    rw [if_pos hb.1, hb.2]
    exact Or.inl rfl

theorem beforeBlock_held (e : Exception) (event : MachineEvent) (r : MachineReaction)
    (st : ProcessorState) (h : DeferredHeld e st) : DeferredHeld e (beforeBlock event r st) := by
  unfold beforeBlock doErrorStuff startingNewLoop
  cases r.errorState <;> cases r.startsNewLoop <;> exact held_of_eq e st _ h rfl rfl

theorem processMachineEvent_held (e : Exception) (cfg : RunConfig) (event : MachineEvent)
    (r : MachineReaction) (st : ProcessorState) (h : DeferredHeld e st) :
    DeferredHeld e (processMachineEvent cfg event r st).2 := by
  show DeferredHeld e (blockOfReaction cfg event r (beforeBlock event r st)).2
  have hb := beforeBlock_held e event r st h
  unfold blockOfReaction
  cases event <;> cases r.block <;>
    first
      | exact hb
      | exact readAndProcessEvent_held e _ _ _ _ hb

theorem dispatchItem_held (e : Exception) (cfg : RunConfig) (p : LoopIteration) (itemType : ItemType)
    (rc : StatusCode) (t : Bool) (st : ProcessorState) (h : DeferredHeld e st) :
    DeferredHeld e (dispatchItem cfg p itemType rc t st).2
      ∧ ∀ exit, (dispatchItem cfg p itemType rc t st).1 = some exit →
          exit.state = (dispatchItem cfg p itemType rc t st).2 := by
  unfold dispatchItem
  by_cases hitem : itemType = .IsEvent ∨ itemType = .IsSynchronize
  · rw [if_pos hitem]
    cases t with
    | true =>
      refine ⟨h, ?_⟩
      intro exit heq
      simp at heq
      rw [← heq]
      rfl
    | false =>
      refine ⟨h, ?_⟩
      intro exit heq
      simp at heq
  · rw [if_neg hitem]
    cases hev : transitionFor itemType with
    | none =>
      refine ⟨h, ?_⟩
      intro exit heq
      simp at heq
      rw [← heq]
      rfl
    | some event =>
      have hinv := processMachineEvent_held e cfg event p.onTransition st h
      simp only []
      cases hout : (processMachineEvent cfg event p.onTransition st) with
      | mk outcome st1 =>
        rw [hout] at hinv
        cases outcome with
        | returned t1 =>
          cases t1 with
          | true =>
            refine ⟨hinv, ?_⟩
            intro exit heq
            simp at heq
            rw [← heq]
            rfl
          | false =>
            refine ⟨hinv, ?_⟩
            intro exit heq
            simp at heq
        | raised e =>
          refine ⟨hinv, ?_⟩
          intro exit heq
          simp at heq
          rw [← heq]
          exact ofOutcome_state _ _
        | exited status =>
          refine ⟨hinv, ?_⟩
          intro exit heq
          simp at heq
          rw [← heq]
          exact ofOutcome_state _ _
        | aborted =>
          refine ⟨hinv, ?_⟩
          intro exit heq
          simp at heq
          rw [← heq]
          exact ofOutcome_state _ _
        | blocked =>
          refine ⟨hinv, ?_⟩
          intro exit heq
          simp at heq
          rw [← heq]
          exact ofOutcome_state _ _

theorem passStart_held (e : Exception) (cfg : RunConfig) (p : LoopIteration)
    (st : ProcessorState) (h : DeferredHeld e st) : DeferredHeld e (passStart cfg p st) := by
  unfold passStart
  cases p.signal <;> exact held_of_eq e st _ h rfl rfl

theorem passBody_held (e : Exception) (cfg : RunConfig) (p : LoopIteration) (itemType : ItemType)
    (rc : StatusCode) (st1 : ProcessorState) (h : DeferredHeld e st1) :
    DeferredHeld e (passBody cfg p itemType rc st1).2.2
      ∧ ∀ exit, (passBody cfg p itemType rc st1).1 = some exit →
          exit.state = (passBody cfg p itemType rc st1).2.2 := by
  unfold passBody
  simp only []
  by_cases hcheck : (checkForAsyncStopRequest st1.shutdown_flag rc).1 = true
  · rw [if_pos hcheck]
    have hinv := processMachineEvent_held e cfg .Stop p.onTransition
      { st1 with calls := st1.calls ++ [.preSourceEarlyTerminationSignal] }
      (held_of_eq e st1 _ h rfl rfl)
    cases hout : processMachineEvent cfg .Stop p.onTransition
        { st1 with calls := st1.calls ++ [.preSourceEarlyTerminationSignal] } with
    | mk outcome st3 =>
      rw [hout] at hinv
      cases outcome <;>
        exact ⟨hinv, fun exit heq => by
          simp at heq
          rw [← heq]
          rfl⟩
  · rw [if_neg hcheck]
    by_cases hitem : itemType = .IsEvent
    · rw [if_pos hitem]
      have hinv := processMachineEvent_held e cfg .Event p.onEvent st1 h
      cases hout : processMachineEvent cfg .Event p.onEvent st1 with
      | mk outcome st2 =>
        rw [hout] at hinv
        cases outcome with
        | returned t =>
          simp only []
          by_cases hstop : st2.asyncStopRequestedWhileProcessingEvents_ = true
          · rw [if_pos hstop]
            have hinv2 := processMachineEvent_held e cfg .Stop p.onTransition st2 hinv
            cases hout2 : processMachineEvent cfg .Stop p.onTransition st2 with
            | mk outcome2 st3 =>
              rw [hout2] at hinv2
              cases outcome2 <;>
                exact ⟨hinv2, fun exit heq => by
                  simp at heq
                  rw [← heq]
                  rfl⟩
          · rw [if_neg hstop]
            exact dispatchItem_held e cfg p _ _ t st2 hinv
        | raised e =>
          exact ⟨hinv, fun exit heq => by
            simp at heq
            rw [← heq]
            exact ofOutcome_state _ _⟩
        | exited status =>
          exact ⟨hinv, fun exit heq => by
            simp at heq
            rw [← heq]
            exact ofOutcome_state _ _⟩
        | aborted =>
          exact ⟨hinv, fun exit heq => by
            simp at heq
            rw [← heq]
            exact ofOutcome_state _ _⟩
        | blocked =>
          exact ⟨hinv, fun exit heq => by
            simp at heq
            rw [← heq]
            exact ofOutcome_state _ _⟩
    · rw [if_neg hitem]
      exact dispatchItem_held e cfg p _ _ false st1 h

theorem mainLoop_held (e : Exception) (cfg : RunConfig) (passes : List LoopIteration) :
    ∀ (rc : StatusCode) (st : ProcessorState), DeferredHeld e st →
      DeferredHeld e (mainLoop cfg passes rc st).state := by
  induction passes with
  | nil =>
    intro rc st h
    exact h
  | cons p rest ih =>
    intro rc st h
    obtain ⟨hinv, hexit⟩ := passBody_held e cfg p (passItemType cfg p) rc (passStart cfg p st)
      (passStart_held e cfg p st h)
    unfold mainLoop loopPass
    cases hpass : passBody cfg p (passItemType cfg p) rc (passStart cfg p st) with
    | mk exit rest2 =>
      cases rest2 with
      | mk rc1 st1 =>
        rw [hpass] at hinv hexit
        cases exit with
        | some e =>
          simp only []
          rw [hexit e rfl]
          exact hinv
        | none =>
          simp only []
          exact ih rc1 st1 hinv

theorem afterLoop_state (exit : LoopExit) : (afterLoop exit).2 = exit.state := by
  cases exit with
  | raised e st => rfl
  | stuck outcome st => rfl
  | finished rc t st =>
    rw [afterLoop_finished]
    by_cases h1 : st.stateMachineWasInErrorState_ = true
    · rw [if_pos h1]
      rfl
    · rw [if_neg h1]
      cases t <;> rfl

theorem runToCompletion_held (e : Exception) (cfg : RunConfig) (env : RunEnv)
    (st : ProcessorState) (h : DeferredHeld e st) :
    DeferredHeld e (runToCompletion cfg env st).2 := by
  unfold runToCompletion
  cases env.beginJob with
  | some e' => exact held_of_eq e st _ h rfl rfl
  | none =>
    cases createStateMachine cfg.fileMode_ cfg.emptyRunLumiMode_ with
    | error e' => exact held_of_eq e st _ h rfl rfl
    | ok machine =>
      simp only []
      rw [afterLoop_state]
      exact mainLoop_held e cfg env.passes .epSuccess (startRun st)
        (held_of_eq e st _ h rfl rfl)

theorem waiting_card_setStatus_stopped (status : Nat → StreamStatus) (n i : Nat)
    (hi : i < n) (hw : status i = .waiting) :
    ((Finset.range n).filter (fun j => setStatus status i .stopped j = .waiting)).card + 1
      = ((Finset.range n).filter (fun j => status j = .waiting)).card := by
  have heq : (Finset.range n).filter (fun j => setStatus status i .stopped j = .waiting)
      = ((Finset.range n).filter (fun j => status j = .waiting)).erase i := by
    ext j
    simp only [Finset.mem_filter, Finset.mem_range, Finset.mem_erase, setStatus]
    by_cases hj : j = i
    · subst hj
      simp
    · simp [hj]
  have hmem : i ∈ (Finset.range n).filter (fun j => status j = .waiting) := by
    simp [hi, hw]
  rw [heq, Finset.card_erase_of_mem hmem]
  have hpos : 0 < ((Finset.range n).filter (fun j => status j = .waiting)).card :=
    Finset.card_pos.2 ⟨i, hmem⟩
  omega

theorem runBlock_held_returns (e : Exception) (steps : List LoopStep) :
    ∀ b : BlockState, DeferredHeld e b.proc →
      (∀ i, i < b.nStreams → b.status i = .waiting ∨ b.status i = .stopped) →
      b.running ≤ ((Finset.range b.nStreams).filter (fun i => b.status i = .waiting)).card →
      (∀ i, i < b.nStreams → b.status i = .waiting → ∃ a, LoopStep.read i a ∈ steps) →
      ∃ b', runBlock steps b = some b' := by
  induction steps with
  | nil =>
    intro b _ _ hcard hreads
    have hempty : (Finset.range b.nStreams).filter (fun i => b.status i = .waiting) = ∅ := by
      apply Finset.filter_eq_empty_iff.2
      intro i hi hw
      obtain ⟨a, ha⟩ := hreads i (Finset.mem_range.1 hi) hw
      simp at ha
    rw [hempty] at hcard
    have hz : b.running = 0 := by simpa using hcard
    exact ⟨b, by unfold runBlock; rw [if_pos hz]⟩
  | cons step rest ih =>
    intro b hheld hstatus hcard hreads
    unfold runBlock
    by_cases hz : b.running = 0
    · rw [if_pos hz]
      exact ⟨b, rfl⟩
    rw [if_neg hz]
    cases step with
    | signal =>
      apply ih
      · exact held_of_eq e b.proc _ hheld rfl rfl
      · exact hstatus
      · exact hcard
      · intro i hi hw
        obtain ⟨a, ha⟩ := hreads i hi hw
        simp only [List.mem_cons] at ha
        rcases ha with ha | ha
        · cases ha
        · exact ⟨a, ha⟩
    | read i a =>
      by_cases hc : i < b.nStreams ∧ b.status i = .waiting
      · have hr : readNextEventForStream a i b.finishedProcessingEvents b.proc
            = (false, b.finishedProcessingEvents, b.proc) :=
          readNextEventForStream_of_held e a i _ _ hheld
        have hstep : blockStep b (.read i a)
            = { b with proc := b.proc, finishedProcessingEvents := b.finishedProcessingEvents
                       status := setStatus b.status i .stopped, running := b.running - 1 } := by
          simp only [blockStep]
          rw [if_pos hc, hr]
          simp
        rw [hstep]
        apply ih
        · exact hheld
        · intro j hj
          show setStatus b.status i .stopped j = .waiting
            ∨ setStatus b.status i .stopped j = .stopped
          unfold setStatus
          by_cases hji : j = i
          · rw [if_pos hji]
            exact Or.inr rfl
          · rw [if_neg hji]
            exact hstatus j hj
        · show b.running - 1
            ≤ ((Finset.range b.nStreams).filter
                (fun j => setStatus b.status i .stopped j = .waiting)).card
          have := waiting_card_setStatus_stopped b.status b.nStreams i hc.1 hc.2
          omega
        · intro j hj hw
          have hw' : setStatus b.status i .stopped j = .waiting := hw
          unfold setStatus at hw'
          by_cases hji : j = i
          · rw [if_pos hji] at hw'
            cases hw'
          · rw [if_neg hji] at hw'
            obtain ⟨a', ha'⟩ := hreads j hj hw'
            simp only [List.mem_cons] at ha'
            rcases ha' with ha' | ha'
            · injection ha' with h1 h2
              exact absurd h1 hji
            · exact ⟨a', ha'⟩
      · have hstep : blockStep b (.read i a) = b := by
          simp only [blockStep]
          rw [if_neg hc]
        rw [hstep]
        apply ih b hheld hstatus hcard
        intro j hj hw
        obtain ⟨a', ha'⟩ := hreads j hj hw
        simp only [List.mem_cons] at ha'
        rcases ha' with ha' | ha'
        · injection ha' with h1 h2
          subst h1
          exact absurd ⟨hj, hw⟩ hc
        · exact ⟨a', ha'⟩
    | processed i failure looperStops =>
      have hc : ¬ (i < b.nStreams ∧ b.status i = .processing) := by
        intro hc
        rcases hstatus i hc.1 with h1 | h1
        · rw [h1] at hc
          exact absurd hc.2 (by decide)
        · rw [h1] at hc
          exact absurd hc.2 (by decide)
      have hstep : blockStep b (.processed i failure looperStops) = b := by
        simp only [blockStep]
        rw [if_neg hc]
      rw [hstep]
      apply ih b hheld hstatus hcard
      intro j hj hw
      obtain ⟨a', ha'⟩ := hreads j hj hw
      simp only [List.mem_cons] at ha'
      rcases ha' with ha' | ha'
      · cases ha'
      · exact ⟨a', ha'⟩

theorem readAndProcessEvent_rethrows (e : Exception) (n : Int) (k : Nat) (env : BlockEnv)
    (st : ProcessorState) (h : DeferredHeld e st) (hn : n ≤ 0)
    (hreads : ∀ i, i < startedStreams k → ∃ a, LoopStep.read i a ∈ env.steps) :
    (readAndProcessEvent n k env st).1 = .raised e := by
  obtain ⟨b, hb⟩ := runBlock_held_returns e env.steps (blockStart k st)
    (blockStart_held e k st h) (fun _ _ => Or.inl rfl)
    (by
      show startedStreams k
        ≤ ((Finset.range (startedStreams k)).filter
            (fun _ => StreamStatus.waiting = StreamStatus.waiting)).card
      simp)
    (fun i hi _ => hreads i hi)
  rcases readAndProcessEvent_of_held e n k env st h hn with hr | hr
  · exact hr
  · unfold readAndProcessEvent at hr
    rw [if_neg (by omega), hb] at hr
    have hheld : DeferredHeld e b.proc :=
      runBlock_held e env.steps _ b (blockStart_held e k st h) hb
    simp only [] at hr
    rw [if_pos hheld.1, hheld.2] at hr
    cases hr

theorem processMachineEvent_rethrows (e : Exception) (cfg : RunConfig)
    (r : MachineReaction) (benv : BlockEnv) (st : ProcessorState) (h : DeferredHeld e st)
    (hn : cfg.numberOfForkedChildren_ ≤ 0) (hblock : r.block = some benv)
    (hreads : ∀ i, i < startedStreams cfg.kNumStreams → ∃ a, LoopStep.read i a ∈ benv.steps) :
    (processMachineEvent cfg .Event r st).1 = .raised e := by
  have hb := beforeBlock_held e .Event r st h
  have hraise := readAndProcessEvent_rethrows e cfg.numberOfForkedChildren_ cfg.kNumStreams
    benv _ hb hn hreads
  unfold processMachineEvent blockOfReaction
  simp only [hblock]
  rw [hraise]

/-- C28: once the deferred-exception slot holds an exception `e` (the flag is
set and the pointer is `e`): `readNextEventForStream` returns false and
leaves the members and the record of calls as they are, so the source is not
asked; a further attempt to store, a `readAndProcessEvent` (forked or not) and
a whole `runToCompletion` leave the flag set and the pointer at `e`; a
non-forked `readAndProcessEvent` does not return normally, and raises `e` as
soon as the queued read of every started stream has run; and so does the
`process_event(Event)` of a `runToCompletion` in which the machine calls
`readAndProcessEvent`. -/
theorem deferredException_never_cleared (e : Exception) (st : ProcessorState)
    (hset : st.deferredExceptionPtrIsSet_ = true)
    (hptr : st.deferredExceptionPtr_ = some e) :
    (∀ a i fin, readNextEventForStream a i fin st = (false, fin, st))
      ∧ (∀ e', DeferredHeld e (storeDeferred e' st))
      ∧ (∀ n k env, DeferredHeld e (readAndProcessEvent n k env st).2)
      ∧ (∀ cfg env, DeferredHeld e (runToCompletion cfg env st).2)
      ∧ (∀ n k env, n ≤ 0 →
          (readAndProcessEvent n k env st).1 = .raised e
            ∨ (readAndProcessEvent n k env st).1 = .blocked)
      ∧ (∀ n k env, n ≤ 0 →
          (∀ i, i < startedStreams k → ∃ a, LoopStep.read i a ∈ env.steps) →
          (readAndProcessEvent n k env st).1 = .raised e)
      ∧ (∀ cfg r benv, cfg.numberOfForkedChildren_ ≤ 0 → r.block = some benv →
          (∀ i, i < startedStreams cfg.kNumStreams → ∃ a, LoopStep.read i a ∈ benv.steps) →
          (processMachineEvent cfg .Event r st).1 = .raised e) := by
  have h : DeferredHeld e st := ⟨hset, hptr⟩
  exact ⟨fun a i fin => readNextEventForStream_of_held e a i fin st h,
    fun e' => held_storeDeferred e e' st h,
    fun n k env => readAndProcessEvent_held e n k env st h,
    fun cfg env => runToCompletion_held e cfg env st h,
    fun n k env hn => readAndProcessEvent_of_held e n k env st h hn,
    fun n k env hn hreads => readAndProcessEvent_rethrows e n k env st h hn hreads,
    fun cfg r benv hn hblock hreads =>
      processMachineEvent_rethrows e cfg r benv st h hn hblock hreads⟩

/-- Witness for C28: a run of two streams stores `sampleFailure`; on the object
it leaves, a read returns false with nothing changed, and a second
`runToCompletion` over a file with one good event raises `sampleFailure`
again and leaves it stored. -/
theorem deferredException_never_cleared_witness :
    (runToCompletion (sampleRunConfig 0 2) failedRun
        ProcessorState.initial).2.deferredExceptionPtrIsSet_ = true
      ∧ (runToCompletion (sampleRunConfig 0 2) failedRun
          ProcessorState.initial).2.deferredExceptionPtr_ = some sampleFailure
      ∧ readNextEventForStream (ReadAnswers.next .IsEvent) 0 false
          (runToCompletion (sampleRunConfig 0 2) failedRun ProcessorState.initial).2
        = (false, false,
            (runToCompletion (sampleRunConfig 0 2) failedRun ProcessorState.initial).2)
      ∧ DeferredHeld sampleFailure
          (runToCompletion (sampleRunConfig 0 1) quietRun
            (runToCompletion (sampleRunConfig 0 2) failedRun ProcessorState.initial).2).2
      ∧ (runToCompletion (sampleRunConfig 0 1) quietRun
          (runToCompletion (sampleRunConfig 0 2) failedRun ProcessorState.initial).2).1
        = .raised sampleFailure :=
  ⟨by decide, by decide,
    (deferredException_never_cleared sampleFailure
      (runToCompletion (sampleRunConfig 0 2) failedRun ProcessorState.initial).2
      (by decide) (by decide)).1 _ _ _,
    (deferredException_never_cleared sampleFailure
      (runToCompletion (sampleRunConfig 0 2) failedRun ProcessorState.initial).2
      (by decide) (by decide)).2.2.2.1 _ _,
    by decide⟩


/-! ## Theorems: `EVTColContainer` -/

theorem run_cons (operation : ContainerOperation) (rest : List ContainerOperation)
    (c : EVTColContainer) :
    EVTColContainer.run (operation :: rest) c
      = (c.apply operation).bind (EVTColContainer.run rest) := rfl

theorem run_append_singleton (operations : List ContainerOperation)
    (operation : ContainerOperation) (c : EVTColContainer) :
    EVTColContainer.run (operations ++ [operation]) c
      = (EVTColContainer.run operations c).bind (fun c' => c'.apply operation) := by
  induction operations generalizing c with
  | nil =>
    show (c.apply operation).bind (EVTColContainer.run []) = c.apply operation
    cases c.apply operation <;> rfl
  | cons first rest ih =>
    rw [List.cons_append, run_cons, run_cons]
    cases c.apply first with
    | none => rfl
    | some c1 => exact ih c1

theorem sinceLastReset_append_reset (operations : List ContainerOperation) :
    sinceLastReset (operations ++ [ContainerOperation.reset]) = [] := by
  simp [sinceLastReset]

theorem sinceLastReset_append_set (operations : List ContainerOperation)
    (argument : SetArgument) :
    sinceLastReset (operations ++ [ContainerOperation.set argument])
      = sinceLastReset operations ++ [ContainerOperation.set argument] := by
  simp [sinceLastReset, List.takeWhile_cons]

theorem countedCalls_append (a b : List ContainerOperation) :
    countedCalls (a ++ b) = countedCalls a + countedCalls b := by
  simp [countedCalls]

theorem set_counted (c : EVTColContainer) (argument : SetArgument)
    (hcounted : argument.objtype.isSome = true) :
    ∀ c', c.set argument = some c' →
      c'.nInitialized = c.nInitialized + 1 ∧ c'.nOfCollections = c.nOfCollections
        ∧ c.nInitialized < intMax := by
  have hpre : ∀ n, preIncrement c.nInitialized = some n →
      n = c.nInitialized + 1 ∧ c.nInitialized < intMax := by
    intro n hn
    unfold preIncrement at hn
    by_cases hlt : c.nInitialized < intMax
    · rw [if_pos hlt] at hn
      injection hn with hn
      exact ⟨hn.symm, hlt⟩
    · rw [if_neg hlt] at hn
      cases hn
  cases argument <;>
    first
      | (simp [SetArgument.objtype] at hcounted; done)
      | (unfold EVTColContainer.set
         cases hinc : preIncrement c.nInitialized with
         | none => simp
         | some n =>
           obtain ⟨h1, h2⟩ := hpre n hinc
           intro c' hc'
           simp at hc'
           rw [← hc']
           exact ⟨h1, rfl, h2⟩)

theorem set_defined (c : EVTColContainer) (argument : SetArgument)
    (hlt : c.nInitialized < intMax) : ∃ c', c.set argument = some c' := by
  have hinc : preIncrement c.nInitialized = some (c.nInitialized + 1) := by
    unfold preIncrement
    rw [if_pos hlt]
  cases argument <;> unfold EVTColContainer.set <;> simp [hinc]

theorem run_counts (operations : List ContainerOperation) :
    ∀ c, EVTColContainer.run operations EVTColContainer.construct = some c →
      c.nInitialized = (countedCalls (sinceLastReset operations) : Int)
        ∧ c.nOfCollections = 7 := by
  induction operations using List.reverseRecOn with
  | nil =>
    intro c hc
    injection hc with hc
    rw [← hc]
    exact ⟨rfl, rfl⟩
  | append_singleton operations operation ih =>
    intro c hc
    rw [run_append_singleton] at hc
    cases hrun : EVTColContainer.run operations EVTColContainer.construct with
    | none =>
      rw [hrun] at hc
      cases hc
    | some c0 =>
      rw [hrun] at hc
      have hc' : c0.apply operation = some c := hc
      obtain ⟨hn, hof⟩ := ih c0 hrun
      cases operation with
      | reset =>
        injection hc' with hc'
        rw [← hc', sinceLastReset_append_reset]
        exact ⟨rfl, hof⟩
      | set argument =>
        have hset : c0.set argument = some c := hc'
        rw [sinceLastReset_append_set, countedCalls_append]
        cases hcounted : argument.objtype.isSome with
        | true =>
          obtain ⟨h1, h2, _⟩ := set_counted c0 argument hcounted c hset
          rw [h1, h2, hn]
          refine ⟨?_, hof⟩
          simp [countedCalls, ContainerOperation.objtype, hcounted]
        | false =>
          cases argument <;>
            first
              | (simp [SetArgument.objtype] at hcounted; done)
              | (unfold EVTColContainer.set at hset
                 injection hset with hset
                 rw [← hset]
                 refine ⟨?_, hof⟩
                 show c0.nInitialized = _
                 rw [hn]
                 simp [countedCalls, ContainerOperation.objtype, SetArgument.objtype])

theorem run_defined (operations : List ContainerOperation) :
    (∀ n, (countedCalls (sinceLastReset (operations.take n)) : Int) ≤ intMax) →
      ∃ c, EVTColContainer.run operations EVTColContainer.construct = some c := by
  induction operations using List.reverseRecOn with
  | nil =>
    intro _
    exact ⟨_, rfl⟩
  | append_singleton operations operation ih =>
    intro hbound
    have hprev : ∀ n, (countedCalls (sinceLastReset (operations.take n)) : Int) ≤ intMax := by
      intro n
      by_cases hn : n ≤ operations.length
      · have h := hbound n
        rw [List.take_append_of_le_length hn] at h
        exact h
      · have h := hbound operations.length
        rw [List.take_append_of_le_length (Nat.le_refl _), List.take_length] at h
        rw [List.take_of_length_le (by omega)]
        exact h
    obtain ⟨c0, hc0⟩ := ih hprev
    rw [run_append_singleton, hc0]
    show ∃ c, c0.apply operation = some c
    cases operation with
    | reset => exact ⟨_, rfl⟩
    | set argument =>
      show ∃ c, c0.set argument = some c
      cases hcounted : argument.objtype.isSome with
      | false =>
        cases argument <;>
          first
            | (simp [SetArgument.objtype] at hcounted; done)
            | exact ⟨_, rfl⟩
      | true =>
        apply set_defined
        have hlast := hbound (operations.length + 1)
        rw [List.take_of_length_le (by simp), sinceLastReset_append_set,
          countedCalls_append] at hlast
        have hone : countedCalls [ContainerOperation.set argument] = 1 := by
          simp [countedCalls, ContainerOperation.objtype, hcounted]
        rw [hone] at hlast
        rw [(run_counts operations c0 hc0).1]
        push_cast at hlast
        omega

theorem sinceLastReset_of_no_reset (operations : List ContainerOperation) :
    ContainerOperation.reset ∉ operations → sinceLastReset operations = operations := by
  induction operations using List.reverseRecOn with
  | nil =>
    intro _
    rfl
  | append_singleton operations operation ih =>
    intro hno
    have hprev : ContainerOperation.reset ∉ operations := fun h => hno (by simp [h])
    cases operation with
    | reset => exact absurd (by simp) hno
    | set argument => rw [sinceLastReset_append_set, ih hprev]

theorem countedCalls_eq_sum (operations : List ContainerOperation) :
    countedCalls operations
      = callsOf 0 operations + callsOf 1 operations + callsOf 2 operations
        + callsOf 3 operations + callsOf 4 operations + callsOf 5 operations
        + callsOf 6 operations := by
  induction operations with
  | nil => rfl
  | cons operation rest ih =>
    have hc : ∀ op : ContainerOperation, countedCalls (op :: rest)
        = (if op.objtype.isSome then 1 else 0) + countedCalls rest := by
      intro op
      unfold countedCalls
      rw [List.filter_cons]
      cases op.objtype.isSome
      · simp
      · simp
        omega
    have hk : ∀ (t : Nat) (op : ContainerOperation), callsOf t (op :: rest)
        = (if op.objtype = some t then 1 else 0) + callsOf t rest := by
      intro t op
      unfold callsOf
      rw [List.filter_cons]
      by_cases h : op.objtype = some t
      · simp [h]
        omega
      · simp [h]
    rw [hc, hk 0, hk 1, hk 2, hk 3, hk 4, hk 5, hk 6, ih]
    cases operation with
    | reset =>
      simp [ContainerOperation.objtype]
    | set argument =>
      cases argument <;> simp [ContainerOperation.objtype, SetArgument.objtype] <;> omega

theorem countedCalls_take_le (n : Nat) (operations : List ContainerOperation) :
    countedCalls (operations.take n) ≤ countedCalls operations :=
  ((List.take_sublist n operations).filter _).length_le

theorem not_mem_take (n : Nat) (operations : List ContainerOperation)
    (h : ContainerOperation.reset ∉ operations) :
    ContainerOperation.reset ∉ operations.take n :=
  fun hmem => h (List.mem_of_mem_take hmem)

/-- C29: take any sequence of setter calls and `reset()` calls on a freshly
constructed `EVTColContainer`, every `++nInitialized` of which is defined.
Then `isAllInit()` is true exactly when the calls after the last `reset()`
(all calls if there is none) contain seven calls of the seven counted
setters, whatever their arguments and however often each was called, the
setter of the jet tags not counting.  The calls are all defined as long as no
more than 2147483647 counted calls follow one another without a `reset()`.
In particular `isAllInit()` is true once each counted setter has been called
exactly once and `reset()` not at all, and it is false after a `reset()`. -/
theorem isAllInit_iff_seven_counted_calls (operations : List ContainerOperation) :
    (∀ c, EVTColContainer.run operations EVTColContainer.construct = some c →
        (c.isAllInit = true ↔ countedCalls (sinceLastReset operations) = 7))
      ∧ ((∀ n, (countedCalls (sinceLastReset (operations.take n)) : Int) ≤ intMax) →
          ∃ c, EVTColContainer.run operations EVTColContainer.construct = some c)
      ∧ (ContainerOperation.reset ∉ operations →
          (∀ objtype, objtype < 7 → callsOf objtype operations = 1) →
          ∃ c, EVTColContainer.run operations EVTColContainer.construct = some c
            ∧ c.isAllInit = true)
      ∧ (∀ c, EVTColContainer.run operations EVTColContainer.construct = some c →
          EVTColContainer.run (operations ++ [ContainerOperation.reset])
              EVTColContainer.construct = some c.reset
            ∧ c.reset.isAllInit = false) := by
  have hiff : ∀ c, EVTColContainer.run operations EVTColContainer.construct = some c →
      (c.isAllInit = true ↔ countedCalls (sinceLastReset operations) = 7) := by
    intro c hc
    obtain ⟨hn, hof⟩ := run_counts operations c hc
    unfold EVTColContainer.isAllInit
    rw [hn, hof]
    simp
    omega
  refine ⟨hiff, run_defined operations, ?_, ?_⟩
  · intro hno hall
    have hseven : countedCalls operations = 7 := by
      rw [countedCalls_eq_sum, hall 0 (by omega), hall 1 (by omega), hall 2 (by omega),
        hall 3 (by omega), hall 4 (by omega), hall 5 (by omega), hall 6 (by omega)]
    obtain ⟨c, hc⟩ := run_defined operations (by
      intro n
      rw [sinceLastReset_of_no_reset _ (not_mem_take n operations hno)]
      have hle := countedCalls_take_le n operations
      rw [hseven] at hle
      have h7 : ((countedCalls (List.take n operations) : Nat) : Int) ≤ 7 := by
        exact_mod_cast hle
      unfold intMax
      omega)
    refine ⟨c, hc, (hiff c hc).2 ?_⟩
    rw [sinceLastReset_of_no_reset _ hno]
    exact hseven
  · intro c hc
    obtain ⟨_, hof⟩ := run_counts operations c hc
    refine ⟨?_, ?_⟩
    · rw [run_append_singleton, hc]
      rfl
    · unfold EVTColContainer.isAllInit
      show decide ((0 : Int) = c.nOfCollections) = false
      rw [hof]
      rfl


/-! ## Theorems: `tableRow::getRowValue` -/

theorem startsWith_iff (s col : List Char) :
    startsWith s col = true ↔ ∃ after, s = col ++ after := by
  induction col generalizing s with
  | nil => simp [startsWith]
  | cons b col ih =>
    cases s with
    | nil => simp [startsWith]
    | cons a s =>
      simp only [startsWith, Bool.and_eq_true, beq_iff_eq, ih, List.cons_append,
        List.cons.injEq]
      constructor
      · rintro ⟨rfl, after, rfl⟩
        exact ⟨after, rfl, rfl⟩
      · rintro ⟨after, rfl, rfl⟩
        exact ⟨rfl, after, rfl⟩

theorem findAt_isSome_iff (col s : List Char) (pos : Nat) :
    (findAt col s pos).isSome = true ↔ ∃ before after, s = before ++ col ++ after := by
  induction s generalizing pos with
  | nil =>
    unfold findAt
    by_cases h : startsWith [] col = true
    · rw [if_pos h]
      obtain ⟨after, ha⟩ := (startsWith_iff [] col).1 h
      exact ⟨fun _ => ⟨[], after, by simpa using ha⟩, fun _ => rfl⟩
    · rw [if_neg h]
      constructor
      · intro hsome
        cases hsome
      · rintro ⟨before, after, heq⟩
        exfalso
        apply h
        rw [startsWith_iff]
        have hnil : before ++ col ++ after = [] := heq.symm
        simp only [List.append_eq_nil] at hnil
        exact ⟨[], by rw [hnil.1.2]; rfl⟩
  | cons a s ih =>
    unfold findAt
    by_cases h : startsWith (a :: s) col = true
    · rw [if_pos h]
      obtain ⟨after, ha⟩ := (startsWith_iff (a :: s) col).1 h
      exact ⟨fun _ => ⟨[], after, by simpa using ha⟩, fun _ => rfl⟩
    · rw [if_neg h, ih (pos + 1)]
      constructor
      · rintro ⟨before, after, heq⟩
        exact ⟨a :: before, after, by rw [heq]; rfl⟩
      · rintro ⟨before, after, heq⟩
        cases before with
        | nil =>
          exfalso
          apply h
          rw [startsWith_iff]
          exact ⟨after, by simpa using heq⟩
        | cons b before =>
          simp only [List.cons_append, List.cons.injEq] at heq
          exact ⟨before, after, heq.2⟩

theorem find_isSome_iff (column col : String) :
    (find column col).isSome = true ↔ ContainsSubstring column col :=
  findAt_isSome_iff col.data column.data 0

theorem columnLoop_append_singleton (col : String) (columns : List String)
    (column : String) (i : Nat) (state : Option Int) :
    columnLoop col (columns ++ [column]) i state
      = if (find column col).isSome then some (toInt (i + columns.length))
        else columnLoop col columns i state := by
  induction columns generalizing i state with
  | nil => rfl
  | cons first rest ih =>
    show columnLoop col (rest ++ [column]) (i + 1) _ = _
    rw [ih]
    have hlen : i + 1 + rest.length = i + (first :: rest).length := by
      simp only [List.length_cons]
      omega
    rw [hlen]
    rfl

theorem getElem?_append_singleton (columns : List String) (column column' : String) (k : Nat)
    (h : (columns ++ [column])[k]? = some column') :
    (k < columns.length ∧ columns[k]? = some column')
      ∨ (k = columns.length ∧ column' = column) := by
  by_cases hk : k < columns.length
  · rw [List.getElem?_append_left hk] at h
    exact Or.inl ⟨hk, h⟩
  · have hlt : k < (columns ++ [column]).length := by
      by_contra hnot
      rw [List.getElem?_eq_none_iff.2 (by omega)] at h
      cases h
    have hk' : k = columns.length := by
      simp only [List.length_append, List.length_singleton] at hlt
      omega
    subst hk'
    rw [List.getElem?_append_right (Nat.le_refl _)] at h
    simp at h
    exact Or.inr ⟨rfl, h.symm⟩

theorem columnLoop_none_iff (col : String) (columns : List String) (i : Nat) :
    columnLoop col columns i none = none
      ↔ ∀ column, column ∈ columns → ¬ ContainsSubstring column col := by
  induction columns using List.reverseRecOn with
  | nil => simp [columnLoop]
  | append_singleton columns column ih =>
    rw [columnLoop_append_singleton]
    by_cases hfind : (find column col).isSome = true
    · rw [if_pos hfind]
      constructor
      · intro h
        cases h
      · intro h
        exact absurd ((find_isSome_iff column col).1 hfind) (h column (by simp))
    · rw [if_neg hfind, ih]
      constructor
      · intro h column' hmem
        simp only [List.mem_append, List.mem_singleton] at hmem
        rcases hmem with hmem | hmem
        · exact h column' hmem
        · rw [hmem]
          exact fun hc => hfind ((find_isSome_iff column col).2 hc)
      · intro h column' hmem
        exact h column' (by simp [hmem])

theorem columnLoop_some (col : String) (columns : List String) (i : Nat) (ct : Int) :
    columnLoop col columns i none = some ct →
      ∃ j column, columns[j]? = some column ∧ ContainsSubstring column col
        ∧ (∀ k column', j < k → columns[k]? = some column' →
            ¬ ContainsSubstring column' col)
        ∧ ct = toInt (i + j) := by
  induction columns using List.reverseRecOn with
  | nil =>
    intro h
    cases h
  | append_singleton columns column ih =>
    rw [columnLoop_append_singleton]
    by_cases hfind : (find column col).isSome = true
    · rw [if_pos hfind]
      intro h
      injection h with h
      refine ⟨columns.length, column, ?_, (find_isSome_iff column col).1 hfind, ?_, h.symm⟩
      · rw [List.getElem?_append_right (Nat.le_refl _)]
        simp
      · intro k column' hk hget
        rcases getElem?_append_singleton columns column column' k hget with h1 | h1
        · omega
        · omega
    · rw [if_neg hfind]
      intro h
      obtain ⟨j, column0, hget, hcontains, hlater, hct⟩ := ih h
      have hj : j < columns.length := by
        by_contra hnot
        rw [List.getElem?_eq_none_iff.2 (by omega)] at hget
        cases hget
      refine ⟨j, column0, ?_, hcontains, ?_, hct⟩
      · rw [List.getElem?_append_left hj]
        exact hget
      · intro k column' hk hget'
        rcases getElem?_append_singleton columns column column' k hget' with h1 | h1
        · exact hlater k column' hk h1.2
        · rw [h1.2]
          exact fun hc => hfind ((find_isSome_iff column col).2 hc)

theorem toSizeType_toInt (j : Nat) (hj : j < 2147483648) : toSizeType (toInt j) = j := by
  have hmod : j % uintModulus = j := Nat.mod_eq_of_lt (by unfold uintModulus; omega)
  unfold toInt
  rw [hmod, if_pos hj]
  unfold toSizeType
  have hlt : (j : Int) < (uint64Modulus : Int) := by
    unfold uint64Modulus
    omega
  rw [Int.emod_eq_of_lt (by omega) hlt]
  exact Int.toNat_ofNat j

theorem toSizeType_toInt_large (n : Nat) (h31 : 2147483648 ≤ n) (h32 : n < uintModulus) :
    uint64Modulus - 2147483648 ≤ toSizeType (toInt n) := by
  have hmod : n % uintModulus = n := Nat.mod_eq_of_lt h32
  unfold toInt
  rw [hmod, if_neg (by omega)]
  unfold toSizeType
  unfold uintModulus at h32 ⊢
  unfold uint64Modulus
  omega

theorem getRowValue_out_of_range {α : Type} (lexical_cast : String → Option α)
    (self : tableRow) (col column : String) (front : List String)
    (hcolumns : self._columns = front ++ [column])
    (hcontains : (find column col).isSome = true)
    (h31 : 2147483648 ≤ front.length) (h32 : front.length + 1 < uintModulus)
    (hrow : self._row.length < uintModulus) :
    self.getRowValue lexical_cast col = .out_of_range := by
  unfold tableRow.getRowValue
  have hlen : self._columns.length = front.length + 1 := by
    rw [hcolumns]
    simp
  rw [if_neg (by rw [hlen]; omega), hcolumns, columnLoop_append_singleton, if_pos hcontains]
  simp only []
  have hlarge := toSizeType_toInt_large (0 + front.length) (by omega) (by omega)
  have hnone : self._row[toSizeType (toInt (0 + front.length))]? = none := by
    apply List.getElem?_eq_none_iff.2
    unfold uintModulus at hrow
    unfold uint64Modulus at hlarge
    omega
  rw [hnone]

/-- C30, as amended: for every `tableRow` with at most 2147483648 column names
whose row has at least as many entries as it has column names,
`getRowValue(col)` throws `runtime_error` exactly when no column name contains
`col` as a substring (the message is then "Column <col>not found."), and
otherwise it gives the lexical cast of the row entry at the last index whose
column name contains `col`: the value of the cast, or `bad_lexical_cast`
where the cast throws. -/
theorem getRowValue_last_matching_column {α : Type} (lexical_cast : String → Option α)
    (self : tableRow) (col : String)
    (hrow : self._columns.length ≤ self._row.length)
    (hint : self._columns.length ≤ 2147483648) :
    ((∃ what, self.getRowValue lexical_cast col = .runtime_error what)
        ↔ ∀ column, column ∈ self._columns → ¬ ContainsSubstring column col)
      ∧ ((∀ column, column ∈ self._columns → ¬ ContainsSubstring column col) →
          self.getRowValue lexical_cast col
            = .runtime_error ("Column " ++ col ++ "not found."))
      ∧ (∀ (i : Nat) column, self._columns[i]? = some column → ContainsSubstring column col →
          (∀ (k : Nat) column', i < k → self._columns[k]? = some column' →
            ¬ ContainsSubstring column' col) →
          ∃ entry, self._row[i]? = some entry
            ∧ self.getRowValue lexical_cast col = RowValue.ofCast (lexical_cast entry)) := by
  have hsmall : ¬ uintModulus ≤ self._columns.length := by
    unfold uintModulus
    omega
  cases hloop : columnLoop col self._columns 0 none with
  | none =>
    have hnone := (columnLoop_none_iff col self._columns 0).1 hloop
    have hres : self.getRowValue lexical_cast col
        = .runtime_error ("Column " ++ col ++ "not found.") := by
      unfold tableRow.getRowValue
      rw [if_neg hsmall, hloop]
    refine ⟨⟨fun _ => hnone, fun _ => ⟨_, hres⟩⟩, fun _ => hres, ?_⟩
    intro i column hget hcontains _
    exact absurd hcontains (hnone column (List.getElem?_mem hget))
  | some ct =>
    obtain ⟨j, column0, hget0, hcontains0, hlater0, hct⟩ :=
      columnLoop_some col self._columns 0 ct hloop
    have hj : j < self._columns.length := by
      by_contra hnot
      rw [List.getElem?_eq_none_iff.2 (by omega)] at hget0
      cases hget0
    have hsize : toSizeType ct = j := by
      rw [hct, Nat.zero_add]
      exact toSizeType_toInt j (by omega)
    obtain ⟨entry, hentry⟩ : ∃ entry, self._row[j]? = some entry :=
      ⟨_, List.getElem?_eq_getElem (by omega)⟩
    have hentry' : self._row[toSizeType ct]? = some entry := by
      rw [hsize]
      exact hentry
    have hres : self.getRowValue lexical_cast col = RowValue.ofCast (lexical_cast entry) := by
      unfold tableRow.getRowValue
      rw [if_neg hsmall, hloop]
      simp only []
      rw [hentry']
    have hmem : column0 ∈ self._columns := List.getElem?_mem hget0
    refine ⟨⟨?_, fun h => absurd hcontains0 (h column0 hmem)⟩,
      fun h => absurd hcontains0 (h column0 hmem), ?_⟩
    · rintro ⟨what, hwhat⟩
      rw [hres] at hwhat
      cases hcast : lexical_cast entry with
      | none =>
        rw [hcast] at hwhat
        cases hwhat
      | some value =>
        rw [hcast] at hwhat
        cases hwhat
    · intro i column hget hcontains hlater
      have hij : i = j := by
        rcases Nat.lt_trichotomy i j with h | h | h
        · exact absurd hcontains0 (hlater j column0 h hget0)
        · exact h
        · exact absurd hcontains (hlater0 i column h hget)
      subst hij
      exact ⟨entry, hentry, hres⟩

/-- Witness for C30: in a row with the columns "id" and "idx" and the entries
"1" and "2", asking for "id" as a string gives "2", the entry of the column
"idx". -/
theorem getRowValue_last_matching_column_witness :
    sampleTableRow._columns.length ≤ sampleTableRow._row.length
      ∧ sampleTableRow._columns.length ≤ 2147483648
      ∧ sampleTableRow._columns[1]? = some "idx"
      ∧ (∃ entry, sampleTableRow._row[1]? = some entry
          ∧ sampleTableRow.getRowValue (fun text => some text) "id"
            = RowValue.ofCast (some entry))
      ∧ sampleTableRow.getRowValue (fun text => some text) "id" = .returned "2" :=
  ⟨by decide, by decide, rfl,
    (getRowValue_last_matching_column (fun text => some text) sampleTableRow "id"
      (by decide) (by decide)).2.2 1 "idx" rfl ⟨[], ['x'], rfl⟩
      (fun k column' hk hget => by
        have hlt : k < sampleTableRow._columns.length := by
          by_contra hnot
          rw [List.getElem?_eq_none_iff.2 (by omega)] at hget
          cases hget
        have h2 : sampleTableRow._columns.length = 2 := rfl
        omega),
    by decide⟩

/-- C30 fails as stated: in a row of 2147483649 entries whose last column name
"x" is the only one that contains "x", `getRowValue("x")` does not give the
cast of the last entry but throws `out_of_range`, the index 2147483648 having
become negative in the `int` it is kept in. -/
theorem getRowValue_beyond_int_range :
    wideTableRow._columns.length ≤ wideTableRow._row.length
      ∧ wideTableRow._columns = List.replicate 2147483648 "" ++ ["x"]
      ∧ ContainsSubstring "x" "x"
      ∧ wideTableRow._row[2147483648]? = some "0"
      ∧ wideTableRow.getRowValue (fun text => some text) "x" = .out_of_range := by
  refine ⟨?_, rfl, ⟨[], [], rfl⟩, ?_, ?_⟩
  · show (List.replicate 2147483648 "" ++ ["x"]).length
      ≤ (List.replicate (2147483648 + 1) "0").length
    rw [List.length_append, List.length_replicate, List.length_replicate]
    exact Nat.le_refl _
  · show (List.replicate (2147483648 + 1) "0")[2147483648]? = some "0"
    rw [List.getElem?_replicate, if_pos (by omega)]
  · apply getRowValue_out_of_range (fun text => some text) wideTableRow "x" "x"
      (List.replicate 2147483648 "") rfl
    · rfl
    · rw [List.length_replicate]
    · rw [List.length_replicate]
      unfold uintModulus
      omega
    · show (List.replicate (2147483648 + 1) "0").length < uintModulus
      rw [List.length_replicate]
      unfold uintModulus
      omega

end EventProcessor
